import Mathlib

/-!
# Verification development for the jiminy simulation engine

Shallow embedding of the parts of `EngineMultiRobot.cc` (lifecycle guards,
system and force registries, option validation, start-up contact check,
spring-damper contact law, coupling forces) that the specification talks
about, followed by the theorems settling the specification claims.

Conventions.
* `float64_t` quantities are modelled in exact arithmetic: rationals for the
  engine state, an arbitrary linearly ordered field for the contact law.
  `INF` is `none` in `Option ℚ`.
* `std::shared_ptr<Robot>` is an optional record carrying the pointer
  identity `id`; `std::weak_ptr` is the optional identity of its target.
* Functors (callbacks, force functions) are opaque handles (`Nat`).
* Constants and helpers that live in headers outside the translated sources
  (`Constants.h`, `Helpers.h`) are parameters, bundled in `Constants` and
  `Helpers`.
-/

namespace jiminy

/-! ## Basic types -/

/-- Status codes returned by the public surface. -/
inductive hresult_t where
  | SUCCESS
  | ERROR_GENERIC
  | ERROR_BAD_INPUT
  | ERROR_INIT_FAILED
  deriving DecidableEq, Repr, Inhabited

/-- Contact model selected at option time. -/
inductive contactModel_t where
  | NONE
  | SPRING_DAMPER
  | CONSTRAINT
  deriving DecidableEq, Repr, Inhabited

/-- Constraint solver selected at option time. -/
inductive constraintSolver_t where
  | PGS
  | NONE
  deriving DecidableEq, Repr, Inhabited

/-- Three-dimensional vector (`vector3_t`). -/
structure Vector3 (α : Type) where
  x : α
  y : α
  z : α
  deriving DecidableEq, Repr, Inhabited

/-- Spatial force (`pinocchio::Force`): linear and angular parts. -/
structure Force (α : Type) where
  linear : Vector3 α
  angular : Vector3 α
  deriving DecidableEq, Repr, Inhabited

/-- Robot as seen by the engine: pointer identity, initialization flag and the
names of the frames of its model (`pncModel_.frames`), in index order. -/
structure Robot where
  id : Nat
  isInitialized : Bool
  frames : List String
  deriving DecidableEq, Repr, Inhabited

/-- Controller as seen by the engine: initialization flag and the target of the
weak back-reference `robot_` (`none` when expired or unset). -/
structure AbstractController where
  isInitialized : Bool
  robot_ : Option Nat
  deriving DecidableEq, Repr, Inhabited

/-- Entry of `systems_`. -/
structure systemHolder_t where
  name : String
  robot : Robot
  controller : AbstractController
  callbackFct : Nat
  deriving DecidableEq, Repr, Inhabited

/-- Entry of `forcesCoupling_`. -/
structure forceCoupling_t where
  systemName1 : String
  systemIdx1 : Nat
  systemName2 : String
  systemIdx2 : Nat
  frameName1 : String
  frameIdx1 : Nat
  frameName2 : String
  frameIdx2 : Nat
  forceFct : Nat
  deriving DecidableEq, Repr, Inhabited

/-- Entry of a per-system impulse register. -/
structure forceImpulse_t where
  frameName : String
  frameIdx : Nat
  t : ℚ
  dt : ℚ
  F : Force ℚ
  deriving DecidableEq, Repr, Inhabited

/-- Entry of a per-system profile register. -/
structure forceProfile_t where
  frameName : String
  frameIdx : Nat
  updatePeriod : ℚ
  forceFct : Nat
  deriving DecidableEq, Repr, Inhabited

/-- Ordered insertion without duplicates: `std::set<float64_t>::emplace`. -/
def setEmplace (x : ℚ) : List ℚ → List ℚ
  | [] => [x]
  | y :: ys =>
    if x < y then x :: y :: ys
    else if x = y then y :: ys
    else y :: setEmplace x ys

/-- Entry of `systemsDataHolder_`, restricted to the force registers and the
robot lock. -/
structure systemDataHolder_t where
  robotLock : Bool
  forcesImpulse : List forceImpulse_t
  forcesImpulseBreaks : List ℚ
  forcesImpulseActive : List Bool
  forcesProfile : List forceProfile_t
  deriving DecidableEq, Repr, Inhabited

/-- Default-constructed `systemDataHolder_t` (what `resize` appends). -/
def systemDataHolder_t.empty : systemDataHolder_t :=
  { robotLock := false, forcesImpulse := [], forcesImpulseBreaks := [],
    forcesImpulseActive := [], forcesProfile := [] }

/-! ## Options -/

/-- Options of the `stepper` section read by the engine. -/
structure stepperOptions_t where
  dtMax : ℚ
  successiveIterFailedMax : Nat
  odeSolver : String
  sensorsUpdatePeriod : ℚ
  controllerUpdatePeriod : ℚ
  randomSeed : Nat
  tolAbs : ℚ
  tolRel : ℚ
  iterMax : Nat
  deriving DecidableEq, Repr, Inhabited

/-- Options of the `constraints` section. -/
structure constraintsOptions_t where
  solver : String
  regularization : ℚ
  deriving DecidableEq, Repr, Inhabited

/-- Options of the `contacts` section. -/
structure contactOptions_t (α : Type) where
  model : String
  stiffness : α
  damping : α
  friction : α
  torsion : α
  transitionEps : α
  transitionVelocity : α
  stabilizationFreq : α
  deriving DecidableEq, Repr, Inhabited

/-- Options of the `world` section (gravity as a dense vector). -/
structure worldOptions_t where
  gravity : List ℚ
  deriving DecidableEq, Repr, Inhabited

/-- Engine options (`configHolder_t` and its fast accessor share this shape). -/
structure engineOptions_t where
  stepper : stepperOptions_t
  constraints : constraintsOptions_t
  contacts : contactOptions_t ℚ
  world : worldOptions_t
  deriving DecidableEq, Repr, Inhabited

/-- Constants declared in `Constants.h` and the lookup tables declared in the
engine header, taken as parameters. -/
structure Constants where
  EPS : ℚ
  STEPPER_MIN_TIMESTEP : ℚ
  SIMULATION_MIN_TIMESTEP : ℚ
  SIMULATION_MAX_TIMESTEP : ℚ
  STEPPERS : List String
  CONSTRAINT_SOLVERS_MAP : List (String × constraintSolver_t)
  CONTACT_MODELS_MAP : List (String × contactModel_t)

/-- Helpers declared in `Helpers.h`, taken as parameters: the variadic
`isGcdIncluded(values...)`, its iterator overload (periods of a range followed
by the extra values) and `minClipped`. -/
structure Helpers where
  isGcdIncluded : List (Option ℚ) → Bool × Option ℚ
  isGcdIncludedRange : List ℚ → List (Option ℚ) → Bool × Option ℚ
  minClipped : Option ℚ → Option ℚ → Option ℚ

/-! ## Engine state -/

/-- State of `EngineMultiRobot` that the lifecycle operations read or write.
`randomGenerators` is the seed last passed to `resetRandomGenerators`. -/
structure EngineMultiRobot where
  isSimulationRunning_ : Bool
  isTelemetryConfigured_ : Bool
  systems_ : List systemHolder_t
  systemsDataHolder_ : List systemDataHolder_t
  forcesCoupling_ : List forceCoupling_t
  engineOptionsHolder_ : engineOptions_t
  engineOptions_ : Option engineOptions_t
  contactModel_ : contactModel_t
  stepperUpdatePeriod_ : Option ℚ
  randomGenerators : Option Nat
  deriving DecidableEq, Repr, Inhabited

/-- Lookup in a `std::map<std::string, T>`. -/
def mapFind {β : Type} (m : List (String × β)) (key : String) : Option β :=
  (m.find? (fun kv => kv.1 == key)).map Prod.snd

/-- Resize of `systemsDataHolder_` to `n` entries. -/
def resizeHolder (l : List systemDataHolder_t) (n : Nat) : List systemDataHolder_t :=
  l.take n ++ List.replicate (n - l.length) systemDataHolder_t.empty

/-- Translation of `EngineMultiRobot::getSystemIdx`. -/
def getSystemIdx (e : EngineMultiRobot) (systemName : String) : Except hresult_t Nat :=
  match e.systems_.findIdx? (fun sys => sys.name == systemName) with
  | none => .error .ERROR_BAD_INPUT
  | some i => .ok i

/-- Translation of `EngineMultiRobot::getSystem`. -/
def getSystem (e : EngineMultiRobot) (systemName : String) : Except hresult_t systemHolder_t :=
  match e.systems_.find? (fun sys => sys.name == systemName) with
  | none => .error .ERROR_BAD_INPUT
  | some sys => .ok sys

/-- Translation of `getFrameIdx` (Pinocchio utilities). -/
def getFrameIdx (model : Robot) (frameName : String) : Except hresult_t Nat :=
  match model.frames.findIdx? (fun name => name == frameName) with
  | none => .error .ERROR_BAD_INPUT
  | some i => .ok i

/-- Update of the element at index `i` of a list. -/
def modifyAt {β : Type} (l : List β) (i : Nat) (f : β → β) : List β :=
  match l, i with
  | [], _ => []
  | x :: xs, 0 => f x :: xs
  | x :: xs, n + 1 => x :: modifyAt xs n f

/-- Status carried by a fallible lookup (`SUCCESS` when it produced a value). -/
def statusOf {β : Type} : Except hresult_t β → hresult_t
  | .ok _ => .SUCCESS
  | .error c => c

/-- Value written by a fallible lookup into its output argument; the output is
left at its default when the lookup failed. -/
def valueOf {β : Type} [Inhabited β] : Except hresult_t β → β
  | .ok v => v
  | .error _ => default

/-- Element `systems_[systemIdx]`. -/
def systemAt (e : EngineMultiRobot) (systemIdx : Nat) : systemHolder_t :=
  e.systems_.getD systemIdx default

/-! ## Controller set-up -/

/-- Observable outcome of the calls to the overridable `computeCommand` and
`internalDynamics` made while a controller is being set up. -/
structure controllerProbe where
  throws : Bool
  returnCode : hresult_t
  commandSizeOk : Bool
  uCustomSizeOk : Bool
  deriving DecidableEq, Repr

/-- Translation of `AbstractController::initialize`. -/
def controllerInitialize (c : AbstractController) (robotIn : Option Robot)
    (probe : controllerProbe) : hresult_t × AbstractController :=
  match robotIn with
  | none => (.ERROR_GENERIC, c)
  | some robot =>
    if !robot.isInitialized then (.ERROR_INIT_FAILED, c)
    else
      let c1 : AbstractController := { c with robot_ := some robot.id, isInitialized := true }
      if probe.throws then
        (.ERROR_GENERIC, { c1 with isInitialized := false, robot_ := none })
      else if probe.returnCode = .SUCCESS then
        if !probe.commandSizeOk then (.ERROR_BAD_INPUT, c1)
        else if !probe.uCustomSizeOk then (.ERROR_BAD_INPUT, c1)
        else (probe.returnCode, c1)
      else (probe.returnCode, c1)

/-- Outcome of the probe for the do-nothing functor pair used by `addSystem`
without controller: nothing throws and both vectors keep their size. -/
def bypassProbe : controllerProbe :=
  { throws := false, returnCode := .SUCCESS, commandSizeOk := true, uCustomSizeOk := true }

/-! ## System registry -/

/-- Translation of `EngineMultiRobot::addSystem(name, robot, controller, callback)`. -/
def addSystem (e : EngineMultiRobot) (systemName : String) (robot : Option Robot)
    (controller : Option AbstractController) (callbackFct : Nat) :
    hresult_t × EngineMultiRobot :=
  if e.isSimulationRunning_ then (.ERROR_GENERIC, e)
  else match robot with
  | none => (.ERROR_INIT_FAILED, e)
  | some robot =>
    if !robot.isInitialized then (.ERROR_INIT_FAILED, e)
    else match controller with
    | none => (.ERROR_INIT_FAILED, e)
    | some controller =>
      if !controller.isInitialized then (.ERROR_INIT_FAILED, e)
      else match controller.robot_ with
      | none => (.ERROR_INIT_FAILED, e)
      | some robot_controller =>
        if robot.id != robot_controller then (.ERROR_INIT_FAILED, e)
        else
          let systems := e.systems_ ++ [⟨systemName, robot, controller, callbackFct⟩]
          (.SUCCESS, { e with systems_ := systems,
                              systemsDataHolder_ := resizeHolder e.systemsDataHolder_ systems.length })

/-- Translation of `EngineMultiRobot::addSystem(name, robot, callback)`. -/
def addSystemBypass (e : EngineMultiRobot) (systemName : String) (robot : Option Robot)
    (callbackFct : Nat) : hresult_t × EngineMultiRobot :=
  match robot with
  | none => (.ERROR_INIT_FAILED, e)
  | some robot =>
    if !robot.isInitialized then (.ERROR_INIT_FAILED, e)
    else if e.systems_.length != 0 && systemName == "" then (.ERROR_GENERIC, e)
    else if (e.systems_.find? (fun sys => sys.name == systemName)).isSome then
      (.ERROR_BAD_INPUT, e)
    else if (e.systems_.find? (fun sys => sys.robot.id == robot.id)).isSome then
      (.ERROR_BAD_INPUT, e)
    else
      let controller :=
        (controllerInitialize ⟨false, none⟩ (some robot) bypassProbe).2
      addSystem e systemName (some robot) (some controller) callbackFct

/-! ## Coupling forces -/

/-- Translation of `EngineMultiRobot::removeForcesCoupling(systemName1, systemName2)`. -/
def removeForcesCouplingPair (e : EngineMultiRobot) (systemName1 systemName2 : String) :
    hresult_t × EngineMultiRobot :=
  let rc0 := if e.isSimulationRunning_ then hresult_t.ERROR_GENERIC else .SUCCESS
  let rc1 := if rc0 = .SUCCESS then statusOf (getSystem e systemName1) else rc0
  let rc2 := if rc1 = .SUCCESS then statusOf (getSystem e systemName2) else rc1
  if rc2 = .SUCCESS then
    (rc2, { e with forcesCoupling_ := e.forcesCoupling_.filter (fun force =>
      !(force.systemName1 == systemName1 && force.systemName2 == systemName2)) })
  else (rc2, e)

/-- Translation of `EngineMultiRobot::removeForcesCoupling(systemName)`. -/
def removeForcesCouplingSystem (e : EngineMultiRobot) (systemName : String) :
    hresult_t × EngineMultiRobot :=
  let rc0 := if e.isSimulationRunning_ then hresult_t.ERROR_GENERIC else .SUCCESS
  let rc1 := if rc0 = .SUCCESS then statusOf (getSystem e systemName) else rc0
  if rc1 = .SUCCESS then
    (rc1, { e with forcesCoupling_ := e.forcesCoupling_.filter (fun force =>
      !(force.systemName1 == systemName || force.systemName2 == systemName)) })
  else (rc1, e)

/-- Translation of `EngineMultiRobot::removeForcesCoupling(void)`: the register
is cleared after the guard, whatever the guard found. -/
def removeForcesCoupling (e : EngineMultiRobot) : hresult_t × EngineMultiRobot :=
  let returnCode := if e.isSimulationRunning_ then hresult_t.ERROR_GENERIC else .SUCCESS
  (returnCode, { e with forcesCoupling_ := [] })

/-- Translation of `EngineMultiRobot::removeSystem`. -/
def removeSystem (e : EngineMultiRobot) (systemName : String) : hresult_t × EngineMultiRobot :=
  if e.isSimulationRunning_ then (.ERROR_GENERIC, e)
  else
    let r := removeForcesCouplingSystem e systemName
    if r.1 = .SUCCESS then
      let e1 := r.2
      let systemIdx := valueOf (getSystemIdx e1 systemName)
      let forces := e1.forcesCoupling_.map (fun force =>
        let force1 := if force.systemIdx1 > systemIdx
          then { force with systemIdx1 := force.systemIdx1 - 1 } else force
        if force1.systemIdx2 > systemIdx
          then { force1 with systemIdx2 := force1.systemIdx2 - 1 } else force1)
      (r.1, { e1 with forcesCoupling_ := forces,
                      systems_ := e1.systems_.eraseIdx systemIdx,
                      systemsDataHolder_ := e1.systemsDataHolder_.eraseIdx systemIdx })
    else (r.1, r.2)

/-- Translation of `EngineMultiRobot::setController`. -/
def setController (e : EngineMultiRobot) (systemName : String)
    (controller : AbstractController) : hresult_t × EngineMultiRobot :=
  let rc0 := if e.isSimulationRunning_ then hresult_t.ERROR_GENERIC else .SUCCESS
  let rc1 := if rc0 = .SUCCESS then
      (if !controller.isInitialized then hresult_t.ERROR_INIT_FAILED else rc0) else rc0
  let robot_controller := controller.robot_
  let rc2 := if rc1 = .SUCCESS then
      (if robot_controller.isNone then hresult_t.ERROR_INIT_FAILED else rc1) else rc1
  let sys := if rc2 = .SUCCESS then getSystemIdx e systemName else .error rc2
  let systemIdx := valueOf sys
  let rc3 := statusOf sys
  let rc4 := if rc3 = .SUCCESS then
      (if some (systemAt e systemIdx).robot.id != robot_controller
        then hresult_t.ERROR_INIT_FAILED else rc3) else rc3
  if rc4 = .SUCCESS then
    (rc4, { e with systems_ := modifyAt e.systems_ systemIdx
                      (fun system => { system with controller := controller }) })
  else (rc4, e)

/-- Translation of `EngineMultiRobot::registerForceCoupling`. -/
def registerForceCoupling (e : EngineMultiRobot)
    (systemName1 systemName2 frameName1 frameName2 : String) (forceFct : Nat) :
    hresult_t × EngineMultiRobot :=
  let rc0 := if e.isSimulationRunning_ then hresult_t.ERROR_GENERIC else .SUCCESS
  let sys1 := if rc0 = .SUCCESS then getSystemIdx e systemName1 else .error rc0
  let systemIdx1 := valueOf sys1
  let rc1 := statusOf sys1
  let sys2 := if rc1 = .SUCCESS then getSystemIdx e systemName2 else .error rc1
  let systemIdx2 := valueOf sys2
  let rc2 := statusOf sys2
  let fr1 := if rc2 = .SUCCESS
    then getFrameIdx (systemAt e systemIdx1).robot frameName1 else .error rc2
  let frameIdx1 := valueOf fr1
  let rc3 := statusOf fr1
  let fr2 := if rc3 = .SUCCESS
    then getFrameIdx (systemAt e systemIdx2).robot frameName2 else .error rc3
  let frameIdx2 := valueOf fr2
  let rc4 := statusOf fr2
  let rc5 := if rc4 = .SUCCESS then
      (if systemIdx1 == systemIdx2 && frameIdx1 == frameIdx2
        then hresult_t.ERROR_GENERIC else rc4) else rc4
  if rc5 = .SUCCESS then
    (rc5, { e with forcesCoupling_ := e.forcesCoupling_ ++
      [⟨systemName1, systemIdx1, systemName2, systemIdx2,
        frameName1, frameIdx1, frameName2, frameIdx2, forceFct⟩] })
  else (rc5, e)

/-! ## Impulse and profile forces -/

/-- Translation of the overload of `isGcdIncluded` taking the per-system data:
`std::all_of` stops at the first system whose profiles are not included, and
`minValue` has been updated up to and including that system. -/
def isGcdIncludedSystems (H : Helpers) (systemsDataHolder : List systemDataHolder_t)
    (values : List (Option ℚ)) : Bool × Option ℚ :=
  if systemsDataHolder.isEmpty then H.isGcdIncluded values
  else
    let rec go : List systemDataHolder_t → Option ℚ → Bool × Option ℚ
      | [], minValue => (true, minValue)
      | systemData :: rest, minValue =>
        let r := H.isGcdIncludedRange
          (systemData.forcesProfile.map (fun force => force.updatePeriod)) values
        let minValue1 := H.minClipped minValue r.2
        if r.1 then go rest minValue1 else (false, minValue1)
    go systemsDataHolder none

/-- Translation of `EngineMultiRobot::registerForceImpulse`. The status
accumulated in `returnCode` gates the registration; the function ends with
`return hresult_t::SUCCESS`. -/
def registerForceImpulse (C : Constants) (e : EngineMultiRobot)
    (systemName frameName : String) (t dt : ℚ) (F : Force ℚ) :
    hresult_t × EngineMultiRobot :=
  let rc0 := if e.isSimulationRunning_ then hresult_t.ERROR_GENERIC else .SUCCESS
  let rc1 := if dt < C.STEPPER_MIN_TIMESTEP then hresult_t.ERROR_BAD_INPUT else rc0
  let rc2 := if t < 0 then hresult_t.ERROR_BAD_INPUT else rc1
  let rc3 := if frameName == "universe" then hresult_t.ERROR_GENERIC else rc2
  let sys := if rc3 = .SUCCESS then getSystemIdx e systemName else .error rc3
  let systemIdx := valueOf sys
  let rc4 := statusOf sys
  let fr := if rc4 = .SUCCESS
    then getFrameIdx (systemAt e systemIdx).robot frameName else .error rc4
  let frameIdx := valueOf fr
  let rc5 := statusOf fr
  if rc5 = .SUCCESS then
    let holder := modifyAt e.systemsDataHolder_ systemIdx
      (fun systemData => { systemData with
        forcesImpulse := systemData.forcesImpulse ++ [⟨frameName, frameIdx, t, dt, F⟩],
        forcesImpulseBreaks := setEmplace (t + dt) (setEmplace t systemData.forcesImpulseBreaks),
        forcesImpulseActive := systemData.forcesImpulseActive ++ [false] })
    (.SUCCESS, { e with systemsDataHolder_ := holder })
  else (.SUCCESS, e)

/-- Translation of `EngineMultiRobot::registerForceProfile`. -/
def registerForceProfile (C : Constants) (H : Helpers) (e : EngineMultiRobot)
    (systemName frameName : String) (forceFct : Nat) (updatePeriod : ℚ) :
    hresult_t × EngineMultiRobot :=
  let rc0 := if e.isSimulationRunning_ then hresult_t.ERROR_GENERIC else .SUCCESS
  let sys := if rc0 = .SUCCESS then getSystemIdx e systemName else .error rc0
  let systemIdx := valueOf sys
  let rc1 := statusOf sys
  let rc2 := if frameName == "universe" then hresult_t.ERROR_GENERIC else rc1
  let fr := if rc2 = .SUCCESS
    then getFrameIdx (systemAt e systemIdx).robot frameName else .error rc2
  let frameIdx := valueOf fr
  let rc3 := statusOf fr
  let rc4 := if rc3 = .SUCCESS then
      (if C.EPS < updatePeriod && updatePeriod < C.SIMULATION_MIN_TIMESTEP
        then hresult_t.ERROR_BAD_INPUT else rc3) else rc3
  let r := isGcdIncludedSystems H e.systemsDataHolder_
    [e.stepperUpdatePeriod_, some updatePeriod]
  let rc5 := if rc4 = .SUCCESS then
      (if !r.1 then hresult_t.ERROR_BAD_INPUT else rc4) else rc4
  if rc5 = .SUCCESS then
    let holder := modifyAt e.systemsDataHolder_ systemIdx
      (fun systemData => { systemData with
        forcesProfile := systemData.forcesProfile ++
          [⟨frameName, frameIdx, updatePeriod, forceFct⟩] })
    (rc5, { e with stepperUpdatePeriod_ := r.2, systemsDataHolder_ := holder })
  else (rc5, e)

/-- Translation of `EngineMultiRobot::removeForcesImpulse(systemName)`; it ends
with `return hresult_t::SUCCESS`. -/
def removeForcesImpulseSystem (e : EngineMultiRobot) (systemName : String) :
    hresult_t × EngineMultiRobot :=
  let rc0 := if e.isSimulationRunning_ then hresult_t.ERROR_GENERIC else .SUCCESS
  let sys := if rc0 = .SUCCESS then getSystemIdx e systemName else .error rc0
  let systemIdx := valueOf sys
  let rc1 := statusOf sys
  if rc1 = .SUCCESS then
    let holder := modifyAt e.systemsDataHolder_ systemIdx
      (fun systemData => { systemData with forcesImpulse := [] })
    (.SUCCESS, { e with systemsDataHolder_ := holder })
  else (.SUCCESS, e)

/-- Translation of `EngineMultiRobot::removeForcesImpulse(void)`. -/
def removeForcesImpulse (e : EngineMultiRobot) : hresult_t × EngineMultiRobot :=
  if e.isSimulationRunning_ then (.ERROR_GENERIC, e)
  else
    let holder := e.systemsDataHolder_.map
      (fun systemData => { systemData with forcesImpulse := [] })
    (.SUCCESS, { e with systemsDataHolder_ := holder })

/-- Translation of `EngineMultiRobot::removeForcesProfile(systemName)`; past the
guard it ends with `return hresult_t::SUCCESS`. -/
def removeForcesProfileSystem (H : Helpers) (e : EngineMultiRobot) (systemName : String) :
    hresult_t × EngineMultiRobot :=
  if e.isSimulationRunning_ then (.ERROR_GENERIC, e)
  else
    let sys := getSystemIdx e systemName
    let systemIdx := valueOf sys
    if statusOf sys = .SUCCESS then
      let holder := modifyAt e.systemsDataHolder_ systemIdx
        (fun systemData => { systemData with forcesProfile := [] })
      let opts := e.engineOptions_.getD default
      (.SUCCESS, { e with
        systemsDataHolder_ := holder,
        stepperUpdatePeriod_ := (isGcdIncludedSystems H holder
          [some opts.stepper.sensorsUpdatePeriod, some opts.stepper.controllerUpdatePeriod]).2 })
    else (.SUCCESS, e)

/-- Translation of `EngineMultiRobot::removeForcesProfile(void)`. -/
def removeForcesProfile (e : EngineMultiRobot) : hresult_t × EngineMultiRobot :=
  if e.isSimulationRunning_ then (.ERROR_GENERIC, e)
  else
    let holder := e.systemsDataHolder_.map
      (fun systemData => { systemData with forcesProfile := [] })
    (.SUCCESS, { e with systemsDataHolder_ := holder })

/-- Translation of `EngineMultiRobot::removeAllForces`. -/
def removeAllForces (e : EngineMultiRobot) : hresult_t × EngineMultiRobot :=
  let r0 := removeForcesCoupling e
  let r1 := if r0.1 = .SUCCESS then removeForcesImpulse r0.2 else r0
  if r1.1 = .SUCCESS then removeForcesProfile r1.2 else r1

/-! ## Options validation -/

/-- Translation of `EngineMultiRobot::getOptions`. -/
def getOptions (e : EngineMultiRobot) : engineOptions_t :=
  e.engineOptionsHolder_

/-- Translation of `EngineMultiRobot::setOptions`. -/
def setOptions (C : Constants) (H : Helpers) (e : EngineMultiRobot)
    (engineOptions : engineOptions_t) : hresult_t × EngineMultiRobot :=
  if e.isSimulationRunning_ then (.ERROR_GENERIC, e)
  else
    let stepperOptions := engineOptions.stepper
    let dtMax := stepperOptions.dtMax
    if C.SIMULATION_MAX_TIMESTEP + C.EPS < dtMax || dtMax < C.SIMULATION_MIN_TIMESTEP then
      (.ERROR_BAD_INPUT, e)
    else if stepperOptions.successiveIterFailedMax < 1 then (.ERROR_BAD_INPUT, e)
    else if !C.STEPPERS.contains stepperOptions.odeSolver then (.ERROR_BAD_INPUT, e)
    else
      let sensorsUpdatePeriod := stepperOptions.sensorsUpdatePeriod
      let controllerUpdatePeriod := stepperOptions.controllerUpdatePeriod
      let r := isGcdIncludedSystems H e.systemsDataHolder_
        [some controllerUpdatePeriod, some sensorsUpdatePeriod]
      if (C.EPS < sensorsUpdatePeriod && sensorsUpdatePeriod < C.SIMULATION_MIN_TIMESTEP)
          || (C.EPS < controllerUpdatePeriod
              && controllerUpdatePeriod < C.SIMULATION_MIN_TIMESTEP) then
        (.ERROR_BAD_INPUT, e)
      else if !r.1 then (.ERROR_BAD_INPUT, e)
      else
        let constraintsOptions := engineOptions.constraints
        let constraintSolverIt := mapFind C.CONSTRAINT_SOLVERS_MAP constraintsOptions.solver
        if constraintSolverIt.isNone then (.ERROR_BAD_INPUT, e)
        else if constraintsOptions.regularization < 0 then (.ERROR_BAD_INPUT, e)
        else
          let contactsOptions := engineOptions.contacts
          let contactModelIt := mapFind C.CONTACT_MODELS_MAP contactsOptions.model
          if contactModelIt.isNone then (.ERROR_BAD_INPUT, e)
          else if contactsOptions.transitionEps < 0 then (.ERROR_BAD_INPUT, e)
          else if contactsOptions.transitionVelocity < C.EPS then (.ERROR_BAD_INPUT, e)
          else if contactsOptions.stabilizationFreq < 0 then (.ERROR_BAD_INPUT, e)
          else if engineOptions.world.gravity.length != 6 then (.ERROR_BAD_INPUT, e)
          else
            let randomSeed := stepperOptions.randomSeed
            let reseed := e.engineOptions_.isNone
              || randomSeed != (e.engineOptions_.getD default).stepper.randomSeed
            (.SUCCESS, { e with
              randomGenerators := if reseed then some randomSeed else e.randomGenerators,
              engineOptionsHolder_ := engineOptions,
              engineOptions_ := some engineOptions,
              contactModel_ := contactModelIt.getD default,
              stepperUpdatePeriod_ := r.2 })

/-! ## Lifecycle: stop, reset, start -/

/-- Translation of `EngineMultiRobot::stop`. -/
def stop (e : EngineMultiRobot) : EngineMultiRobot :=
  let holder := e.systemsDataHolder_.map (fun systemData => { systemData with robotLock := false })
  let e1 := { e with systemsDataHolder_ := holder }
  if !e1.isSimulationRunning_ then e1
  else { e1 with isSimulationRunning_ := false }

/-- Translation of `EngineMultiRobot::reset`. -/
def reset (H : Helpers) (e : EngineMultiRobot) (resetRandomNumbers removeAllForce : Bool) :
    EngineMultiRobot :=
  let e1 := if e.isSimulationRunning_ then stop e else e
  let opts := e1.engineOptions_.getD default
  let e2 :=
    if removeAllForce then
      let holder := e1.systemsDataHolder_.map (fun systemData => { systemData with
        forcesImpulse := [], forcesImpulseBreaks := [], forcesImpulseActive := [],
        forcesProfile := [] })
      { e1 with
        systemsDataHolder_ := holder,
        stepperUpdatePeriod_ := (H.isGcdIncluded
          [some opts.stepper.sensorsUpdatePeriod, some opts.stepper.controllerUpdatePeriod]).2 }
    else e1
  let e3 := if resetRandomNumbers
    then { e2 with randomGenerators := some opts.stepper.randomSeed } else e2
  { e3 with isTelemetryConfigured_ := false }

/-- What `start` observes about one system through the robot, its sensors and
motors, the initial-state maps and the contact computations. The force norms are
`fextLocal.linear().norm()` after `computeContactDynamicsAtFrame` (one per
contact frame) and `computeContactDynamicsAtBody` (per body, per pair). -/
structure systemStartProbe where
  hasInitialState : Bool
  dimensionOk : Bool
  isPositionValid : Bool
  isInBounds : Bool
  hasInitialAcceleration : Bool
  accelerationDimensionOk : Bool
  sensorsInitialized : Bool
  motorsInitialized : Bool
  resetConstraints : hresult_t
  contactFramesForceNorm : List ℚ
  collisionBodiesForceNorm : List (List ℚ)
  getLock : hresult_t

/-- Arguments of `start` and the observations it makes while running. -/
structure startInputs where
  qInitSize : Nat
  vInitSize : Nat
  aInitSize : Option Nat
  probe : Nat → systemStartProbe
  accelerationHasNan : Bool
  configureTelemetryOk : Bool

/-- First loop of `start`: dimension, validity and bound checks of the initial
configuration and velocity of every system, in order. -/
def startCheckStates (inp : startInputs) (n : Nat) : Option hresult_t :=
  (List.range n).findSome? (fun i =>
    let p := inp.probe i
    if !p.hasInitialState then some hresult_t.ERROR_BAD_INPUT
    else if !p.dimensionOk then some hresult_t.ERROR_BAD_INPUT
    else if !p.isPositionValid then some hresult_t.ERROR_BAD_INPUT
    else if !p.isInBounds then some hresult_t.ERROR_BAD_INPUT
    else none)

/-- Checks of the optional initial accelerations. -/
def startCheckAccelerations (inp : startInputs) (n : Nat) : Option hresult_t :=
  match inp.aInitSize with
  | none => none
  | some size =>
    if size != n then some hresult_t.ERROR_BAD_INPUT
    else (List.range n).findSome? (fun i =>
      let p := inp.probe i
      if !p.hasInitialAcceleration then some hresult_t.ERROR_BAD_INPUT
      else if !p.accelerationDimensionOk then some hresult_t.ERROR_BAD_INPUT
      else none)

/-- Checks that every sensor and motor of every system is set up. -/
def startCheckHardware (inp : startInputs) (n : Nat) : Option hresult_t :=
  (List.range n).findSome? (fun i =>
    let p := inp.probe i
    if !p.sensorsInitialized then some hresult_t.ERROR_INIT_FAILED
    else if !p.motorsInitialized then some hresult_t.ERROR_INIT_FAILED
    else none)

/-- Active flags after `std::fill(..., false)` followed by the activation of
every impulse starting at `t = 0`. -/
def activateAtStart (C : Constants) : List forceImpulse_t → List Bool → List Bool
  | force :: forces, _ :: actives =>
    decide (force.t < C.STEPPER_MIN_TIMESTEP) :: activateAtStart C forces actives
  | [], actives => actives.map (fun _ => false)
  | _ :: _, [] => []

/-- Largest initial contact force of one system: `forceMax` after the loops over
contact frames and collision pairs. -/
def forceMax (p : systemStartProbe) : ℚ :=
  (p.contactFramesForceNorm ++ p.collisionBodiesForceNorm.flatten).foldl max 0

/-- Per-system loop of `start` (impulse flags, constraint reset, bound on the
initial contact forces). Returns the status of an early `return` if any, the
value of `returnCode` and the per-system data. -/
def startSystemsLoop (C : Constants) (contactModel : contactModel_t)
    (probe : Nat → systemStartProbe) :
    Nat → List systemHolder_t → List systemDataHolder_t → hresult_t →
      Option hresult_t × hresult_t × List systemDataHolder_t
  | i, _ :: systems, systemData :: rest, _ =>
    let systemData1 := { systemData with
      forcesImpulseActive :=
        activateAtStart C systemData.forcesImpulse systemData.forcesImpulseActive }
    let returnCode := (probe i).resetConstraints
    if contactModel = .SPRING_DAMPER ∧ forceMax (probe i) > 100000 then
      (some .ERROR_BAD_INPUT, returnCode, systemData1 :: rest)
    else
      let r := startSystemsLoop C contactModel probe (i + 1) systems rest returnCode
      (r.1, r.2.1, systemData1 :: r.2.2)
  | _, _, holder, returnCode => (none, returnCode, holder)

/-- Loop of `start` taking the lock of every robot while `returnCode` is
`SUCCESS`. -/
def startLockLoop (probe : Nat → systemStartProbe) :
    Nat → List systemHolder_t → List systemDataHolder_t → hresult_t →
      hresult_t × List systemDataHolder_t
  | i, _ :: systems, systemData :: rest, returnCode =>
    if returnCode = .SUCCESS then
      let returnCode1 := (probe i).getLock
      let systemData1 := if returnCode1 = .SUCCESS
        then { systemData with robotLock := true } else systemData
      let r := startLockLoop probe (i + 1) systems rest returnCode1
      (r.1, systemData1 :: r.2)
    else
      let r := startLockLoop probe (i + 1) systems rest returnCode
      (r.1, systemData :: r.2)
  | _, _, holder, returnCode => (returnCode, holder)

/-- Translation of `EngineMultiRobot::start`. -/
def start (C : Constants) (H : Helpers) (e : EngineMultiRobot) (inp : startInputs) :
    hresult_t × EngineMultiRobot :=
  if e.isSimulationRunning_ then (.ERROR_GENERIC, e)
  else if e.systems_.isEmpty then (.ERROR_INIT_FAILED, e)
  else if inp.qInitSize != e.systems_.length || inp.vInitSize != e.systems_.length then
    (.ERROR_BAD_INPUT, e)
  else match startCheckStates inp e.systems_.length with
  | some code => (code, e)
  | none =>
    match startCheckAccelerations inp e.systems_.length with
    | some code => (code, e)
    | none =>
      match startCheckHardware inp e.systems_.length with
      | some code => (code, e)
      | none =>
        let e1 := if e.isTelemetryConfigured_ then reset H e false false else e
        let r := startSystemsLoop C e1.contactModel_ inp.probe 0 e1.systems_
          e1.systemsDataHolder_ .SUCCESS
        let e2 := { e1 with systemsDataHolder_ := r.2.2 }
        match r.1 with
        | some code => (code, e2)
        | none =>
          let l := startLockLoop inp.probe 0 e2.systems_ e2.systemsDataHolder_ r.2.1
          let e3 := { e2 with systemsDataHolder_ := l.2 }
          if l.1 = .SUCCESS then
            if inp.accelerationHasNan then (.ERROR_GENERIC, e3)
            else
              (l.1, { e3 with
                isTelemetryConfigured_ := inp.configureTelemetryOk || e3.isTelemetryConfigured_,
                isSimulationRunning_ := true })
          else (l.1, e3)

/-! ## Vector algebra -/

namespace Vector3

variable {α : Type}

/-- Zero vector (`setZero`). -/
def zero [Zero α] : Vector3 α := ⟨0, 0, 0⟩

/-- Sum of two vectors. -/
def add [Add α] (u v : Vector3 α) : Vector3 α := ⟨u.x + v.x, u.y + v.y, u.z + v.z⟩

/-- Difference of two vectors. -/
def sub [Sub α] (u v : Vector3 α) : Vector3 α := ⟨u.x - v.x, u.y - v.y, u.z - v.z⟩

/-- Opposite of a vector. -/
def neg [Neg α] (u : Vector3 α) : Vector3 α := ⟨-u.x, -u.y, -u.z⟩

/-- Product by a scalar. -/
def smul [Mul α] (c : α) (u : Vector3 α) : Vector3 α := ⟨c * u.x, c * u.y, c * u.z⟩

/-- Scalar product (`dot`). -/
def dot [Add α] [Mul α] (u v : Vector3 α) : α := u.x * v.x + u.y * v.y + u.z * v.z

/-- Vector product (`cross`). -/
def cross [Sub α] [Mul α] (u v : Vector3 α) : Vector3 α :=
  ⟨u.y * v.z - u.z * v.y, u.z * v.x - u.x * v.z, u.x * v.y - u.y * v.x⟩

/-- Euclidean norm (`norm`), for a given square root. -/
def norm [Add α] [Mul α] (sqrt : α → α) (u : Vector3 α) : α := sqrt (dot u u)

end Vector3

/-! ## Spring-damper contact law -/

/-- Translation of `EngineMultiRobot::computeContactDynamics`. The square root
(inside `norm`) and `std::tanh` are parameters, as is the constant `EPS`. -/
def computeContactDynamics {α : Type} [LinearOrderedField α] (sqrt tanh : α → α) (EPS : α)
    (contactOptions_ : contactOptions_t α) (nGround : Vector3 α) (depth : α)
    (vContactInWorld : Vector3 α) : Force α :=
  if depth < 0 then
    let vDepth := vContactInWorld.dot nGround
    let fextNormal := - min (contactOptions_.stiffness * depth +
                             contactOptions_.damping * vDepth) 0
    let fextInWorld0 := Vector3.smul fextNormal nGround
    let vTangential := vContactInWorld.sub (Vector3.smul vDepth nGround)
    let vRatio := min (vTangential.norm sqrt / contactOptions_.transitionVelocity) 1
    let fextTangential := contactOptions_.friction * vRatio * fextNormal
    let fextInWorld1 := fextInWorld0.sub (Vector3.smul fextTangential vTangential)
    let fextInWorld2 :=
      if contactOptions_.transitionEps > EPS then
        let blendingFactor := - depth / contactOptions_.transitionEps
        let blendingLaw := tanh (2 * blendingFactor)
        Vector3.smul blendingLaw fextInWorld1
      else fextInWorld1
    ⟨fextInWorld2, Vector3.zero⟩
  else ⟨Vector3.zero, Vector3.zero⟩

/-! ## Coupling forces -/

/-- Body of the loop of `EngineMultiRobot::computeForcesCoupling` for one
entry: from the wrench returned by the functor and the world positions of the
two frames, the world-frame wrenches handed to
`convertForceGlobalFrameToJoint` for frame 1 and for frame 2. -/
def computeForcesCoupling {α : Type} [Ring α] (force : Force α)
    (oMf1Translation oMf2Translation : Vector3 α) : Force α × Force α :=
  let force1 := force
  let forceNeg : Force α := ⟨Vector3.smul (-1) force.linear, Vector3.smul (-1) force.angular⟩
  let offset := oMf2Translation.sub oMf1Translation
  let force2 : Force α := ⟨forceNeg.linear, forceNeg.angular.sub (offset.cross forceNeg.linear)⟩
  (force1, force2)

/-! ## Registry invariants -/

/-- An entry of the coupling register agrees with the list of systems: each of
its two system indices designates the system bearing the recorded name. -/
def couplingConsistent (e : EngineMultiRobot) (force : forceCoupling_t) : Prop :=
  (e.systems_[force.systemIdx1]?).map (fun sys => sys.name) = some force.systemName1 ∧
  (e.systems_[force.systemIdx2]?).map (fun sys => sys.name) = some force.systemName2

/-- Invariant of the impulse registers: every registered impulse has its start
and end times among the break times of its system, lasts at least
`STEPPER_MIN_TIMESTEP`, starts at a non-negative time and is not applied to the
universe frame. -/
def impulseInvariant (C : Constants) (e : EngineMultiRobot) : Prop :=
  ∀ systemData ∈ e.systemsDataHolder_, ∀ force ∈ systemData.forcesImpulse,
    force.t ∈ systemData.forcesImpulseBreaks ∧
    force.t + force.dt ∈ systemData.forcesImpulseBreaks ∧
    C.STEPPER_MIN_TIMESTEP ≤ force.dt ∧ 0 ≤ force.t ∧ force.frameName ≠ "universe"

/-- Engine states reachable, from a state whose impulse registers are empty,
through `registerForceImpulse`, both overloads of `removeForcesImpulse` and
`reset`. -/
inductive impulseReachable (C : Constants) (H : Helpers) : EngineMultiRobot → Prop where
  | init (e : EngineMultiRobot) :
      (∀ systemData ∈ e.systemsDataHolder_, systemData.forcesImpulse = []) →
      impulseReachable C H e
  | register (e : EngineMultiRobot) (systemName frameName : String) (t dt : ℚ) (F : Force ℚ) :
      impulseReachable C H e →
      impulseReachable C H (registerForceImpulse C e systemName frameName t dt F).2
  | removeSystem (e : EngineMultiRobot) (systemName : String) :
      impulseReachable C H e → impulseReachable C H (removeForcesImpulseSystem e systemName).2
  | removeAll (e : EngineMultiRobot) :
      impulseReachable C H e → impulseReachable C H (removeForcesImpulse e).2
  | reset (e : EngineMultiRobot) (resetRandomNumbers removeAllForce : Bool) :
      impulseReachable C H e →
      impulseReachable C H (reset H e resetRandomNumbers removeAllForce)

/-! ## Explicit Euler stepper -/

/-- Modelled from the spec: `state_t::sumInPlace`, declared in a header that is
not among the translated sources. In flat coordinates it is `x ← x + dt·dx`
(§4.6); the manifold structure of the joints is delegated to the kernel. -/
def sumInPlace {α M : Type} [Semiring α] [AddCommMonoid M] [Module α M]
    (state stateDerivative : M) (dt : α) : M :=
  state + dt • stateDerivative

/-- Translation of `EulerExplicitStepper::tryStepImpl`. Returns the success
flag, the new state, the new state derivative and the recommended next step
(`none` is `INF`). -/
def EulerExplicitStepper.tryStepImpl {α M : Type} [Semiring α] [AddCommMonoid M] [Module α M]
    (f : α → M → M) (state stateDerivative : M) (t dt : α) : Bool × M × M × Option α :=
  let state1 := sumInPlace state stateDerivative dt
  let stateDerivative1 := f t state1
  (true, state1, stateDerivative1, none)

instance (e : EngineMultiRobot) (force : forceCoupling_t) :
    Decidable (couplingConsistent e force) := by
  unfold couplingConsistent
  infer_instance

/-! ## Projected Gauss-Seidel solver -/

/-- Kind of registry a constraint comes from (`constraintsHolderType_t`). -/
inductive constraintsHolderType_t where
  | BOUNDS_JOINTS
  | CONTACT_FRAMES
  | COLLISION_BODIES
  | USER
  deriving DecidableEq, Repr, Inhabited

/-- Block of a bounded constraint (`ConstraintBlock`). `lo = none` is `qNAN`,
`hi = none` is `INF`; `fIdx` is the array of three row offsets, of which the
first `fSize` are meaningful. -/
structure ConstraintBlock (α : Type) where
  lo : Option α
  hi : Option α
  isZero : Bool
  fIdx : List Nat
  fSize : Nat
  deriving DecidableEq, Repr

/-- Value-initialised block (`ConstraintBlock block {}`). -/
def ConstraintBlock.empty {α : Type} [Zero α] : ConstraintBlock α :=
  { lo := some 0, hi := some 0, isZero := false, fIdx := [0, 0, 0], fSize := 0 }

/-- Per-constraint data of the solver (`ConstraintData`), without the pointer to
the constraint object. -/
structure ConstraintData (α : Type) where
  startIdx : Nat
  dim : Nat
  isInactive : Bool
  nBlocks : Nat
  blocks : List (ConstraintBlock α)
  deriving DecidableEq, Repr

/-- Translation of the body of the `foreach` of the constructor of `PGSSolver`:
the blocks of a constraint of the given kind and dimension. The same `block`
variable is reused from one block to the next, which is why the third entry of
`fIdx` of the torsion block, never read, is the one left by the value
initialisation. -/
def PGSSolver.constraintData {α : Type} [LinearOrderedField α] (EPS friction torsion : α)
    (holderType : constraintsHolderType_t) (constraintDim : Nat) : ConstraintData α :=
  match holderType with
  | .BOUNDS_JOINTS =>
    { startIdx := 0, dim := constraintDim, isInactive := false, nBlocks := 1,
      blocks := [{ lo := some 0, hi := none, isZero := false, fIdx := [0, 0, 0], fSize := 1 },
                 ConstraintBlock.empty, ConstraintBlock.empty] }
  | .CONTACT_FRAMES | .COLLISION_BODIES =>
    { startIdx := 0, dim := constraintDim, isInactive := false, nBlocks := 3,
      blocks := [{ lo := some 0, hi := none, isZero := false, fIdx := [2, 0, 0], fSize := 1 },
                 { lo := none, hi := some torsion, isZero := decide (torsion < EPS),
                   fIdx := [3, 2, 0], fSize := 2 },
                 { lo := none, hi := some friction, isZero := decide (friction < EPS),
                   fIdx := [0, 1, 2], fSize := 3 }] }
  | .USER =>
    { startIdx := 0, dim := constraintDim, isInactive := false, nBlocks := 0,
      blocks := [ConstraintBlock.empty, ConstraintBlock.empty, ConstraintBlock.empty] }

/-- Multipliers `x` and residuals `y_` during a sweep, as functions of the row. -/
structure pgsState (α : Type) where
  x : Nat → α
  y : Nat → α

/-- Assignment `v[i] = value`. -/
def setAt {α : Type} (v : Nat → α) (i : Nat) (value : α) : Nat → α :=
  fun j => if j = i then value else v j

/-- Product `A.col(k).dot(x)` for a system of `n` rows. -/
def colDot {α : Type} [LinearOrderedField α] (A : Nat → Nat → α) (n k : Nat) (x : Nat → α) : α :=
  ((List.range n).map (fun r => A r k * x r)).sum

/-- Comparison-based `std::clamp(e, lo, hi)`, where a missing `lo` is `qNAN`
(every comparison with it is false) and a missing `hi` is `INF`. -/
def clampBounds {α : Type} [LinearOrderedField α] (e : α) (lo hi : Option α) : α :=
  match lo, hi with
  | some l, some h => if e < l then l else if h < e then h else e
  | some l, none => if e < l then l else e
  | none, some h => if h < e then h else e
  | none, none => e

/-- Rows of a block, past the first, that the loops `for (j = 1; j < fSize - 1; ++j)`
visit. -/
def ConstraintBlock.middle {α : Type} (block : ConstraintBlock α) : List Nat :=
  (block.fIdx.take (block.fSize - 1)).drop 1

/-- Translation of the branch `if (block.isZero)` of a sweep: the first
coefficient and the middle ones are multiplied by zero. -/
def blockZero {α : Type} [LinearOrderedField α] (o : Nat) (block : ConstraintBlock α)
    (st : pgsState α) : pgsState α :=
  let i0 := o + block.fIdx.getD 0 0
  let x1 := setAt st.x i0 (st.x i0 * 0)
  { st with x := block.middle.foldl (fun x j => setAt x (o + j) (x (o + j) * 0)) x1 }

/-- Largest diagonal coefficient found by the residual loop of a block. -/
def blockAmax {α : Type} [LinearOrderedField α] (A : Nat → Nat → α) (o : Nat)
    (block : ConstraintBlock α) : α :=
  let i0 := o + block.fIdx.getD 0 0
  block.middle.foldl (fun A_max j => if A (o + j) (o + j) > A_max then A (o + j) (o + j)
    else A_max) (A i0 i0)

/-- Translation of the part "update several coefficients at once with the same
step" of a sweep: residuals of the first and middle rows, then the common step. -/
def blockUpdate {α : Type} [LinearOrderedField α] (A : Nat → Nat → α) (b : Nat → α) (n : Nat)
    (o : Nat) (block : ConstraintBlock α) (st : pgsState α) : pgsState α :=
  let i0 := o + block.fIdx.getD 0 0
  let A_max := blockAmax A o block
  let y1 := setAt st.y i0 (b i0 - colDot A n i0 st.x)
  let y2 := block.middle.foldl
    (fun y j => setAt y (o + j) (b (o + j) - colDot A n (o + j) st.x)) y1
  let x1 := setAt st.x i0 (st.x i0 + y2 i0 / A_max)
  let x2 := block.middle.foldl (fun x j => setAt x (o + j) (x (o + j) + y2 (o + j) / A_max)) x1
  { x := x2, y := y2 }

/-- Translation of the part "project the coefficient between lower and upper
bounds" of a sweep. An infinite `hi` in a block of several rows, which the
constructor never builds, leaves the coefficients as they are. -/
def blockProject {α : Type} [LinearOrderedField α] (sqrt : α → α) (o : Nat)
    (block : ConstraintBlock α) (st : pgsState α) : pgsState α :=
  let i0 := o + block.fIdx.getD 0 0
  let e := st.x i0
  if block.fSize = 1 then
    { st with x := setAt st.x i0 (clampBounds e block.lo block.hi) }
  else
    match block.hi with
    | none => st
    | some hi =>
      let thr := hi * st.x (o + block.fIdx.getD (block.fSize - 1) 0)
      if block.fSize = 2 then
        { st with x := setAt st.x i0 (clampBounds e (some (-thr)) (some thr)) }
      else
        let squaredNorm := block.middle.foldl
          (fun s j => s + st.x (o + j) * st.x (o + j)) (e * e)
        if squaredNorm > thr * thr then
          let scale := thr / sqrt squaredNorm
          let x1 := setAt st.x i0 (e * scale)
          { st with x := block.middle.foldl (fun x j => setAt x (o + j) (x (o + j) * scale)) x1 }
        else st

/-- Treatment of one block of one constraint during a sweep. -/
def blockStep {α : Type} [LinearOrderedField α] (sqrt : α → α) (A : Nat → Nat → α)
    (b : Nat → α) (n : Nat) (o : Nat) (block : ConstraintBlock α) (st : pgsState α) :
    pgsState α :=
  if block.isZero then blockZero o block st
  else blockProject sqrt o block (blockUpdate A b n o block st)

/-- Gauss-Seidel update of the rows of one unbounded constraint (first loop of a
sweep). -/
def unboundedStep {α : Type} [LinearOrderedField α] (A : Nat → Nat → α) (b : Nat → α) (n : Nat)
    (constraintData : ConstraintData α) (st : pgsState α) : pgsState α :=
  if constraintData.isInactive || constraintData.nBlocks != 0 then st
  else
    (List.range constraintData.dim).foldl (fun st r =>
      let i := constraintData.startIdx + r
      let y := setAt st.y i (b i - colDot A n i st.x)
      { x := setAt st.x i (st.x i + y i / A i i), y := y }) st

/-- Treatment of block `i` of one constraint (body of the inner loop of the
second part of a sweep). -/
def boundedStep {α : Type} [LinearOrderedField α] (sqrt : α → α) (A : Nat → Nat → α)
    (b : Nat → α) (n : Nat) (i : Nat) (constraintData : ConstraintData α) (st : pgsState α) :
    pgsState α :=
  if constraintData.isInactive || decide (constraintData.nBlocks ≤ i) then st
  else blockStep sqrt A b n constraintData.startIdx
    (constraintData.blocks.getD i ConstraintBlock.empty) st

/-- Translation of `PGSSolver::ProjectedGaussSeidelIter`: one sweep over the
constraints `constraintsData_`, for a system of `n` rows. -/
def ProjectedGaussSeidelIter {α : Type} [LinearOrderedField α] (sqrt : α → α)
    (constraintsData_ : List (ConstraintData α)) (A : Nat → Nat → α) (b : Nat → α) (n : Nat)
    (st : pgsState α) : pgsState α :=
  let st0 := constraintsData_.foldl (fun st c => unboundedStep A b n c st) st
  (List.range 3).foldl (fun st i =>
    constraintsData_.foldl (fun st c => boundedStep sqrt A b n i c st) st) st0

/-- Termination test of the solver: every entry of `|y - yPrev|` is below
`tolAbs + tolRel * max|y|`, the residual buffers having `m` entries. -/
def pgsConverged {α : Type} [LinearOrderedField α] (tolAbs tolRel : α) (m : Nat)
    (y yPrev : Nat → α) : Bool :=
  let tol := tolAbs + tolRel * ((List.range m).map (fun i => |y i|)).foldl max 0
  (List.range m).all (fun i => decide (|y i - yPrev i| < tol))

/-- Loop of `PGSSolver::ProjectedGaussSeidelSolver` with `iters` iterations left. -/
def ProjectedGaussSeidelLoop {α : Type} [LinearOrderedField α] (sqrt : α → α)
    (tolAbs tolRel : α) (m : Nat) (constraintsData_ : List (ConstraintData α))
    (A : Nat → Nat → α) (b : Nat → α) (n : Nat) : Nat → pgsState α → Bool × pgsState α
  | 0, st => (false, st)
  | iters + 1, st =>
    let yPrev := st.y
    let st1 := ProjectedGaussSeidelIter sqrt constraintsData_ A b n st
    if pgsConverged tolAbs tolRel m st1.y yPrev then (true, st1)
    else ProjectedGaussSeidelLoop sqrt tolAbs tolRel m constraintsData_ A b n iters st1

/-- Translation of `PGSSolver::ProjectedGaussSeidelSolver`: the residuals are
reset, then at most `maxIter_` sweeps are made. -/
def ProjectedGaussSeidelSolver {α : Type} [LinearOrderedField α] (sqrt : α → α)
    (maxIter_ : Nat) (tolAbs tolRel : α) (m : Nat) (constraintsData_ : List (ConstraintData α))
    (A : Nat → Nat → α) (b : Nat → α) (n : Nat) (x : Nat → α) : Bool × pgsState α :=
  ProjectedGaussSeidelLoop sqrt tolAbs tolRel m constraintsData_ A b n maxIter_
    { x := x, y := fun _ => 0 }

/-- State after `k` sweeps started from the multipliers `x` and zero residuals. -/
def pgsSweeps {α : Type} [LinearOrderedField α] (sqrt : α → α)
    (constraintsData_ : List (ConstraintData α)) (A : Nat → Nat → α) (b : Nat → α) (n : Nat)
    (x : Nat → α) : Nat → pgsState α
  | 0 => { x := x, y := fun _ => 0 }
  | k + 1 => ProjectedGaussSeidelIter sqrt constraintsData_ A b n
      (pgsSweeps sqrt constraintsData_ A b n x k)

/-- The rule of the specification for a block: residuals, largest diagonal and
common step over ALL the rows listed in the block (to be compared with
`blockUpdate`). -/
def blockUpdateAllRows {α : Type} [LinearOrderedField α] (A : Nat → Nat → α) (b : Nat → α)
    (n : Nat) (o : Nat) (block : ConstraintBlock α) (st : pgsState α) : pgsState α :=
  let rows := (block.fIdx.take block.fSize).map (fun j => o + j)
  let A_max := (rows.map (fun k => A k k)).foldl max (A (o + block.fIdx.getD 0 0)
    (o + block.fIdx.getD 0 0))
  let y1 := rows.foldl (fun y k => setAt y k (b k - colDot A n k st.x)) st.y
  { x := rows.foldl (fun x k => setAt x k (x k + y1 k / A_max)) st.x, y := y1 }

/-- The constraint data `d` has the blocks that the constructor of `PGSSolver`
gives to a constraint of kind `holderType` (its start index and activity being
those set by `SolveBoxedForwardDynamics`), and enough rows for them. -/
def builtBy {α : Type} [LinearOrderedField α] (EPS friction torsion : α)
    (holderType : constraintsHolderType_t) (d : ConstraintData α) : Prop :=
  d.nBlocks = (PGSSolver.constraintData EPS friction torsion holderType d.dim).nBlocks ∧
  d.blocks = (PGSSolver.constraintData EPS friction torsion holderType d.dim).blocks ∧
  (holderType = .BOUNDS_JOINTS → 1 ≤ d.dim) ∧
  (holderType = .CONTACT_FRAMES ∨ holderType = .COLLISION_BODIES → 4 ≤ d.dim)

/-- Two constraints have disjoint row ranges, as far as both are active. -/
def disjointRows {α : Type} (c d : ConstraintData α) : Prop :=
  c.isInactive = true ∨ d.isInactive = true ∨
    c.startIdx + c.dim ≤ d.startIdx ∨ d.startIdx + d.dim ≤ c.startIdx

/-! ## Log files in HDF5 format -/

/-- Log of a simulation (`logData_t`): integers are `int64_t`, floats are
rationals, a constant is a name and a string of bytes. The matrices `intData`
and `floatData` are lists of rows, one row per variable, with one column per
timestamp. -/
structure logData_t where
  version : Int
  timeUnit : ℚ
  timestamps : List Int
  intData : List (List Int)
  floatData : List (List ℚ)
  fieldnames : List String
  constants : List (String × List UInt8)
  deriving DecidableEq

/-- Value-initialised log (`logData = {}`). -/
def logData_t.empty : logData_t :=
  { version := 0, timeUnit := 0, timestamps := [], intData := [], floatData := [],
    fieldnames := [], constants := [] }

/-- Content of a dataset `value` of a variable: an array of `NATIVE_INT64` or of
`NATIVE_DOUBLE`. -/
inductive H5Value where
  | int64 (data : List Int)
  | float64 (data : List ℚ)
  deriving DecidableEq

/-- Scalar dataset of a fixed-length string type (`C_S1` of size `size`, padded
with NUL bytes). -/
structure H5StringDataSet where
  name : String
  size : Nat
  data : List UInt8
  deriving DecidableEq

/-- Content of a log file: the attributes `VERSION` and `START_TIME`, the dataset
`GLOBAL_TIME` with its attribute `unit`, the datasets of the group `constants`,
and the groups of the group `variables` in the order of their creation. -/
structure H5File where
  VERSION : Int
  START_TIME : Int
  globalTime : List Int
  unit : ℚ
  constantsGroup : List H5StringDataSet
  variablesGroup : List (String × H5Value)
  deriving DecidableEq

/-- Model of `createDataSet(key, stringType, space)` followed by
`write(value, stringType)` in the group `constants`: the library refuses a name
already linked in the group (an exception, `none` here), and the write copies
`size` bytes from the buffer `value.c_str()`, which ends with a NUL byte. -/
def createStringDataSet (constants : List H5StringDataSet) (key : String) (size : Nat)
    (value : List UInt8) : Option (List H5StringDataSet) :=
  if constants.any (fun c => c.name == key) then none
  else some (constants ++ [{ name := key, size := size, data := (value ++ [0]).take size }])

/-- Model of `createGroup(key)` in the group `variables`, followed by the
creation and the writing of its dataset `value`: the library refuses a name
already linked in the group (an exception, `none` here). -/
def createField (fields : List (String × H5Value)) (key : String) (value : H5Value) :
    Option (List (String × H5Value)) :=
  if fields.any (fun v => v.1 == key) then none
  else some (fields ++ [(key, value)])

/-- Translation of `writeLogHdf5`, for a file that can be created: the content
of the file written, `time` being the clock at the time of the call. The dataset
of the timestamps, created under the name `GLOBAL_TIME`, is the field
`globalTime` of the file. An exception of the library, or a field name read past
the end of `fieldnames`, gives `none`. -/
def writeLogHdf5 (time : Int) (logData : logData_t) :
    Option (hresult_t × H5File) := do
  let constants ← logData.constants.foldlM (fun constants kv =>
    createStringDataSet constants kv.1 (max kv.2.length 1) kv.2) []
  let numInt := logData.intData.length
  let numFloat := logData.floatData.length
  let fields1 ← (List.range numInt).foldlM (fun fields i => do
    let key ← logData.fieldnames[i]?
    createField fields key (.int64 (logData.intData.getD i []))) []
  let fields2 ← (List.range numFloat).foldlM (fun fields i => do
    let key ← logData.fieldnames[i + 1 + numInt]?
    createField fields key (.float64 (logData.floatData.getD i []))) fields1
  pure (hresult_t.SUCCESS,
    { VERSION := logData.version, START_TIME := time, globalTime := logData.timestamps,
      unit := logData.timeUnit, constantsGroup := constants, variablesGroup := fields2 })

/-- Model of `iterateElems` on the group `constants`: the datasets are visited
in the increasing order of their names. -/
def iterateElems (constants : List H5StringDataSet) : List H5StringDataSet :=
  constants.insertionSort (fun c d => c.name ≤ d.name)

/-- Model of the reading of a dataset as `NATIVE_INT64`: the library converts a
dataset of floats by truncation. -/
def H5Value.readInt64 : H5Value → List Int
  | .int64 data => data
  | .float64 data => data.map (fun q => q.num.tdiv q.den)

/-- Model of the reading of a dataset as `NATIVE_DOUBLE`: the library converts a
dataset of integers. -/
def H5Value.readDouble : H5Value → List ℚ
  | .int64 data => data.map (fun z => (z : ℚ))
  | .float64 data => data

/-- Class of a dataset is `H5T_FLOAT`. -/
def H5Value.isFloat : H5Value → Bool
  | .int64 _ => false
  | .float64 _ => true

/-- Translation of the callback of the second `H5Literate` of `readLogHdf5`: the
dataset of the next variable is read into a row of integers as long as the rows
of integers are not all read, into a row of floats afterwards, and its name is
appended to the field names. -/
def readField (logData : logData_t) (v : String × H5Value) : logData_t :=
  let varIdx := logData.fieldnames.length - 1
  let _numInt := logData.intData.length
  let logData1 :=
    if varIdx < _numInt then
      { logData with intData := logData.intData.set varIdx v.2.readInt64 }
    else
      { logData with floatData := logData.floatData.set (varIdx - _numInt) v.2.readDouble }
  { logData1 with fieldnames := logData1.fieldnames ++ [v.1] }

/-- Translation of `readLogHdf5`, for a file that can be opened. The rows of the
matrices `intData` and `floatData`, which `resize` leaves uninitialised, are
zero here until they are read. -/
def readLogHdf5 (GLOBAL_TIME : String) (file : H5File) : hresult_t × logData_t :=
  let logData0 := logData_t.empty
  let logData1 := { logData0 with
    constants := (iterateElems file.constantsGroup).foldl
      (fun constants (c : H5StringDataSet) =>
        constants ++ [(c.name, (c.data ++ List.replicate c.size 0).take c.size)]) [] }
  let numData := file.globalTime.length
  let logData2 := { logData1 with timestamps := file.globalTime, timeUnit := file.unit }
  let numFloat := (file.variablesGroup.filter (fun v => v.2.isFloat)).length
  let numInt := (file.variablesGroup.filter (fun v => !v.2.isFloat)).length
  let logData3 := { logData2 with
    intData := List.replicate numInt (List.replicate numData 0),
    floatData := List.replicate numFloat (List.replicate numData 0),
    fieldnames := [GLOBAL_TIME] }
  (hresult_t.SUCCESS, file.variablesGroup.foldl readField logData3)

/-! ## Integration loop: step and simulate -/

/-- State of the stepper (`stepperState_t`) without the split state vectors
`qSplit`, `vSplit`, `aSplit`. For the step sizes suggested by the stepper, `none`
is `INF`. -/
structure stepperState_t where
  iter : Nat
  iterFailed : Nat
  t : ℚ
  tPrev : ℚ
  tError : ℚ
  dt : ℚ
  dtLargest : Option ℚ
  dtLargestPrev : Option ℚ
  deriving DecidableEq, Repr, Inhabited

/-- Engine during a simulation: the part `engine` read and written by the
lifecycle operations, the stepper state, the iterators
`forcesImpulseBreakNextIt` of the systems (as indices in `forcesImpulseBreaks`),
and everything else (state vectors, telemetry, sensors, timer) in `world`. -/
structure simulationState (W : Type) where
  engine : EngineMultiRobot
  stepperState_ : stepperState_t
  forcesImpulseBreakNextIt : List Nat
  world : W

/-- Options of the stepper that only the integration loop reads, and the
operations of the objects declared outside the translated sources (stepper,
telemetry, timer, robots, functors), taken as parameters. `tryStep` returns the
success flag, the new world, the new time, the new `dtLargest` and whether this
`dtLargest` is NaN; `toc` returns the time elapsed since `tic`. -/
structure stepEnvironment (W : Type) where
  logInternalStepperSteps : Bool
  timeout : ℚ
  dtRestoreThresholdRel : ℚ
  stepperReset : ℚ → stepperState_t
  hasNan : W → Bool
  getMaximumLogTime : W → ℚ
  tic : W → W
  toc : W → W × ℚ
  forceFct : W → Nat → Nat → ℚ → W
  computeCommand : W → Nat → ℚ → W
  updateTelemetry : W → ℚ → W
  computeSystemsDynamics : W → ℚ → W
  tryStep : W → ℚ → ℚ → Bool × W × ℚ × Option ℚ × Bool
  syncSystemsState : W → W
  setSensorsData : W → Nat → ℚ → W
  callbackFct : Nat → W → ℚ → Bool
  startWorld : W → W
  stopWorld : W → W

/-- Local variables of `step` and the state they refer to. -/
structure stepState (W : Type) where
  sim : simulationState W
  returnCode : hresult_t
  successiveIterFailed : Nat
  isNan : Bool
  isBreakpointReached : Bool
  hasDynamicsChanged : Bool

/-- Assignment to the part of the engine kept in `world`. -/
def stepState.setWorld {W : Type} (st : stepState W) (world : W) : stepState W :=
  { st with sim := { st.sim with world := world } }

/-- Assignment to the time, step sizes and counters of the stepper state, the
Kahan compensation `tError` being left as it is. -/
def stepState.setStepper {W : Type} (st : stepState W) (iter iterFailed : Nat)
    (t tPrev dt : ℚ) (dtLargest dtLargestPrev : Option ℚ) : stepState W :=
  { st with sim := { st.sim with stepperState_ :=
      { iter := iter, iterFailed := iterFailed, t := t, tPrev := tPrev,
        tError := st.sim.stepperState_.tError, dt := dt, dtLargest := dtLargest,
        dtLargestPrev := dtLargestPrev } } }

/-- Model of `std::fmod` on finite values with a non-zero divisor. -/
def fmod (x y : ℚ) : ℚ := x - ((x / y).num.tdiv (x / y).den : ℤ) * y

/-- Minimum of a finite value and of a value that may be `INF`. -/
def minInf (a : ℚ) (b : Option ℚ) : ℚ :=
  match b with
  | some y => min a y
  | none => a

/-- Comparison `a > b` where `a` may be `INF`. -/
def gtInf (a : Option ℚ) (b : ℚ) : Bool :=
  match a with
  | some x => decide (x > b)
  | none => true

/-- Test shared by the periodic updates: the time `t` is within
`SIMULATION_MIN_TIMESTEP` before, or `STEPPER_MIN_TIMESTEP` after, a multiple of
`period`. -/
def isUpdateDue (C : Constants) (t period : ℚ) : Bool :=
  let dtNext := period - fmod t period
  decide (dtNext < C.SIMULATION_MIN_TIMESTEP) ||
    decide (period - dtNext < C.STEPPER_MIN_TIMESTEP)

/-- Update of the active set of the impulse forces of one system at time `t`;
the flag tells whether `hasDynamicsChanged` is set. -/
def updateActiveSet (C : Constants) (t : ℚ) :
    List forceImpulse_t → List Bool → List Bool × Bool
  | force :: forces, active :: actives =>
    let activate := decide (t > force.t - C.STEPPER_MIN_TIMESTEP)
    let deactivate := decide (t ≥ force.t + force.dt - C.STEPPER_MIN_TIMESTEP)
    let r := updateActiveSet C t forces actives
    ((if deactivate then false else if activate then true else active) :: r.1,
      activate || deactivate || r.2)
  | _, actives => (actives, false)

/-- First loop of an iteration of `step` over the systems: active sets, iterators
on the breakpoints, next breakpoint `tForceImpulseNext` (`none` is `INF`) and
whether `hasDynamicsChanged` is set. -/
def updateImpulses (C : Constants) (t : ℚ) :
    List systemDataHolder_t → List Nat → Option ℚ →
      List systemDataHolder_t × List Nat × Option ℚ × Bool
  | systemData :: rest, tBreakNextIt :: its, tForceImpulseNext =>
    let a := updateActiveSet C t systemData.forcesImpulse systemData.forcesImpulseActive
    let breaks := systemData.forcesImpulseBreaks
    let it1 := if tBreakNextIt < breaks.length ∧
        t ≥ breaks.getD tBreakNextIt 0 - C.STEPPER_MIN_TIMESTEP
      then tBreakNextIt + 1 else tBreakNextIt
    let tNext1 := if it1 < breaks.length
      then some (minInf (breaks.getD it1 0) tForceImpulseNext) else tForceImpulseNext
    let r := updateImpulses C t rest its tNext1
    ({ systemData with forcesImpulseActive := a.1 } :: r.1, it1 :: r.2.1, r.2.2.1,
      a.2 || r.2.2.2)
  | holder, its, tForceImpulseNext => (holder, its, tForceImpulseNext, false)

/-- Sampling of the force profiles that are due (finite update period only). -/
def updateForcesProfile {W : Type} (C : Constants) (env : stepEnvironment W) (t : ℚ)
    (holder : List systemDataHolder_t) (world : W) : W × Bool :=
  (List.range holder.length).foldl (fun acc i =>
    let profiles := (holder.getD i default).forcesProfile
    (List.range profiles.length).foldl (fun acc j =>
      let forceProfile := profiles.getD j default
      if forceProfile.updatePeriod > C.EPS ∧ isUpdateDue C t forceProfile.updatePeriod = true
      then (env.forceFct acc.1 i j t, true) else acc) acc) (world, false)

/-- Part of an iteration of `step` before the integration proper: active set of
the impulse forces, force profiles, controller command, telemetry and fix of the
dynamics. Returns the state and `tForceImpulseNext`. -/
def stepPrepare {W : Type} (C : Constants) (env : stepEnvironment W) (st : stepState W) :
    stepState W × Option ℚ :=
  let t := st.sim.stepperState_.t
  let e := st.sim.engine
  let opts := e.engineOptions_.getD default
  let r := updateImpulses C t e.systemsDataHolder_ st.sim.forcesImpulseBreakNextIt none
  let st1 : stepState W := { st with
    sim := { st.sim with engine := { e with systemsDataHolder_ := r.1 },
                         forcesImpulseBreakNextIt := r.2.1 },
    hasDynamicsChanged := st.hasDynamicsChanged || r.2.2.2 }
  let st2 :=
    if e.stepperUpdatePeriod_.isSome then
      let p := updateForcesProfile C env t r.1 st1.sim.world
      { st1.setWorld p.1 with hasDynamicsChanged := st1.hasDynamicsChanged || p.2 }
    else st1
  let st3 :=
    if e.stepperUpdatePeriod_.isSome ∧ opts.stepper.controllerUpdatePeriod > C.EPS ∧
        isUpdateDue C t opts.stepper.controllerUpdatePeriod = true then
      { st2.setWorld ((List.range e.systems_.length).foldl
          (fun world i => env.computeCommand world i t) st2.sim.world)
        with hasDynamicsChanged := true }
    else st2
  let st4 :=
    if e.stepperUpdatePeriod_.isNone ∨ env.logInternalStepperSteps = false then
      if e.stepperUpdatePeriod_.isNone ∨
          isUpdateDue C t (e.stepperUpdatePeriod_.getD 0) = true then
        st3.setWorld (env.updateTelemetry st3.sim.world t)
      else st3
    else st3
  let st5 :=
    if e.stepperUpdatePeriod_.isNone ∧ st4.hasDynamicsChanged = true then
      { st4.setWorld (env.computeSystemsDynamics st4.sim.world t)
        with hasDynamicsChanged := false }
    else st4
  (st5, r.2.2.1)

/-- Part of an iteration of an integration loop from the call of `tryStep` on,
for the step size `dt`. The first flag is false when the loop is left by `break`,
the second one is `isStepSuccessful`. -/
def stepTry {W : Type} (env : stepEnvironment W) (st : stepState W) (dt : ℚ) :
    Bool × Bool × stepState W :=
  let ss := st.sim.stepperState_
  let opts := st.sim.engine.engineOptions_.getD default
  let r := env.tryStep st.sim.world ss.t dt
  let st1 := { (st.setWorld r.2.1).setStepper ss.iter ss.iterFailed r.2.2.1 ss.tPrev dt
    r.2.2.2.1 ss.dtLargestPrev with isNan := r.2.2.2.2 }
  if st1.isNan then (false, r.1, st1)
  else if r.1 then
    let dtLargest1 :=
      if st1.isBreakpointReached = true ∧ gtInf r.2.2.2.1 dt = true ∧
          (match r.2.2.2.1, ss.dtLargestPrev with
           | some a, some b => decide (a < b * env.dtRestoreThresholdRel)
           | some _, none => decide (0 < env.dtRestoreThresholdRel)
           | none, _ => false) = true
      then ss.dtLargestPrev else r.2.2.2.1
    (true, true, { (st1.setWorld (env.syncSystemsState r.2.1)).setStepper (ss.iter + 1)
      ss.iterFailed r.2.2.1 r.2.2.1 (minInf opts.stepper.dtMax dtLargest1) dtLargest1 dtLargest1
      with successiveIterFailed := 0 })
  else
    (true, false, { st1.setStepper ss.iter (ss.iterFailed + 1) r.2.2.1 ss.tPrev
      (minInf opts.stepper.dtMax r.2.2.2.1) r.2.2.2.1 ss.dtLargestPrev
      with successiveIterFailed := st1.successiveIterFailed + 1 })

/-- Step size tried by an iteration of the discrete-time loop: the current `dt`
cut at the next breakpoint `tNext`, stretched up to it when the rest would be too
short, and rounded down to a multiple of `SIMULATION_MIN_TIMESTEP` when it can
be. -/
def discreteStepSize (C : Constants) (tNext : ℚ) (ss : stepperState_t) : ℚ :=
  let t := ss.t
  let dt1 := min ss.dt (tNext - t)
  let dt2 :=
    if gtInf ss.dtLargest C.SIMULATION_MIN_TIMESTEP then
      if tNext - (t + dt1) < C.SIMULATION_MIN_TIMESTEP then tNext - t else dt1
    else
      if tNext - (t + dt1) < C.STEPPER_MIN_TIMESTEP then tNext - t else dt1
  let dtResidual := fmod dt2 C.SIMULATION_MIN_TIMESTEP
  if dt2 > C.SIMULATION_MIN_TIMESTEP ∧ dtResidual > C.STEPPER_MIN_TIMESTEP ∧
      dtResidual < C.SIMULATION_MIN_TIMESTEP - C.STEPPER_MIN_TIMESTEP ∧
      dt2 - dtResidual > C.STEPPER_MIN_TIMESTEP
  then dt2 - dtResidual else dt2

/-- Beginning of an iteration of the discrete-time loop: telemetry of the
internal steps and fix of the dynamics. -/
def discretePrelude {W : Type} (env : stepEnvironment W) (st : stepState W) : stepState W :=
  let t := st.sim.stepperState_.t
  let st1 :=
    if st.successiveIterFailed = 0 ∧ env.logInternalStepperSteps = true
    then st.setWorld (env.updateTelemetry st.sim.world t) else st
  if st1.hasDynamicsChanged then
    { st1.setWorld (env.computeSystemsDynamics st1.sim.world t)
      with hasDynamicsChanged := false }
  else st1

/-- One iteration of the loop `while (tNext - t > STEPPER_MIN_TIMESTEP)` of the
discrete-time branch. Returns false when the loop is left by `break`. -/
def discreteIteration {W : Type} (C : Constants) (env : stepEnvironment W) (tNext : ℚ)
    (st : stepState W) : Bool × stepState W :=
  let opts := st.sim.engine.engineOptions_.getD default
  let ss := st.sim.stepperState_
  let dt := discreteStepSize C tNext ss
  let st3 := (discretePrelude env st).setStepper ss.iter ss.iterFailed ss.t ss.tPrev dt
    ss.dtLargest ss.dtLargestPrev
  if dt < C.STEPPER_MIN_TIMESTEP then (false, st3)
  else
    let timer := env.toc st3.sim.world
    let st4 := st3.setWorld timer.1
    if C.EPS < env.timeout ∧ env.timeout < timer.2 then (false, st4)
    else if st4.successiveIterFailed > opts.stepper.successiveIterFailedMax then (false, st4)
    else
      let r := stepTry env { st4 with isBreakpointReached := gtInf ss.dtLargest dt } dt
      (r.1, r.2.2)

/-- Loop `while (tNext - t > STEPPER_MIN_TIMESTEP)` of the discrete-time branch,
with at most `fuel` iterations. -/
def discreteLoop {W : Type} (C : Constants) (env : stepEnvironment W) (tNext : ℚ) :
    Nat → stepState W → Option (stepState W)
  | 0, st => if tNext - st.sim.stepperState_.t > C.STEPPER_MIN_TIMESTEP then none else some st
  | fuel + 1, st =>
    if tNext - st.sim.stepperState_.t > C.STEPPER_MIN_TIMESTEP then
      let r := discreteIteration C env tNext st
      if r.1 then discreteLoop C env tNext fuel r.2 else some r.2
    else some st

/-- Loop `while (!isStepSuccessful)` of the continuous-time branch, with at most
`fuel` iterations. -/
def continuousLoop {W : Type} (env : stepEnvironment W) :
    Nat → stepState W → Option (stepState W)
  | 0, _ => none
  | fuel + 1, st =>
    let opts := st.sim.engine.engineOptions_.getD default
    let ss := st.sim.stepperState_
    let st1 := st.setStepper ss.iter ss.iterFailed ss.t ss.tPrev ss.dt (some ss.dt)
      ss.dtLargestPrev
    if st1.successiveIterFailed > opts.stepper.successiveIterFailedMax then some st1
    else
      let r := stepTry env st1 ss.dt
      if r.1 = false then some r.2.2
      else if r.2.1 then some r.2.2
      else continuousLoop env fuel r.2.2

/-- Integration proper of an iteration of `step`, up to the next breakpoint. -/
def stepIntegrate {W : Type} (C : Constants) (env : stepEnvironment W) (fuel : Nat) (tEnd : ℚ)
    (tForceImpulseNext : Option ℚ) (st : stepState W) : Option (stepState W) :=
  let ss := st.sim.stepperState_
  let t := ss.t
  match st.sim.engine.stepperUpdatePeriod_ with
  | some stepperUpdatePeriod_ =>
    let dtNextUpdatePeriod := stepperUpdatePeriod_ - fmod t stepperUpdatePeriod_
    let dtNextGlobal :=
      if dtNextUpdatePeriod < C.SIMULATION_MIN_TIMESTEP
      then minInf (dtNextUpdatePeriod + stepperUpdatePeriod_)
        (tForceImpulseNext.map (fun tF => tF - t))
      else minInf dtNextUpdatePeriod (tForceImpulseNext.map (fun tF => tF - t))
    let dtNextGlobal1 :=
      if tEnd - t - C.STEPPER_MIN_TIMESTEP < dtNextGlobal then tEnd - t else dtNextGlobal
    discreteLoop C env (t + dtNextGlobal1) fuel st
  | none =>
    let dt := minInf (min ss.dt (tEnd - t)) (tForceImpulseNext.map (fun tF => tF - t))
    continuousLoop env fuel
      { st.setStepper ss.iter ss.iterFailed t ss.tPrev dt ss.dtLargest ss.dtLargestPrev
        with isBreakpointReached := gtInf ss.dtLargest dt }

/-- Exception handling and update of the sensors at the end of an iteration of
`step`. -/
def stepFinish {W : Type} (C : Constants) (env : stepEnvironment W) (st : stepState W) :
    stepState W :=
  let opts := st.sim.engine.engineOptions_.getD default
  let t := st.sim.stepperState_.t
  let returnCode1 := if st.isNan then hresult_t.ERROR_GENERIC else st.returnCode
  let returnCode2 :=
    if st.successiveIterFailed > opts.stepper.successiveIterFailedMax
    then hresult_t.ERROR_GENERIC else returnCode1
  let returnCode3 :=
    if st.sim.stepperState_.dt < C.STEPPER_MIN_TIMESTEP
    then hresult_t.ERROR_GENERIC else returnCode2
  let timer := env.toc st.sim.world
  let returnCode4 :=
    if C.EPS < env.timeout ∧ env.timeout < timer.2
    then hresult_t.ERROR_GENERIC else returnCode3
  let st1 := { st.setWorld timer.1 with returnCode := returnCode4 }
  if returnCode4 = .SUCCESS ∧
      (opts.stepper.sensorsUpdatePeriod < C.EPS ∨
        isUpdateDue C t opts.stepper.sensorsUpdatePeriod = true) then
    st1.setWorld ((List.range st.sim.engine.systems_.length).foldl
      (fun world i => env.setSensorsData world i t) timer.1)
  else st1

/-- One iteration of the loop
`while ((tEnd - t >= STEPPER_MIN_TIMESTEP) && (returnCode == SUCCESS))`. -/
def stepIteration {W : Type} (C : Constants) (env : stepEnvironment W) (fuel : Nat) (tEnd : ℚ)
    (st : stepState W) : Option (stepState W) :=
  let p := stepPrepare C env st
  (stepIntegrate C env fuel tEnd p.2 p.1).map (stepFinish C env)

/-- Loop `while ((tEnd - t >= STEPPER_MIN_TIMESTEP) && (returnCode == SUCCESS))`
of `step`, with at most `fuel` iterations, each inner loop having at most
`fuel` iterations as well. -/
def stepLoop {W : Type} (C : Constants) (env : stepEnvironment W) (fuel : Nat) (tEnd : ℚ) :
    Nat → stepState W → Option (stepState W)
  | 0, st =>
    if tEnd - st.sim.stepperState_.t ≥ C.STEPPER_MIN_TIMESTEP ∧ st.returnCode = .SUCCESS
    then none else some st
  | n + 1, st =>
    if tEnd - st.sim.stepperState_.t ≥ C.STEPPER_MIN_TIMESTEP ∧ st.returnCode = .SUCCESS
    then (stepIteration C env fuel tEnd st).bind (stepLoop C env fuel tEnd n)
    else some st

/-- Translation of `EngineMultiRobot::step`; `none` when a loop needs more than
`fuel` iterations. The log buffer `logData_`, which `step` clears, is not
represented. -/
def step {W : Type} (C : Constants) (env : stepEnvironment W) (fuel : Nat)
    (s : simulationState W) (stepSize : ℚ) : Option (hresult_t × simulationState W) :=
  if !s.engine.isSimulationRunning_ then some (.ERROR_GENERIC, s)
  else if env.hasNan s.world then some (.ERROR_GENERIC, s)
  else if stepSize > C.EPS ∧ stepSize < C.SIMULATION_MIN_TIMESTEP then
    some (.ERROR_BAD_INPUT, s)
  else
    let opts := s.engine.engineOptions_.getD default
    let stepSize1 :=
      if stepSize < C.EPS then
        if opts.stepper.controllerUpdatePeriod > C.EPS then opts.stepper.controllerUpdatePeriod
        else if opts.stepper.sensorsUpdatePeriod > C.EPS then opts.stepper.sensorsUpdatePeriod
        else opts.stepper.dtMax
      else stepSize
    if s.stepperState_.t + stepSize1 > env.getMaximumLogTime s.world then
      some (.ERROR_GENERIC, s)
    else
      let stepSize_true := stepSize1 - s.stepperState_.tError
      let tEnd := s.stepperState_.t + stepSize_true
      let s1 : simulationState W := { s with
        stepperState_ := { s.stepperState_ with
          tError := (tEnd - s.stepperState_.t) - stepSize_true },
        world := env.tic s.world }
      (stepLoop C env fuel tEnd fuel
        { sim := s1, returnCode := .SUCCESS, successiveIterFailed := 0, isNan := false,
          isBreakpointReached := false, hasDynamicsChanged := false }).map (fun st =>
        if st.returnCode = .SUCCESS then
          (st.returnCode, { st.sim with stepperState_ := { st.sim.stepperState_ with t := tEnd } })
        else (st.returnCode, st.sim))

/-- Some callback of a system returns false (`isCallbackFalse`). -/
def isCallbackFalse {W : Type} (env : stepEnvironment W) (s : simulationState W) : Bool :=
  s.engine.systems_.any (fun system => !env.callbackFct system.callbackFct s.world
    s.stepperState_.t)

/-- One of the three `break` of the loop of `simulate` is taken: end time
reached, a callback returned false, or maximum number of iterations reached. -/
def simulateBreak {W : Type} (C : Constants) (env : stepEnvironment W) (tEnd : ℚ)
    (s : simulationState W) : Bool :=
  let opts := s.engine.engineOptions_.getD default
  decide (tEnd - s.stepperState_.t < C.SIMULATION_MIN_TIMESTEP) ||
    isCallbackFalse env s ||
    decide (0 < opts.stepper.iterMax ∧ opts.stepper.iterMax ≤ s.stepperState_.iter)

/-- Loop `while (returnCode == SUCCESS)` of `simulate`, entered with
`returnCode == SUCCESS`, with at most `n` iterations; the result holds the
status, the state and the number of calls of `step` made, `numSteps` being the
number of calls made before. -/
def simulateLoop {W : Type} (C : Constants) (env : stepEnvironment W) (fuel : Nat) (tEnd : ℚ) :
    Nat → simulationState W → Nat → Option (hresult_t × simulationState W × Nat)
  | 0, s, numSteps =>
    if simulateBreak C env tEnd s then some (.SUCCESS, s, numSteps) else none
  | n + 1, s, numSteps =>
    if simulateBreak C env tEnd s then some (.SUCCESS, s, numSteps)
    else
      let opts := s.engine.engineOptions_.getD default
      let stepSize :=
        match s.engine.stepperUpdatePeriod_ with
        | some stepperUpdatePeriod_ => min stepperUpdatePeriod_ (tEnd - s.stepperState_.t)
        | none => min opts.stepper.dtMax (tEnd - s.stepperState_.t)
      match step C env fuel s stepSize with
      | none => none
      | some r =>
        if r.1 = .SUCCESS then simulateLoop C env fuel tEnd n r.2 (numSteps + 1)
        else some (r.1, r.2, numSteps + 1)

/-- Part of `simulate` before its loop: checks, `reset(true, false)` and `start`.
When `start` succeeds the stepper state is the one left by
`stepperState_.reset(SIMULATION_MIN_TIMESTEP, ...)` and the iterators on the
breakpoints are at the beginning; when it fails, `simulate` reads neither any
more and they are left here as they were. -/
def simulateStart {W : Type} (C : Constants) (H : Helpers) (env : stepEnvironment W)
    (s : simulationState W) (tEnd : ℚ) (inp : startInputs) : hresult_t × simulationState W :=
  let returnCode1 :=
    if s.engine.systems_.isEmpty then hresult_t.ERROR_INIT_FAILED else hresult_t.SUCCESS
  let returnCode2 := if tEnd < 5 / 1000 then hresult_t.ERROR_BAD_INPUT else returnCode1
  let r : hresult_t × simulationState W :=
    if returnCode2 = .SUCCESS then
      let started := start C H (reset H s.engine true false) inp
      if started.1 = .SUCCESS then
        (started.1, { engine := started.2,
                      stepperState_ := env.stepperReset C.SIMULATION_MIN_TIMESTEP,
                      forcesImpulseBreakNextIt := started.2.systems_.map (fun _ => 0),
                      world := env.startWorld s.world })
      else (started.1, { s with engine := started.2, world := env.startWorld s.world })
    else (returnCode2, s)
  if tEnd > env.getMaximumLogTime r.2.world then (.ERROR_BAD_INPUT, r.2) else r

/-- Translation of `EngineMultiRobot::simulate`; `none` when a loop needs more
than `fuel` iterations. The result holds the status returned, the final state
and the number of calls of `step`. -/
def simulate {W : Type} (C : Constants) (H : Helpers) (env : stepEnvironment W) (fuel : Nat)
    (s : simulationState W) (tEnd : ℚ) (inp : startInputs) :
    Option (hresult_t × simulationState W × Nat) :=
  let r := simulateStart C H env s tEnd inp
  let looped :=
    if r.1 = .SUCCESS then simulateLoop C env fuel tEnd fuel r.2 0 else some (r.1, r.2, 0)
  looped.map (fun l =>
    (l.1, { l.2.1 with engine := stop l.2.1.engine, world := env.stopWorld l.2.1.world }, l.2.2))

/-- State after `n` successive calls `step(h)` that all return `SUCCESS` (`none`
if one of them does not). -/
def stepsOfSize {W : Type} (C : Constants) (env : stepEnvironment W) (fuel : Nat) (h : ℚ) :
    Nat → simulationState W → Option (simulationState W)
  | 0, s => some s
  | n + 1, s =>
    match step C env fuel s h with
    | some (.SUCCESS, s1) => stepsOfSize C env fuel h n s1
    | _ => none

/-- State at the beginning of the iteration of rank `k` of the loop of
`simulate`, reached after `k` iterations in each of which no `break` is taken and
`step` returns `SUCCESS` (`none` if the loop does not get that far). -/
def simulateIterations {W : Type} (C : Constants) (env : stepEnvironment W) (fuel : Nat)
    (tEnd : ℚ) : Nat → simulationState W → Option (simulationState W)
  | 0, s => some s
  | k + 1, s =>
    if simulateBreak C env tEnd s then none
    else
      let opts := s.engine.engineOptions_.getD default
      let stepSize :=
        match s.engine.stepperUpdatePeriod_ with
        | some stepperUpdatePeriod_ => min stepperUpdatePeriod_ (tEnd - s.stepperState_.t)
        | none => min opts.stepper.dtMax (tEnd - s.stepperState_.t)
      match step C env fuel s stepSize with
      | some (.SUCCESS, s1) => simulateIterations C env fuel tEnd k s1
      | _ => none

/-! ## Contact and joint-bound constraints -/

/-- Fixed-frame constraint as `computeContactDynamicsAtFrame` sees it: whether it
is enabled, the translation of its reference transform and its normal. The
rotation of the reference transform is not represented. -/
structure FixedFrameConstraint (α : Type) where
  isEnabled : Bool
  referenceTranslation : Vector3 α
  normal : Vector3 α
  deriving DecidableEq, Repr

/-- Joint constraint as the position-limit update sees it: whether it is enabled,
its reference configuration and its rotation direction. -/
structure JointConstraint (α : Type) where
  isEnabled : Bool
  referenceConfiguration : α
  rotationDir : Bool
  deriving DecidableEq, Repr

/-- Model of `normalize()` of the linear-algebra library: the vector is divided
by its norm if its squared norm is positive. -/
def Vector3.normalize {α : Type} [LinearOrderedField α] (sqrt : α → α) (u : Vector3 α) :
    Vector3 α :=
  if u.dot u > 0 then ⟨u.x / sqrt (u.dot u), u.y / sqrt (u.dot u), u.z / sqrt (u.dot u)⟩
  else u

/-- Penetration depth computed by `computeContactDynamicsAtFrame` from the
position of the frame and the ground profile at this position (height and
normal). -/
def contactDepth {α : Type} [LinearOrderedField α] (sqrt : α → α) (posFrame : Vector3 α)
    (ground : α × Vector3 α) : α :=
  (posFrame.z - ground.1) * (Vector3.normalize sqrt ground.2).z

/-- Translation of `EngineMultiRobot::computeContactDynamicsAtFrame`. The inputs
read from the kinematics data are the position `posFrame` of the frame, the
velocity `vContactInWorld` of the contact point and the value `ground` of the
ground profile at `posFrame`; `convertForceGlobalFrameToJoint` is a parameter.
Returns the constraint and `fextLocal`. -/
def computeContactDynamicsAtFrame {α : Type} [LinearOrderedField α] (sqrt tanh : α → α)
    (EPS : α) (contactOptions_ : contactOptions_t α) (contactModel_ : contactModel_t)
    (convertForceGlobalFrameToJoint : Force α → Force α) (posFrame vContactInWorld : Vector3 α)
    (ground : α × Vector3 α) (constraint : FixedFrameConstraint α) (fextLocal : Force α) :
    FixedFrameConstraint α × Force α :=
  let nGround := Vector3.normalize sqrt ground.2
  let depth := contactDepth sqrt posFrame ground
  let r : FixedFrameConstraint α × Force α :=
    if depth < 0 then
      if contactModel_ = .SPRING_DAMPER then
        (constraint, convertForceGlobalFrameToJoint
          (computeContactDynamics sqrt tanh EPS contactOptions_ nGround depth vContactInWorld))
      else ({ constraint with isEnabled := true }, fextLocal)
    else
      if contactModel_ = .SPRING_DAMPER then (constraint, ⟨Vector3.zero, Vector3.zero⟩)
      else if depth > contactOptions_.transitionEps then
        ({ constraint with isEnabled := false }, fextLocal)
      else (constraint, fextLocal)
  if r.1.isEnabled then
    ({ r.1 with referenceTranslation := posFrame.sub (Vector3.smul depth nGround),
                normal := nGround }, r.2)
  else r

/-- Kinds of joint models of the kinematics library. -/
inductive JointModel where
  | freeflyer
  | spherical
  | sphericalZYX
  | translation
  | planar
  | prismatic
  | prismaticUnaligned
  | revolute
  | revoluteUnaligned
  | revoluteUnbounded
  | revoluteUnboundedUnaligned
  | mimic
  | composite
  deriving DecidableEq, Repr, Inhabited

/-- Comparison-based `std::clamp(v, lo, hi)`. -/
def clamp {α : Type} [LinearOrderedField α] (v lo hi : α) : α :=
  if v < lo then lo else if hi < v then hi else v

/-- Translation of the three overloads of `computePositionLimitsForcesAlgo::algo`,
selected by the kind of the joint. `Ia` is the projection of the inertia of the
subtree, `qJoint`, `qJointMin`, `qJointMax`, `vJoint` are the entries of the
vectors at the indices of the joint, `stiffness` and `damping` are the options
`boundStiffness` and `boundDamping`. Returns the constraint and the entry of `u`
at the velocity index of the joint. -/
def computePositionLimitsForcesAlgo {α : Type} [LinearOrderedField α] (joint : JointModel)
    (Ia qJoint qJointMin qJointMax vJoint stiffness damping transitionEps : α)
    (contactModel : contactModel_t) (constraint : JointConstraint α) (uJoint : α) :
    JointConstraint α × α :=
  match joint with
  | .revolute | .revoluteUnaligned | .prismatic | .prismaticUnaligned =>
    if contactModel = .SPRING_DAMPER then
      let accelJoint :=
        if qJoint > qJointMax then
          - max (stiffness * (qJoint - qJointMax) + damping * vJoint) 0
        else if qJoint < qJointMin then
          - min (stiffness * (qJoint - qJointMin) + damping * vJoint) 0
        else 0
      (constraint, uJoint + Ia * accelJoint)
    else
      if qJointMax < qJoint ∨ qJoint < qJointMin then
        ({ isEnabled := true, referenceConfiguration := clamp qJoint qJointMin qJointMax,
           rotationDir := decide (qJointMax < qJoint) }, uJoint)
      else if qJointMin + transitionEps < qJoint ∧ qJoint < qJointMax - transitionEps then
        ({ constraint with isEnabled := false }, uJoint)
      else (constraint, uJoint)
  | .revoluteUnbounded | .revoluteUnboundedUnaligned =>
    if contactModel = .CONSTRAINT then ({ constraint with isEnabled := false }, uJoint)
    else (constraint, uJoint)
  | _ =>
    if contactModel = .CONSTRAINT then ({ constraint with isEnabled := false }, uJoint)
    else (constraint, uJoint)

/-! ## Utilities on the kinematic model -/

/-- Type of a joint as the engine names it (`joint_t`). -/
inductive joint_t where
  | NONE
  | LINEAR
  | ROTARY
  | ROTARY_UNBOUNDED
  | PLANAR
  | TRANSLATION
  | SPHERICAL
  | FREE
  deriving DecidableEq, Repr, Inhabited

/-- Frame of the kinematic model, restricted to its name and its parent joint. -/
structure Frame where
  name : String
  parent : Nat
  deriving DecidableEq, Repr, Inhabited

/-- Kinematic model (`pinocchio::Model`), restricted to the number of joints and
the joint-indexed lists of joint models, names, parents, subtrees and supports,
and to the frames. The limit vectors, the placements, the inertias and the
position and velocity indices of the joints are not represented. -/
structure Model where
  njoints : Int
  joints : List JointModel
  names : List String
  parents : List Nat
  subtrees : List (List Nat)
  supports : List (List Nat)
  frames : List Frame
  deriving DecidableEq, Repr, Inhabited

/-- Translation of the overloads of `getJointTypeAlgo::getJointType`. -/
def getJointType : JointModel → joint_t
  | .freeflyer => .FREE
  | .spherical | .sphericalZYX => .SPHERICAL
  | .translation => .TRANSLATION
  | .planar => .PLANAR
  | .prismatic | .prismaticUnaligned => .LINEAR
  | .revolute | .revoluteUnaligned => .ROTARY
  | .revoluteUnbounded | .revoluteUnboundedUnaligned => .ROTARY_UNBOUNDED
  | .mimic | .composite => .NONE

/-- Conversion `static_cast<int32_t>` of an unsigned index. -/
def toInt32 (n : Nat) : Int := ((n + 2 ^ 31) % 2 ^ 32 : Nat) - 2 ^ 31

/-- Translation of `getJointTypeFromIdx`. The result is `none` when
`model.joints` is read outside its range; otherwise it holds the status and the
value written in `jointTypeOut`, if any. -/
def getJointTypeFromIdx (model : Model) (idIn : Nat) : Option (hresult_t × Option joint_t) :=
  if model.njoints < toInt32 idIn - 1 then some (.ERROR_GENERIC, none)
  else
    match model.joints[idIn]? with
    | none => none
    | some joint => some (.SUCCESS, some (getJointType joint))

/-- New value of a joint index met by `switchJoints` in a list of indices: the
two indices are exchanged. -/
def switchIndex (firstJointIdx secondJointIdx index : Nat) : Nat :=
  if firstJointIdx = index then secondJointIdx
  else if secondJointIdx = index then firstJointIdx
  else index

/-- Exchange of the entries of ranks `firstJointIdx` and `secondJointIdx` of a
joint-indexed list, through a temporary; the list is left as it is if one of the
ranks is outside the list. -/
def switchEntries {β : Type} (l : List β) (firstJointIdx secondJointIdx : Nat) : List β :=
  match l[firstJointIdx]?, l[secondJointIdx]? with
  | some temp, some second => (l.set firstJointIdx second).set secondJointIdx temp
  | _, _ => l

/-- Translation of `switchJoints`, for the part of the model represented: the
indices are exchanged in the parents, in the parents of the frames, in the
subtrees and in the supports; then the entries of the two joints are exchanged in
the parents, names, subtrees and joint models. -/
def switchJoints (modelInOut : Model) (firstJointIdx secondJointIdx : Nat) : Model :=
  if firstJointIdx < secondJointIdx then
    let parents := modelInOut.parents.map (switchIndex firstJointIdx secondJointIdx)
    let frames := modelInOut.frames.map (fun frame =>
      { frame with parent := switchIndex firstJointIdx secondJointIdx frame.parent })
    let subtrees := modelInOut.subtrees.map
      (fun subtree => subtree.map (switchIndex firstJointIdx secondJointIdx))
    let supports := modelInOut.supports.map
      (fun supports => supports.map (switchIndex firstJointIdx secondJointIdx))
    { modelInOut with
      parents := switchEntries parents firstJointIdx secondJointIdx,
      names := switchEntries modelInOut.names firstJointIdx secondJointIdx,
      subtrees := switchEntries subtrees firstJointIdx secondJointIdx,
      supports := supports,
      joints := switchEntries modelInOut.joints firstJointIdx secondJointIdx,
      frames := frames }
  else modelInOut

/-- Model of `std::is_sorted`: no entry is less than the one before it. -/
def isSorted : List ℚ → Bool
  | a :: b :: rest => !decide (b < a) && isSorted (b :: rest)
  | _ => true

/-- Loop `while (timesInIdx < timesIn.size() - 1 && timesIn[timesInIdx + 1] < t)`
of `interpolate`, with at most `fuel` iterations. -/
def interpolateAdvance (timesIn : List ℚ) (t : ℚ) : Nat → Int → Int
  | 0, timesInIdx => timesInIdx
  | fuel + 1, timesInIdx =>
    if timesInIdx < (timesIn.length : Int) - 1 ∧ timesIn.getD (timesInIdx + 1).toNat 0 < t
    then interpolateAdvance timesIn t fuel (timesInIdx + 1)
    else timesInIdx

/-- Row of `positionsOut` written by `interpolate` for the time `t`, once
`timesInIdx` has been advanced. The interpolation of the kinematics library is
the parameter `pinocchioInterpolate`. -/
def interpolateRow {Q : Type} [Inhabited Q] (pinocchioInterpolate : Q → Q → ℚ → Q)
    (timesIn : List ℚ) (positionsIn : List Q) (t : ℚ) (timesInIdx : Int) : Q :=
  if 0 ≤ timesInIdx ∧ timesInIdx < (timesIn.length : Int) - 1 then
    let qRight := positionsIn.getD timesInIdx.toNat default
    let qLeft := positionsIn.getD (timesInIdx + 1).toNat default
    let ratio := (t - timesIn.getD timesInIdx.toNat 0) /
      (timesIn.getD (timesInIdx + 1).toNat 0 - timesIn.getD timesInIdx.toNat 0)
    pinocchioInterpolate qRight qLeft ratio
  else if timesInIdx < 0 then positionsIn.getD 0 default
  else positionsIn.getD (timesIn.length - 1) default

/-- Loop of `interpolate` over the output times: rows written, in order. The
inner loop gets as many iterations as there are input times, which is enough for
it to end. -/
def interpolateLoop {Q : Type} [Inhabited Q] (pinocchioInterpolate : Q → Q → ℚ → Q)
    (timesIn : List ℚ) (positionsIn : List Q) : List ℚ → Int → List Q
  | [], _ => []
  | t :: timesOut, timesInIdx =>
    let timesInIdx1 := interpolateAdvance timesIn t timesIn.length timesInIdx
    interpolateRow pinocchioInterpolate timesIn positionsIn t timesInIdx1 ::
      interpolateLoop pinocchioInterpolate timesIn positionsIn timesOut timesInIdx1

/-- Translation of `interpolate`. The matrix `positionsIn` is the list of its
rows and its number of columns `cols`; the result holds the status and the rows
of `positionsOut`. -/
def interpolate {Q : Type} [Inhabited Q] (pinocchioInterpolate : Q → Q → ℚ → Q) (nq : Nat)
    (timesIn : List ℚ) (positionsIn : List Q) (cols : Nat) (timesOut : List ℚ)
    (positionsOut : List Q) : hresult_t × List Q :=
  if timesIn.length = 0 then (.SUCCESS, [])
  else if !isSorted timesIn || !isSorted timesOut then (.ERROR_BAD_INPUT, positionsOut)
  else if timesIn.length ≠ positionsIn.length ∨ nq ≠ cols then
    (.ERROR_BAD_INPUT, positionsOut)
  else (.SUCCESS, interpolateLoop pinocchioInterpolate timesIn positionsIn timesOut (-1))

/-- Name of the joint of index `i` and name of its parent, if they exist. -/
def jointParentNames (model : Model) (i : Nat) : Option (String × String) :=
  match model.names[i]?, model.parents[i]? with
  | some name, some parent => (model.names[parent]?).map (fun parentName => (name, parentName))
  | _, _ => none

/-- Name of the parent joint of the frame of index `k`, if they exist. -/
def frameParentName (model : Model) (k : Nat) : Option String :=
  match model.frames[k]? with
  | some frame => model.names[frame.parent]?
  | none => none

/-- What the specification says of the output row `row` of `interpolate` for
the time `t`: the first input row when `t ≤ timesIn[0]`, the last one when
`t > timesIn[last]`, and otherwise the interpolation between two consecutive
input rows `k` and `k + 1` with `timesIn[k] < t ≤ timesIn[k + 1]`, with a ratio
in `(0, 1]` whose denominator is positive. -/
def isInterpolatedRow {Q : Type} [Inhabited Q] (pinocchioInterpolate : Q → Q → ℚ → Q)
    (timesIn : List ℚ) (positionsIn : List Q) (t : ℚ) (row : Q) : Prop :=
  (t ≤ timesIn.getD 0 0 → row = positionsIn.getD 0 default) ∧
  (timesIn.getD (timesIn.length - 1) 0 < t →
    row = positionsIn.getD (timesIn.length - 1) default) ∧
  (timesIn.getD 0 0 < t → t ≤ timesIn.getD (timesIn.length - 1) 0 →
    ∃ k, k + 1 < timesIn.length ∧ timesIn.getD k 0 < t ∧ t ≤ timesIn.getD (k + 1) 0 ∧
      0 < timesIn.getD (k + 1) 0 - timesIn.getD k 0 ∧
      0 < (t - timesIn.getD k 0) / (timesIn.getD (k + 1) 0 - timesIn.getD k 0) ∧
      (t - timesIn.getD k 0) / (timesIn.getD (k + 1) 0 - timesIn.getD k 0) ≤ 1 ∧
      row = pinocchioInterpolate (positionsIn.getD k default) (positionsIn.getD (k + 1) default)
        ((t - timesIn.getD k 0) / (timesIn.getD (k + 1) 0 - timesIn.getD k 0)))

/-! ## Sample parameters and states -/

/-- Modelled from the spec: the constants of `Constants.h` and the lookup tables
of the engine header, which are not among the translated sources.
`STEPPER_MIN_TIMESTEP` is 1 µs (§4.5), `SIMULATION_MIN_TIMESTEP` is coarser,
`dtMax` ranges up to `SIMULATION_MAX_TIMESTEP` (§6.3), and the recognised solver
and model names are those of §6.3. `EPS` is the double-precision epsilon. -/
def specConstants : Constants :=
  { EPS := 1 / 4503599627370496
    STEPPER_MIN_TIMESTEP := 1 / 1000000
    SIMULATION_MIN_TIMESTEP := 1 / 100000
    SIMULATION_MAX_TIMESTEP := 1 / 50
    STEPPERS := ["runge_kutta_dopri5", "runge_kutta_4", "euler_explicit"]
    CONSTRAINT_SOLVERS_MAP := [("PGS", .PGS), ("NONE", .NONE)]
    CONTACT_MODELS_MAP := [("spring_damper", .SPRING_DAMPER), ("constraint", .CONSTRAINT)] }

/-- Modelled from the spec: the helpers of `Helpers.h`, which are not among the
translated sources. Periods equal to zero stand for continuous sampling; the
stepper period is the smallest strictly positive period, `INF` if there is none
(§4.5), and the periods are compatible when each is a multiple of it. -/
def specHelpers : Helpers :=
  let minClipped : Option ℚ → Option ℚ → Option ℚ := fun a b =>
    match a, b with
    | some x, some y => if 0 < x ∧ 0 < y then some (min x y)
                        else if 0 < x then some x else if 0 < y then some y else none
    | some x, none => if 0 < x then some x else none
    | none, some y => if 0 < y then some y else none
    | none, none => none
  let gcdIncluded : List (Option ℚ) → Bool × Option ℚ := fun values =>
    let m := values.foldl minClipped none
    match m with
    | none => (true, none)
    | some period => (values.all (fun v => match v with
        | none => true
        | some x => decide (x ≤ 0) || decide ((x / period).den = 1)), some period)
  { isGcdIncluded := gcdIncluded
    isGcdIncludedRange := fun range values => gcdIncluded (range.map some ++ values)
    minClipped := minClipped }

/-- Options accepted by `setOptions`: continuous sampling, spring-damper
contacts. -/
def sampleOptions : engineOptions_t :=
  { stepper := { dtMax := 1 / 1000, successiveIterFailedMax := 1000,
                 odeSolver := "runge_kutta_dopri5", sensorsUpdatePeriod := 0,
                 controllerUpdatePeriod := 0, randomSeed := 0, tolAbs := 1 / 100000,
                 tolRel := 1 / 10000, iterMax := 0 }
    constraints := { solver := "PGS", regularization := 0 }
    contacts := { model := "spring_damper", stiffness := 1000000, damping := 2000,
                  friction := 1, torsion := 0, transitionEps := 1 / 1000,
                  transitionVelocity := 1 / 100, stabilizationFreq := 20 }
    world := { gravity := [0, 0, -981 / 100, 0, 0, 0] } }

/-- Engine right after construction: no system, sample options installed. -/
def emptyEngine : EngineMultiRobot :=
  { isSimulationRunning_ := false, isTelemetryConfigured_ := false, systems_ := [],
    systemsDataHolder_ := [], forcesCoupling_ := [], engineOptionsHolder_ := sampleOptions,
    engineOptions_ := some sampleOptions, contactModel_ := .SPRING_DAMPER,
    stepperUpdatePeriod_ := none, randomGenerators := some 0 }

/-- A set-up robot with frames `universe`, `base` and `tip`. -/
def sampleRobot : Robot := { id := 1, isInitialized := true, frames := ["universe", "base", "tip"] }

/-- A controller set up for `sampleRobot`. -/
def sampleController : AbstractController := { isInitialized := true, robot_ := some 1 }

/-- Idle engine holding the single system `robot`, with one coupling force
between its frames `base` and `tip`. -/
def idleEngine : EngineMultiRobot :=
  { emptyEngine with
    systems_ := [⟨"robot", sampleRobot, sampleController, 0⟩],
    systemsDataHolder_ := [systemDataHolder_t.empty],
    forcesCoupling_ := [⟨"robot", 0, "robot", 0, "base", 1, "tip", 2, 0⟩] }

/-- The same engine while a simulation is running. -/
def runningEngine : EngineMultiRobot :=
  { idleEngine with isSimulationRunning_ := true, isTelemetryConfigured_ := true }

/-- Sample options with a `dtMax` below `SIMULATION_MIN_TIMESTEP`. -/
def smallDtMaxOptions : engineOptions_t :=
  { sampleOptions with stepper := { sampleOptions.stepper with dtMax := 0 } }

/-- Sample options with a negative contact stiffness. -/
def negativeStiffnessOptions : engineOptions_t :=
  { sampleOptions with contacts := { sampleOptions.contacts with stiffness := -1 } }

/-- Sample options with a negative `transitionEps`. -/
def negativeTransitionEpsOptions : engineOptions_t :=
  { sampleOptions with contacts := { sampleOptions.contacts with transitionEps := -1 } }

/-- A result that carries `ERROR_BAD_INPUT` and leaves the engine untouched. -/
def rejectedBadInput (e : EngineMultiRobot) (r : hresult_t × EngineMultiRobot) : Prop :=
  r.1 = .ERROR_BAD_INPUT ∧ r.2 = e

/-- A result either leaves the engine untouched or carries `SUCCESS`. -/
def unchangedOrSuccess (e : EngineMultiRobot) (r : hresult_t × EngineMultiRobot) : Prop :=
  r.2 = e ∨ r.1 = .SUCCESS

/-- The validations `start` performs before it touches the engine all pass:
sizes of the initial-state maps, per-system state checks, optional
accelerations, sensors and motors. -/
def startChecksPass (e : EngineMultiRobot) (inp : startInputs) : Prop :=
  inp.qInitSize = e.systems_.length ∧ inp.vInitSize = e.systems_.length ∧
  startCheckStates inp e.systems_.length = none ∧
  startCheckAccelerations inp e.systems_.length = none ∧
  startCheckHardware inp e.systems_.length = none

instance (e : EngineMultiRobot) (inp : startInputs) : Decidable (startChecksPass e inp) := by
  unfold startChecksPass
  infer_instance

/-- Observations of a well-formed start of one system whose single contact
frame carries an initial force of norm `norm`. -/
def sampleProbe (norm : ℚ) : systemStartProbe :=
  { hasInitialState := true, dimensionOk := true, isPositionValid := true, isInBounds := true,
    hasInitialAcceleration := true, accelerationDimensionOk := true,
    sensorsInitialized := true, motorsInitialized := true, resetConstraints := .SUCCESS,
    contactFramesForceNorm := [norm], collisionBodiesForceNorm := [], getLock := .SUCCESS }

/-- Start of the sample engine with an initial contact force of norm `2e5`. -/
def largeForceStart : startInputs :=
  { qInitSize := 1, vInitSize := 1, aInitSize := none, probe := fun _ => sampleProbe 200000,
    accelerationHasNan := false, configureTelemetryOk := true }

/-- Idle engine holding the systems `a` and `b` (distinct robots), with one
coupling force from `a` to `b` and one between two frames of `b`. -/
def twoSystemsEngine : EngineMultiRobot :=
  { emptyEngine with
    systems_ := [⟨"a", sampleRobot, sampleController, 0⟩,
                 ⟨"b", { sampleRobot with id := 2 }, { sampleController with robot_ := some 2 }, 0⟩],
    systemsDataHolder_ := [systemDataHolder_t.empty, systemDataHolder_t.empty],
    forcesCoupling_ := [⟨"a", 0, "b", 1, "tip", 2, "tip", 2, 0⟩,
                        ⟨"b", 1, "b", 1, "base", 1, "tip", 2, 1⟩] }

/-- A joint-bound constraint on row 0 followed by a contact constraint on rows 1
to 4, as the solver builds them with `EPS = 1/1000` and unit friction and torsion
coefficients. -/
def samplePgsConstraints (α : Type) [LinearOrderedField α] : List (ConstraintData α) :=
  [{ PGSSolver.constraintData (1 / 1000) 1 1 .BOUNDS_JOINTS 1 with startIdx := 0 },
   { PGSSolver.constraintData (1 / 1000) 1 1 .CONTACT_FRAMES 4 with startIdx := 1 }]

/-- Identity matrix. -/
def identityMatrix (α : Type) [LinearOrderedField α] : Nat → Nat → α :=
  fun i j => if i = j then 1 else 0

/-- Torsion block of a contact constraint with unit torsion coefficient. -/
def sampleTorsionBlock : ConstraintBlock ℚ :=
  { lo := none, hi := some 1, isZero := false, fIdx := [3, 2, 0], fSize := 2 }

/-- Diagonal matrix with diagonal `(1, 1, 10, 1)`. -/
def sampleDiagonal : Nat → Nat → ℚ :=
  fun i j => if i = j then (if i = 2 then 10 else 1) else 0

/-- Right-hand side `(0, 0, 10, 1/2)`. -/
def sampleRhs : Nat → ℚ :=
  fun i => if i = 2 then 10 else if i = 3 then 1 / 2 else 0

/-- A single contact constraint on rows 0 to 3, with `EPS = 1/1000` and unit
friction and torsion coefficients. -/
def sampleContactOnly : List (ConstraintData ℚ) :=
  [PGSSolver.constraintData (1 / 1000) 1 1 .CONTACT_FRAMES 4]

/-- A log with two timestamps, one integer variable, one float variable and
three constants, one of which is empty and one of which holds NUL bytes. -/
def sampleLog : logData_t :=
  { version := 1, timeUnit := 1 / 1000000000, timestamps := [0, 1000],
    intData := [[7, 8]], floatData := [[1 / 2, 3 / 2]],
    fieldnames := ["Global.Time", "iter", "energy"],
    constants := [("name", [106, 105]), ("blob", [1, 0, 2, 0]), ("empty", [])] }

/-- Environment of a sample simulation: an explicit Euler stepper that always
succeeds and suggests `INF` as next step size, no time-out, no logging of the
internal steps, a maximum log time of 1000 s, a stepper state reset to time 0
without compensation, and callbacks that return false from `stopTime` on. The
rest of the engine state is not represented. -/
def sampleEnvironment (stopTime : ℚ) : stepEnvironment Unit :=
  { logInternalStepperSteps := false, timeout := 0, dtRestoreThresholdRel := 1 / 5,
    stepperReset := fun dtInit =>
      { iter := 0, iterFailed := 0, t := 0, tPrev := 0, tError := 0, dt := dtInit,
        dtLargest := some dtInit, dtLargestPrev := some dtInit },
    hasNan := fun _ => false, getMaximumLogTime := fun _ => 1000,
    tic := fun w => w, toc := fun w => (w, 0),
    forceFct := fun w _ _ _ => w, computeCommand := fun w _ _ => w,
    updateTelemetry := fun w _ => w, computeSystemsDynamics := fun w _ => w,
    tryStep := fun w t dt => (true, w, t + dt, none, false),
    syncSystemsState := fun w => w, setSensorsData := fun w _ _ => w,
    callbackFct := fun _ _ t => decide (t < stopTime),
    startWorld := fun w => w, stopWorld := fun w => w }

/-- Running simulation at time 0, as `start` leaves it. -/
def sampleSimulation : simulationState Unit :=
  { engine := runningEngine,
    stepperState_ := (sampleEnvironment 1).stepperReset specConstants.SIMULATION_MIN_TIMESTEP,
    forcesImpulseBreakNextIt := [0], world := () }

/-- Start of the sample engine with an initial contact force of norm 10. -/
def smallForceStart : startInputs :=
  { qInitSize := 1, vInitSize := 1, aInitSize := none, probe := fun _ => sampleProbe 10,
    accelerationHasNan := false, configureTelemetryOk := true }

/-- Idle sample engine, before `simulate`. -/
def idleSimulation : simulationState Unit :=
  { engine := idleEngine, stepperState_ := default, forcesImpulseBreakNextIt := [],
    world := () }

/-- Impulse on the frame `tip` starting at time 0 and lasting exactly
`STEPPER_MIN_TIMESTEP` (1 µs with the sample constants). -/
def shortestImpulse : forceImpulse_t :=
  { frameName := "tip", frameIdx := 2, t := 0, dt := 1 / 1000000,
    F := ⟨⟨0, 0, 1⟩, ⟨0, 0, 0⟩⟩ }

/-- Local variables of `step` at the beginning of its loop, for the sample
simulation with one impulse of 1 ms registered at 1 ms and not active. -/
def sampleStepState : stepState Unit :=
  { sim := { sampleSimulation with
      engine := { runningEngine with systemsDataHolder_ :=
        [{ systemDataHolder_t.empty with
            forcesImpulse := [{ shortestImpulse with t := 1 / 1000, dt := 1 / 1000 }],
            forcesImpulseBreaks := [1 / 1000, 2 / 1000],
            forcesImpulseActive := [false] }] } },
    returnCode := .SUCCESS, successiveIterFailed := 0, isNan := false,
    isBreakpointReached := false, hasDynamicsChanged := false }

/-- A contact constraint that is enabled. -/
def enabledFrameConstraint : FixedFrameConstraint ℚ :=
  { isEnabled := true, referenceTranslation := ⟨0, 0, 0⟩, normal := ⟨0, 0, 1⟩ }

/-- A joint-bound constraint that is enabled. -/
def enabledJointConstraint : JointConstraint ℚ :=
  { isEnabled := true, referenceConfiguration := 0, rotationDir := false }

/-- Start of the engine with two systems where the reset of the constraints of
the first system fails and that of the second one succeeds. -/
def firstResetFailsStart : startInputs :=
  { qInitSize := 2, vInitSize := 2, aInitSize := none,
    probe := fun i => if i = 0
      then { sampleProbe 10 with resetConstraints := .ERROR_GENERIC } else sampleProbe 10,
    accelerationHasNan := false, configureTelemetryOk := true }

/-- Start of the engine with two systems where the reset of the constraints of
the second system fails and that of the first one succeeds. -/
def lastResetFailsStart : startInputs :=
  { qInitSize := 2, vInitSize := 2, aInitSize := none,
    probe := fun i => if i = 1
      then { sampleProbe 10 with resetConstraints := .ERROR_GENERIC } else sampleProbe 10,
    accelerationHasNan := false, configureTelemetryOk := true }

/-- A controller that has never been set up. -/
def freshController : AbstractController := { isInitialized := false, robot_ := none }

/-- Chain of three joints `universe`, `a`, `b` with their subtrees and supports,
and one frame attached to each of `a` and `b`. -/
def sampleModel : Model :=
  { njoints := 3, joints := [.freeflyer, .revolute, .prismatic],
    names := ["universe", "a", "b"], parents := [0, 0, 1],
    subtrees := [[0, 1, 2], [1, 2], [2]], supports := [[0], [0, 1], [0, 1, 2]],
    frames := [⟨"fa", 1⟩, ⟨"fb", 2⟩] }

/-! ## Theorems -/

/-! ### Lifecycle guards -/

/-- The status reported by `registerForceImpulse` is `SUCCESS` on every input. -/
theorem registerForceImpulse_status (C : Constants) (e : EngineMultiRobot)
    (systemName frameName : String) (t dt : ℚ) (F : Force ℚ) :
    (registerForceImpulse C e systemName frameName t dt F).1 = .SUCCESS := by
  simp only [registerForceImpulse, apply_ite Prod.fst, ite_self]

/-- The status reported by `removeForcesImpulse(systemName)` is `SUCCESS` on every
input. -/
theorem removeForcesImpulseSystem_status (e : EngineMultiRobot) (systemName : String) :
    (removeForcesImpulseSystem e systemName).1 = .SUCCESS := by
  simp only [removeForcesImpulseSystem, apply_ite Prod.fst, ite_self]

/-- The guarded mutators other than `registerForceImpulse` and
`removeForcesImpulse(systemName)` report `ERROR_GENERIC` while a simulation is
running, whatever their arguments (for `addSystem` without controller: a set-up
robot under a fresh non-empty name). -/
theorem guarded_mutators_running (C : Constants) (H : Helpers) (e : EngineMultiRobot)
    (hrun : e.isSimulationRunning_ = true) :
    (∀ name robot controller cb, (addSystem e name robot controller cb).1 = .ERROR_GENERIC) ∧
    (∀ name, (removeSystem e name).1 = .ERROR_GENERIC) ∧
    (∀ name controller, (setController e name controller).1 = .ERROR_GENERIC) ∧
    (∀ s1 s2 f1 f2 fct, (registerForceCoupling e s1 s2 f1 f2 fct).1 = .ERROR_GENERIC) ∧
    (∀ s f fct period, (registerForceProfile C H e s f fct period).1 = .ERROR_GENERIC) ∧
    (∀ s1 s2, (removeForcesCouplingPair e s1 s2).1 = .ERROR_GENERIC) ∧
    (∀ s, (removeForcesCouplingSystem e s).1 = .ERROR_GENERIC) ∧
    (removeForcesCoupling e).1 = .ERROR_GENERIC ∧
    (removeForcesImpulse e).1 = .ERROR_GENERIC ∧
    (∀ s, (removeForcesProfileSystem H e s).1 = .ERROR_GENERIC) ∧
    (removeForcesProfile e).1 = .ERROR_GENERIC ∧
    (∀ opts, (setOptions C H e opts).1 = .ERROR_GENERIC) := by
  refine ⟨?_, ?_, ?_, ?_, ?_, ?_, ?_, ?_, ?_, ?_, ?_, ?_⟩
  · intro name robot controller cb; simp [addSystem, hrun]
  · intro name; simp [removeSystem, hrun]
  · intro name controller; simp [setController, hrun, statusOf]
  · intro s1 s2 f1 f2 fct; simp [registerForceCoupling, hrun, statusOf]
  · intro s f fct period
    simp only [registerForceProfile, hrun, statusOf, if_true]
    split <;> simp
  · intro s1 s2; simp [removeForcesCouplingPair, hrun]
  · intro s; simp [removeForcesCouplingSystem, hrun]
  · simp [removeForcesCoupling, hrun]
  · simp [removeForcesImpulse, hrun]
  · intro s; simp [removeForcesProfileSystem, hrun]
  · simp [removeForcesProfile, hrun]
  · intro opts; simp [setOptions, hrun]

/-- C1 (evaluation at the failing input): on the running sample engine,
`registerForceImpulse` with a valid system, frame, time and duration, and
`removeForcesImpulse` with a valid system name, both report `SUCCESS` where the
specification requires `ERROR_GENERIC`. -/
theorem C1_impulse_mutators_running_report_success :
    runningEngine.isSimulationRunning_ = true ∧
    (registerForceImpulse specConstants runningEngine "robot" "tip" 0 1
      ⟨⟨0, 0, 10⟩, ⟨0, 0, 0⟩⟩).1 = .SUCCESS ∧
    (removeForcesImpulseSystem runningEngine "robot").1 = .SUCCESS :=
  ⟨rfl, registerForceImpulse_status _ _ _ _ _ _ _, removeForcesImpulseSystem_status _ _⟩

/-- A running engine is left as it was by `registerForceImpulse`. -/
theorem registerForceImpulse_running_unchanged (C : Constants) (e : EngineMultiRobot)
    (hrun : e.isSimulationRunning_ = true) (s f : String) (t dt : ℚ) (F : Force ℚ) :
    (registerForceImpulse C e s f t dt F).2 = e := by
  simp only [registerForceImpulse, hrun, if_true]
  by_cases h1 : dt < C.STEPPER_MIN_TIMESTEP <;> by_cases h2 : t < 0 <;>
    by_cases h3 : (f == "universe") = true <;> simp [h1, h2, h3, statusOf]

/-- A running engine is left as it was by `registerForceProfile`. -/
theorem registerForceProfile_running_unchanged (C : Constants) (H : Helpers)
    (e : EngineMultiRobot) (hrun : e.isSimulationRunning_ = true) (s f : String)
    (fct : Nat) (period : ℚ) :
    (registerForceProfile C H e s f fct period).2 = e := by
  simp only [registerForceProfile, hrun, if_true]
  by_cases h3 : (f == "universe") = true <;> simp [h3, statusOf]

/-- While a simulation is running, the guarded mutators other than
`removeForcesCoupling(void)` and `removeAllForces` leave the engine as it was. -/
theorem guarded_mutators_running_unchanged (C : Constants) (H : Helpers)
    (e : EngineMultiRobot) (hrun : e.isSimulationRunning_ = true) :
    (∀ name robot controller cb, (addSystem e name robot controller cb).2 = e) ∧
    (∀ name, (removeSystem e name).2 = e) ∧
    (∀ name controller, (setController e name controller).2 = e) ∧
    (∀ s1 s2 f1 f2 fct, (registerForceCoupling e s1 s2 f1 f2 fct).2 = e) ∧
    (∀ s f t dt F, (registerForceImpulse C e s f t dt F).2 = e) ∧
    (∀ s f fct period, (registerForceProfile C H e s f fct period).2 = e) ∧
    (∀ s1 s2, (removeForcesCouplingPair e s1 s2).2 = e) ∧
    (∀ s, (removeForcesCouplingSystem e s).2 = e) ∧
    (∀ s, (removeForcesImpulseSystem e s).2 = e) ∧
    (removeForcesImpulse e).2 = e ∧
    (∀ s, (removeForcesProfileSystem H e s).2 = e) ∧
    (removeForcesProfile e).2 = e ∧
    (∀ opts, (setOptions C H e opts).2 = e) := by
  refine ⟨?_, ?_, ?_, ?_, ?_, ?_, ?_, ?_, ?_, ?_, ?_, ?_, ?_⟩
  · intro name robot controller cb; simp [addSystem, hrun]
  · intro name; simp [removeSystem, hrun]
  · intro name controller; simp [setController, hrun, statusOf]
  · intro s1 s2 f1 f2 fct; simp [registerForceCoupling, hrun, statusOf]
  · intro s f t dt F; exact registerForceImpulse_running_unchanged C e hrun s f t dt F
  · intro s f fct period; exact registerForceProfile_running_unchanged C H e hrun s f fct period
  · intro s1 s2; simp [removeForcesCouplingPair, hrun]
  · intro s; simp [removeForcesCouplingSystem, hrun]
  · intro s; simp [removeForcesImpulseSystem, hrun, statusOf]
  · simp [removeForcesImpulse, hrun]
  · intro s; simp [removeForcesProfileSystem, hrun]
  · simp [removeForcesProfile, hrun]
  · intro opts; simp [setOptions, hrun]

/-- While a simulation is running, `addSystem` without controller, called with
a set-up robot not yet registered and a fresh non-empty name, reports
`ERROR_GENERIC` and leaves the engine as it was. -/
theorem addSystemBypass_running (e : EngineMultiRobot) (systemName : String) (robot : Robot)
    (cb : Nat) (hrun : e.isSimulationRunning_ = true) (hinit : robot.isInitialized = true)
    (hname : systemName ≠ "")
    (hfresh : e.systems_.find? (fun sys => sys.name == systemName) = none)
    (hrobot : e.systems_.find? (fun sys => sys.robot.id == robot.id) = none) :
    addSystemBypass e systemName (some robot) cb = (.ERROR_GENERIC, e) := by
  simp [addSystemBypass, addSystem, hrun, hinit, hname, hfresh, hrobot]

/-- C2 (evaluation at the failing input): on the running sample engine, which
holds one coupling force, `removeForcesCoupling()` and `removeAllForces()` report
`ERROR_GENERIC` and nevertheless leave the coupling register empty. -/
theorem C2_removeForcesCoupling_running_clears :
    runningEngine.isSimulationRunning_ = true ∧
    runningEngine.forcesCoupling_.length = 1 ∧
    (removeForcesCoupling runningEngine).1 = .ERROR_GENERIC ∧
    (removeForcesCoupling runningEngine).2.forcesCoupling_ = [] ∧
    (removeAllForces runningEngine).1 = .ERROR_GENERIC ∧
    (removeAllForces runningEngine).2.forcesCoupling_ = [] := by
  refine ⟨rfl, rfl, rfl, rfl, rfl, rfl⟩

/-! ### Uniqueness of systems -/

/-- The do-nothing controller created by `addSystem` without controller ends
up set up for the given robot. -/
theorem controllerInitialize_bypass (robot : Robot) (h : robot.isInitialized = true) :
    controllerInitialize ⟨false, none⟩ (some robot) bypassProbe =
      (.SUCCESS, ⟨true, some robot.id⟩) := by
  simp [controllerInitialize, bypassProbe, h]

/-- On an idle engine, `addSystem` with a set-up robot and a controller set up
for that robot appends the system. -/
theorem addSystem_idle_append (e : EngineMultiRobot) (systemName : String) (robot : Robot)
    (cb : Nat) (hidle : e.isSimulationRunning_ = false) (h : robot.isInitialized = true) :
    (addSystem e systemName (some robot) (some ⟨true, some robot.id⟩) cb).2.systems_ =
      e.systems_ ++ [⟨systemName, robot, ⟨true, some robot.id⟩, cb⟩] := by
  simp [addSystem, hidle, h]

/-- The overload of `addSystem` without controller keeps system names and robots pairwise
distinct. -/
theorem addSystemBypass_preserves_unique (e : EngineMultiRobot) (systemName : String)
    (robot : Option Robot) (cb : Nat)
    (hnames : (e.systems_.map (fun sys => sys.name)).Nodup)
    (hrobots : (e.systems_.map (fun sys => sys.robot.id)).Nodup) :
    ((addSystemBypass e systemName robot cb).2.systems_.map (fun sys => sys.name)).Nodup ∧
    ((addSystemBypass e systemName robot cb).2.systems_.map (fun sys => sys.robot.id)).Nodup := by
  unfold addSystemBypass
  cases robot with
  | none => exact ⟨hnames, hrobots⟩
  | some robot =>
    dsimp only
    split_ifs with h1 h2 h3 h4
    · exact ⟨hnames, hrobots⟩
    · exact ⟨hnames, hrobots⟩
    · exact ⟨hnames, hrobots⟩
    · exact ⟨hnames, hrobots⟩
    · have hname : ∀ sys ∈ e.systems_, sys.name ≠ systemName := by
        intro sys hsys heq
        have h : ∀ x ∈ e.systems_, ¬x.name = systemName := by simpa using h3
        exact h sys hsys heq
      have hrobot : ∀ sys ∈ e.systems_, sys.robot.id ≠ robot.id := by
        intro sys hsys heq
        have h : ∀ x ∈ e.systems_, ¬x.robot.id = robot.id := by simpa using h4
        exact h sys hsys heq
      have hinit : robot.isInitialized = true := by simpa using h1
      by_cases hrun : e.isSimulationRunning_ = true
      · simp only [addSystem, hrun, if_true]; exact ⟨hnames, hrobots⟩
      · rw [controllerInitialize_bypass robot hinit]
        simp only [addSystem_idle_append e systemName robot cb (by simpa using hrun) hinit,
          List.map_append, List.map_cons, List.map_nil]
        constructor
        · refine List.Nodup.append hnames (List.nodup_singleton _) ?_
          simp only [List.disjoint_singleton, List.mem_map, not_exists, not_and]
          intro sys hsys; exact hname sys hsys
        · refine List.Nodup.append hrobots (List.nodup_singleton _) ?_
          simp only [List.disjoint_singleton, List.mem_map, not_exists, not_and]
          intro sys hsys; exact hrobot sys hsys

/-- C3 (evaluation at the failing input): starting from the engine without
system, two calls of `addSystem` with an explicit controller, the same name and
the same robot both report `SUCCESS`, and the engine then holds two systems with
the same name referring to the same robot. -/
theorem C3_addSystem_accepts_duplicate :
    emptyEngine.systems_ = [] ∧
    (addSystem emptyEngine "robot" (some sampleRobot) (some sampleController) 0).1 = .SUCCESS ∧
    (addSystem (addSystem emptyEngine "robot" (some sampleRobot) (some sampleController) 0).2
      "robot" (some sampleRobot) (some sampleController) 0).1 = .SUCCESS ∧
    (addSystem (addSystem emptyEngine "robot" (some sampleRobot) (some sampleController) 0).2
      "robot" (some sampleRobot) (some sampleController) 0).2.systems_.map
        (fun sys => (sys.name, sys.robot.id)) = [("robot", 1), ("robot", 1)] := by
  refine ⟨rfl, rfl, rfl, rfl⟩

/-! ### Options -/

/-- Case analysis on a conditional, keeping the condition. -/
theorem ite_elim {β : Type} {P : β → Prop} {c : Prop} [Decidable c] {a b : β}
    (ha : c → P a) (hb : ¬c → P b) : P (if c then a else b) := by
  by_cases h : c
  · rw [if_pos h]; exact ha h
  · rw [if_neg h]; exact hb h

/-- A conditional between two results that are unchanged-or-success is one. -/
theorem unchangedOrSuccess_ite {c : Prop} [Decidable c] {e : EngineMultiRobot}
    {a b : hresult_t × EngineMultiRobot}
    (ha : unchangedOrSuccess e a) (hb : unchangedOrSuccess e b) :
    unchangedOrSuccess e (if c then a else b) :=
  ite_elim (fun _ => ha) (fun _ => hb)

/-- A call of `setOptions` either leaves the engine untouched or reports `SUCCESS`. -/
theorem setOptions_unchanged_or_success (C : Constants) (H : Helpers) (e : EngineMultiRobot)
    (opts : engineOptions_t) : unchangedOrSuccess e (setOptions C H e opts) := by
  unfold setOptions
  repeat (first | exact Or.inl rfl | exact Or.inr rfl | apply unchangedOrSuccess_ite)

/-- C4: when `setOptions` reports a status other than `SUCCESS`, the options
holder, the fast accessor, the contact model and the stepper update period are
the ones the engine had before the call (the whole engine state is), and
`getOptions` returns the same value as before. -/
theorem C4_setOptions_failure_keeps_options (C : Constants) (H : Helpers)
    (e : EngineMultiRobot) (opts : engineOptions_t)
    (hfail : (setOptions C H e opts).1 ≠ .SUCCESS) :
    (setOptions C H e opts).2 = e ∧
    (setOptions C H e opts).2.engineOptionsHolder_ = e.engineOptionsHolder_ ∧
    (setOptions C H e opts).2.engineOptions_ = e.engineOptions_ ∧
    (setOptions C H e opts).2.contactModel_ = e.contactModel_ ∧
    (setOptions C H e opts).2.stepperUpdatePeriod_ = e.stepperUpdatePeriod_ ∧
    getOptions (setOptions C H e opts).2 = getOptions e := by
  have h : (setOptions C H e opts).2 = e := by
    rcases setOptions_unchanged_or_success C H e opts with h | h
    · exact h
    · exact absurd h hfail
  rw [h]
  exact ⟨rfl, rfl, rfl, rfl, rfl, rfl⟩

/-- On the idle sample engine, options with `dtMax = 0` are rejected. -/
theorem setOptions_smallDtMax_status :
    (setOptions specConstants specHelpers idleEngine smallDtMaxOptions).1 = .ERROR_BAD_INPUT := by
  simp [setOptions, specConstants, idleEngine, emptyEngine, smallDtMaxOptions, sampleOptions]

/-- C4 (witness): the rejected call with `dtMax = 0` on the idle sample engine. -/
theorem C4_setOptions_failure_keeps_options_witness :
    (setOptions specConstants specHelpers idleEngine smallDtMaxOptions).1 ≠ .SUCCESS ∧
    (setOptions specConstants specHelpers idleEngine smallDtMaxOptions).2 = idleEngine ∧
    getOptions (setOptions specConstants specHelpers idleEngine smallDtMaxOptions).2
      = sampleOptions :=
  have hfail : (setOptions specConstants specHelpers idleEngine smallDtMaxOptions).1
      ≠ .SUCCESS := by
    rw [setOptions_smallDtMax_status]; decide
  have h := C4_setOptions_failure_keeps_options specConstants specHelpers idleEngine
    smallDtMaxOptions hfail
  ⟨hfail, h.1, h.2.2.2.2.2⟩

/-- C5 (counterexample): on the idle sample engine, options whose contact
stiffness is negative (everything else valid) are accepted and installed. -/
theorem C5_negative_stiffness_accepted :
    negativeStiffnessOptions.contacts.stiffness < 0 ∧
    idleEngine.isSimulationRunning_ = false ∧
    (setOptions specConstants specHelpers idleEngine negativeStiffnessOptions).1 = .SUCCESS ∧
    getOptions (setOptions specConstants specHelpers idleEngine negativeStiffnessOptions).2
      = negativeStiffnessOptions := by
  refine ⟨by simp [negativeStiffnessOptions], rfl, ?_, ?_⟩
  · simp [setOptions, specConstants, specHelpers, idleEngine, emptyEngine,
      negativeStiffnessOptions, sampleOptions, isGcdIncludedSystems,
      isGcdIncludedSystems.go, mapFind, systemDataHolder_t.empty]
    norm_num
  · simp [setOptions, getOptions, specConstants, specHelpers, idleEngine, emptyEngine,
      negativeStiffnessOptions, sampleOptions, isGcdIncludedSystems,
      isGcdIncludedSystems.go, mapFind, systemDataHolder_t.empty]
    norm_num

/-- C5 (amended): whenever `transitionEps` is negative, `transitionVelocity` is
not strictly positive or `stabilizationFreq` is negative, `setOptions` installs
nothing and reports `ERROR_BAD_INPUT` (`ERROR_GENERIC` while a simulation is
running). -/
theorem C5_setOptions_rejects_invalid_contacts (C : Constants) (H : Helpers)
    (e : EngineMultiRobot) (opts : engineOptions_t) (hEPS : 0 < C.EPS)
    (hbad : opts.contacts.transitionEps < 0 ∨ opts.contacts.transitionVelocity ≤ 0 ∨
      opts.contacts.stabilizationFreq < 0) :
    (setOptions C H e opts).1 =
      (if e.isSimulationRunning_ then hresult_t.ERROR_GENERIC else .ERROR_BAD_INPUT) ∧
    (setOptions C H e opts).2 = e := by
  have step : ∀ {c : Prop} [Decidable c] {b : hresult_t × EngineMultiRobot},
      (¬c → rejectedBadInput e b) →
      rejectedBadInput e (if c then (hresult_t.ERROR_BAD_INPUT, e) else b) :=
    fun hb => ite_elim (fun _ => ⟨rfl, rfl⟩) hb
  unfold setOptions
  by_cases hrun : e.isSimulationRunning_ = true
  · simp only [hrun, if_true, and_self]
  · rw [if_neg hrun, if_neg hrun]
    show rejectedBadInput e _
    -- stepper, constraints and contact-model checks
    iterate 8 refine step fun _ => ?_
    -- transitionEps, transitionVelocity, stabilizationFreq, gravity
    refine step fun h1 => ?_
    refine step fun h2 => ?_
    refine step fun h3 => ?_
    refine step fun _ => ?_
    exfalso
    rcases hbad with h | h | h
    · exact h1 h
    · exact h2 (lt_of_le_of_lt h hEPS)
    · exact h3 h

/-- C5 (witness): on the idle sample engine, a negative `transitionEps` is
rejected with `ERROR_BAD_INPUT` and nothing is installed. -/
theorem C5_setOptions_rejects_invalid_contacts_witness :
    (0 : ℚ) < specConstants.EPS ∧
    negativeTransitionEpsOptions.contacts.transitionEps < 0 ∧
    (setOptions specConstants specHelpers idleEngine negativeTransitionEpsOptions).1
      = .ERROR_BAD_INPUT ∧
    (setOptions specConstants specHelpers idleEngine negativeTransitionEpsOptions).2
      = idleEngine :=
  have hEPS : (0 : ℚ) < specConstants.EPS := by norm_num [specConstants]
  have hneg : negativeTransitionEpsOptions.contacts.transitionEps < 0 := by
    norm_num [negativeTransitionEpsOptions]
  ⟨hEPS, hneg,
    C5_setOptions_rejects_invalid_contacts specConstants specHelpers idleEngine
      negativeTransitionEpsOptions hEPS (Or.inl hneg)⟩

/-! ### Impulse registration -/

/-- C6 (evaluation at the failing inputs): on the idle sample engine,
`registerForceImpulse` reports `SUCCESS` and registers nothing when the duration
is below `STEPPER_MIN_TIMESTEP`, when the time is negative, when the frame is
`universe`, when the system is unknown and when the frame is unknown. -/
theorem C6_registerForceImpulse_invalid_reports_success :
    registerForceImpulse specConstants idleEngine "robot" "tip" 0 0 ⟨⟨0, 0, 10⟩, ⟨0, 0, 0⟩⟩
      = (.SUCCESS, idleEngine) ∧
    registerForceImpulse specConstants idleEngine "robot" "tip" (-1) 1 ⟨⟨0, 0, 10⟩, ⟨0, 0, 0⟩⟩
      = (.SUCCESS, idleEngine) ∧
    registerForceImpulse specConstants idleEngine "robot" "universe" 0 1 ⟨⟨0, 0, 10⟩, ⟨0, 0, 0⟩⟩
      = (.SUCCESS, idleEngine) ∧
    registerForceImpulse specConstants idleEngine "other" "tip" 0 1 ⟨⟨0, 0, 10⟩, ⟨0, 0, 0⟩⟩
      = (.SUCCESS, idleEngine) ∧
    registerForceImpulse specConstants idleEngine "robot" "elbow" 0 1 ⟨⟨0, 0, 10⟩, ⟨0, 0, 0⟩⟩
      = (.SUCCESS, idleEngine) := by
  decide!

/-! ### Start-up bound on the contact forces -/

/-- The running maximum of `foldl max` dominates its seed. -/
theorem le_foldl_max (l : List ℚ) (init : ℚ) : init ≤ l.foldl max init := by
  induction l generalizing init with
  | nil => exact le_refl _
  | cons y ys ih => exact le_trans (le_max_left init y) (ih (max init y))

/-- The running maximum of `foldl max` dominates every element. -/
theorem mem_le_foldl_max (l : List ℚ) (init x : ℚ) (hx : x ∈ l) : x ≤ l.foldl max init := by
  induction l generalizing init with
  | nil => cases hx
  | cons y ys ih =>
    rcases List.mem_cons.mp hx with h | h
    · subst h
      exact le_trans (le_max_right init x) (le_foldl_max ys (max init x))
    · exact ih (max init y) h

/-- A contact force above the bound makes `forceMax` exceed it. -/
theorem forceMax_gt (p : systemStartProbe) (x : ℚ)
    (hx : x ∈ p.contactFramesForceNorm ++ p.collisionBodiesForceNorm.flatten)
    (hlarge : 100000 < x) : forceMax p > 100000 :=
  lt_of_lt_of_le hlarge (mem_le_foldl_max _ 0 x hx)

/-- With the spring-damper model, the per-system loop of `start` returns early
with `ERROR_BAD_INPUT` as soon as one system has too large a contact force. -/
theorem startSystemsLoop_early (C : Constants) (probe : Nat → systemStartProbe) :
    ∀ (systems : List systemHolder_t) (holder : List systemDataHolder_t) (k : Nat)
      (rc : hresult_t), holder.length = systems.length →
      (∃ i, i < systems.length ∧ forceMax (probe (k + i)) > 100000) →
      (startSystemsLoop C .SPRING_DAMPER probe k systems holder rc).1
        = some .ERROR_BAD_INPUT := by
  intro systems
  induction systems with
  | nil => intro holder k rc _ h; obtain ⟨i, hi, _⟩ := h; cases hi
  | cons sys systems ih =>
    intro holder k rc hlen h
    cases holder with
    | nil => cases hlen
    | cons systemData rest =>
      unfold startSystemsLoop
      by_cases hk : forceMax (probe k) > 100000
      · simp only [hk, and_self, if_true]
      · simp only [hk, and_false, if_false]
        apply ih rest (k + 1) _ (by simpa using hlen)
        obtain ⟨i, hi, hf⟩ := h
        cases i with
        | zero => exact absurd hf hk
        | succ j =>
          refine ⟨j, by simpa using hi, ?_⟩
          have : k + 1 + j = k + (j + 1) := by omega
          rw [this]; exact hf

/-- On an idle engine, `reset(false, false)` only clears the telemetry flag. -/
theorem reset_idle (H : Helpers) (e : EngineMultiRobot) (hidle : e.isSimulationRunning_ = false) :
    reset H e false false = { e with isTelemetryConfigured_ := false } := by
  simp [reset, hidle]

/-- C7 (counterexample): on the idle sample engine (spring-damper model), a
start whose single contact frame carries an initial force of norm `2e5`
reports `ERROR_BAD_INPUT`, not `ERROR_GENERIC`. -/
theorem C7_start_large_force_not_generic :
    idleEngine.contactModel_ = .SPRING_DAMPER ∧
    (100000 : ℚ) < 200000 ∧
    (start specConstants specHelpers idleEngine largeForceStart).1 = .ERROR_BAD_INPUT ∧
    (start specConstants specHelpers idleEngine largeForceStart).1 ≠ .ERROR_GENERIC := by
  decide!

/-- C7 (amended): with the spring-damper contact model, when the validations of
the initial state pass and the norm of the initial contact force at some contact
frame or collision pair of some system exceeds `1e5`, `start` returns
`ERROR_BAD_INPUT` and the simulation is not marked running afterwards. -/
theorem C7_start_rejects_large_contact_force (C : Constants) (H : Helpers)
    (e : EngineMultiRobot) (inp : startInputs)
    (hidle : e.isSimulationRunning_ = false)
    (hlen : e.systemsDataHolder_.length = e.systems_.length)
    (hmodel : e.contactModel_ = .SPRING_DAMPER)
    (hchecks : startChecksPass e inp)
    (hforce : ∃ i, i < e.systems_.length ∧
      ∃ x ∈ (inp.probe i).contactFramesForceNorm ++ (inp.probe i).collisionBodiesForceNorm.flatten,
        100000 < x) :
    (start C H e inp).1 = .ERROR_BAD_INPUT ∧
    (start C H e inp).2.isSimulationRunning_ = false := by
  obtain ⟨hq, hv, hs, ha, hh⟩ := hchecks
  obtain ⟨i, hi, x, hx, hlarge⟩ := hforce
  have hne : e.systems_.isEmpty = false := by
    cases hsys : e.systems_ with
    | nil => rw [hsys] at hi; cases hi
    | cons _ _ => rfl
  have hloop : ∀ e1 : EngineMultiRobot, e1.systems_ = e.systems_ →
      e1.systemsDataHolder_ = e.systemsDataHolder_ → e1.contactModel_ = e.contactModel_ →
      (startSystemsLoop C e1.contactModel_ inp.probe 0 e1.systems_ e1.systemsDataHolder_
        .SUCCESS).1 = some .ERROR_BAD_INPUT := by
    intro e1 h1 h2 h3
    rw [h1, h2, h3, hmodel]
    exact startSystemsLoop_early C inp.probe e.systems_ e.systemsDataHolder_ 0 .SUCCESS hlen
      ⟨i, hi, by simpa using forceMax_gt (inp.probe i) x hx hlarge⟩
  unfold start
  simp only [hidle, hne, hq, hv, hs, ha, hh, bne_self_eq_false, Bool.false_eq_true, if_false,
    Bool.or_self]
  by_cases htel : e.isTelemetryConfigured_ = true
  · simp only [htel, if_true, reset_idle H e hidle]
    rw [hloop { e with isTelemetryConfigured_ := false } rfl rfl rfl]
    exact ⟨rfl, hidle⟩
  · simp only [htel, Bool.false_eq_true, if_false]
    rw [hloop e rfl rfl rfl]
    exact ⟨rfl, hidle⟩

/-- C7 (witness): the start of the sample engine with a contact force of norm
`2e5`. -/
theorem C7_start_rejects_large_contact_force_witness :
    (start specConstants specHelpers idleEngine largeForceStart).1 = .ERROR_BAD_INPUT ∧
    (start specConstants specHelpers idleEngine largeForceStart).2.isSimulationRunning_
      = false :=
  C7_start_rejects_large_contact_force specConstants specHelpers idleEngine largeForceStart
    rfl rfl rfl (by decide!) ⟨0, by decide, 200000, by decide!, by norm_num⟩

/-! ### Spring-damper contact law -/

/-- The force along a unit normal is the clamped spring-damper law times the
blending factor. -/
theorem computeContactDynamics_normal {α : Type} [LinearOrderedField α] (sqrt tanh : α → α)
    (EPS : α) (opts : contactOptions_t α) (n : Vector3 α) (depth : α) (v : Vector3 α)
    (hdepth : depth < 0) (hn : n.dot n = 1) :
    (computeContactDynamics sqrt tanh EPS opts n depth v).linear.dot n =
      max (-(opts.stiffness * depth + opts.damping * v.dot n)) 0 *
        (if opts.transitionEps > EPS then tanh (2 * (-depth / opts.transitionEps)) else 1) := by
  have hmax : max (-(opts.stiffness * depth + opts.damping * v.dot n)) 0
      = -min (opts.stiffness * depth + opts.damping * v.dot n) 0 := by
    rw [← max_neg_neg, neg_zero]
  rw [hmax]
  unfold computeContactDynamics
  simp only [hdepth, if_true]
  generalize min (opts.stiffness * depth + opts.damping * v.dot n) 0 = m
  generalize min ((v.sub (Vector3.smul (v.dot n) n)).norm sqrt / opts.transitionVelocity) 1 = r
  simp only [Vector3.dot, Vector3.smul, Vector3.sub] at hn ⊢
  split_ifs
  · simp only [Vector3.smul]
    linear_combination
      (tanh (2 * (-depth / opts.transitionEps)) *
        (-m + opts.friction * r * (-m) * (v.x * n.x + v.y * n.y + v.z * n.z))) * hn
  · linear_combination
      (-m + opts.friction * r * (-m) * (v.x * n.x + v.y * n.y + v.z * n.z)) * hn

/-- The hyperbolic tangent is positive on positive reals. -/
theorem real_tanh_pos (x : ℝ) (hx : 0 < x) : 0 < Real.tanh x := by
  rw [Real.tanh_eq_sinh_div_cosh]
  exact div_pos (Real.sinh_pos_iff.mpr hx) (Real.cosh_pos x)

/-- The blending factor is `1` when `transitionEps ≤ EPS` and positive in every
case, for a negative depth. -/
theorem blending_pos (EPS transitionEps depth : ℝ) (hEPS : 0 ≤ EPS) (hdepth : depth < 0) :
    0 < (if transitionEps > EPS then Real.tanh (2 * (-depth / transitionEps)) else 1) := by
  split_ifs with h
  · have hpos : 0 < transitionEps := lt_of_le_of_lt hEPS h
    exact real_tanh_pos _ (mul_pos (by norm_num) (div_pos (neg_pos.mpr hdepth) hpos))
  · exact one_pos

/-- C8 (evaluation at the failing input): flat ground, depth of -1 mm, contact
point sliding at 2 m/s along x, stiffness `1e6`, no damping, friction 1,
transition velocity `1e-2`, no blending. The returned force is
`(-2000, 0, 1000)`: the norm of its horizontal part, 2000, is not at most
`mu * max(0, F_z) + tolAbs = 1000 + 1e-5`. -/
theorem C8_friction_cone_exceeded :
    (computeContactDynamics Real.sqrt Real.tanh (1 / 4503599627370496)
        ⟨"spring_damper", 1000000, 0, 1, 0, 0, 1 / 100, 20⟩
        ⟨0, 0, 1⟩ (-1 / 1000) ⟨2, 0, 0⟩).linear = ⟨-2000, 0, 1000⟩ ∧
    ¬ (Real.sqrt (
        (computeContactDynamics Real.sqrt Real.tanh (1 / 4503599627370496)
          ⟨"spring_damper", 1000000, 0, 1, 0, 0, 1 / 100, 20⟩
          ⟨0, 0, 1⟩ (-1 / 1000) ⟨2, 0, 0⟩).linear.x *
        (computeContactDynamics Real.sqrt Real.tanh (1 / 4503599627370496)
          ⟨"spring_damper", 1000000, 0, 1, 0, 0, 1 / 100, 20⟩
          ⟨0, 0, 1⟩ (-1 / 1000) ⟨2, 0, 0⟩).linear.x +
        (computeContactDynamics Real.sqrt Real.tanh (1 / 4503599627370496)
          ⟨"spring_damper", 1000000, 0, 1, 0, 0, 1 / 100, 20⟩
          ⟨0, 0, 1⟩ (-1 / 1000) ⟨2, 0, 0⟩).linear.y *
        (computeContactDynamics Real.sqrt Real.tanh (1 / 4503599627370496)
          ⟨"spring_damper", 1000000, 0, 1, 0, 0, 1 / 100, 20⟩
          ⟨0, 0, 1⟩ (-1 / 1000) ⟨2, 0, 0⟩).linear.y)
      ≤ 1 * max 0
        (computeContactDynamics Real.sqrt Real.tanh (1 / 4503599627370496)
          ⟨"spring_damper", 1000000, 0, 1, 0, 0, 1 / 100, 20⟩
          ⟨0, 0, 1⟩ (-1 / 1000) ⟨2, 0, 0⟩).linear.z + 1 / 100000) := by
  have hsqrt4 : Real.sqrt 4 = 2 := by
    rw [show (4 : ℝ) = 2 ^ 2 by norm_num]
    exact Real.sqrt_sq (by norm_num)
  have hsqrt : Real.sqrt ((-2000 : ℝ) * (-2000) + 0 * 0) = 2000 := by
    rw [show ((-2000 : ℝ) * (-2000) + 0 * 0) = 2000 ^ 2 by norm_num]
    exact Real.sqrt_sq (by norm_num)
  have hforce : (computeContactDynamics Real.sqrt Real.tanh (1 / 4503599627370496)
        ⟨"spring_damper", 1000000, 0, 1, 0, 0, 1 / 100, 20⟩
        ⟨0, 0, 1⟩ (-1 / 1000) ⟨2, 0, 0⟩).linear = ⟨-2000, 0, 1000⟩ := by
    unfold computeContactDynamics
    have hneg : (-1 / 1000 : ℝ) < 0 := by norm_num
    simp only [hneg, if_true, Vector3.dot, Vector3.smul, Vector3.sub, Vector3.norm]
    norm_num [hsqrt4]
  refine ⟨hforce, ?_⟩
  rw [hforce, hsqrt]
  norm_num

/-- C9: `computeContactDynamics` returns the zero force for every non-negative
depth; for every negative depth and unit ground normal `n`, the component of the
returned force along `n` is `max(-(k*depth + c*(v.n)), 0)` times the blending
factor, which is `1` when `transitionEps <= EPS` and positive otherwise, so the
normal component is never negative. -/
theorem C9_contact_normal_component (EPS : ℝ) (opts : contactOptions_t ℝ)
    (n v : Vector3 ℝ) (depth : ℝ) (hEPS : 0 ≤ EPS) (hn : n.dot n = 1) :
    (0 ≤ depth → computeContactDynamics Real.sqrt Real.tanh EPS opts n depth v
      = ⟨Vector3.zero, Vector3.zero⟩) ∧
    (depth < 0 →
      (computeContactDynamics Real.sqrt Real.tanh EPS opts n depth v).linear.dot n =
        max (-(opts.stiffness * depth + opts.damping * v.dot n)) 0 *
          (if opts.transitionEps > EPS
            then Real.tanh (2 * (-depth / opts.transitionEps)) else 1) ∧
      (opts.transitionEps ≤ EPS →
        (if opts.transitionEps > EPS
          then Real.tanh (2 * (-depth / opts.transitionEps)) else 1) = 1) ∧
      0 < (if opts.transitionEps > EPS
        then Real.tanh (2 * (-depth / opts.transitionEps)) else 1) ∧
      0 ≤ (computeContactDynamics Real.sqrt Real.tanh EPS opts n depth v).linear.dot n) := by
  constructor
  · intro hdepth
    unfold computeContactDynamics
    rw [if_neg (not_lt.mpr hdepth)]
  · intro hdepth
    have hblend := blending_pos EPS opts.transitionEps depth hEPS hdepth
    have hnormal := computeContactDynamics_normal Real.sqrt Real.tanh EPS opts n depth v
      hdepth hn
    refine ⟨hnormal, ?_, hblend, ?_⟩
    · intro hle
      rw [if_neg (not_lt.mpr hle)]
    · rw [hnormal]
      exact mul_nonneg (le_max_right _ _) (le_of_lt hblend)

/-- C9 (witness): flat ground, depth of -1 mm, contact point at rest. -/
theorem C9_contact_normal_component_witness :
    (0 : ℝ) ≤ 1 / 4503599627370496 ∧
    (⟨0, 0, 1⟩ : Vector3 ℝ).dot ⟨0, 0, 1⟩ = 1 ∧
    (-1 / 1000 : ℝ) < 0 ∧
    0 ≤ (computeContactDynamics Real.sqrt Real.tanh (1 / 4503599627370496)
        ⟨"spring_damper", 1000000, 2000, 1, 0, 1 / 1000, 1 / 100, 20⟩
        ⟨0, 0, 1⟩ (-1 / 1000) ⟨0, 0, 0⟩).linear.dot ⟨0, 0, 1⟩ :=
  have hEPS : (0 : ℝ) ≤ 1 / 4503599627370496 := by norm_num
  have hn : (⟨0, 0, 1⟩ : Vector3 ℝ).dot ⟨0, 0, 1⟩ = 1 := by norm_num [Vector3.dot]
  have hdepth : (-1 / 1000 : ℝ) < 0 := by norm_num
  ⟨hEPS, hn, hdepth,
    ((C9_contact_normal_component (1 / 4503599627370496)
      ⟨"spring_damper", 1000000, 2000, 1, 0, 1 / 1000, 1 / 100, 20⟩
      ⟨0, 0, 1⟩ ⟨0, 0, 0⟩ (-1 / 1000) hEPS hn).2 hdepth).2.2.2⟩

/-! ### Coupling forces -/

/-- C10: for every wrench `(f, m)` returned by the functor of a coupling entry
and every pair of frame positions, the world-frame wrench applied at frame 2 is
`(-f, -m + offset x f)` with `offset = p2 - p1`; the two forces sum to zero, and
so do the moments once the wrench at frame 2 is moved to the origin of frame 1
(its moment there is its moment at `p2` plus `offset x` its force). -/
theorem C10_coupling_action_reaction {α : Type} [CommRing α] (force : Force α)
    (p1 p2 : Vector3 α) :
    (computeForcesCoupling force p1 p2).1 = force ∧
    (computeForcesCoupling force p1 p2).2.linear = force.linear.neg ∧
    (computeForcesCoupling force p1 p2).2.angular =
      force.angular.neg.add ((p2.sub p1).cross force.linear) ∧
    (computeForcesCoupling force p1 p2).1.linear.add
      (computeForcesCoupling force p1 p2).2.linear = Vector3.zero ∧
    (computeForcesCoupling force p1 p2).1.angular.add
      ((computeForcesCoupling force p1 p2).2.angular.add
        ((p2.sub p1).cross (computeForcesCoupling force p1 p2).2.linear)) = Vector3.zero := by
  simp only [computeForcesCoupling, Vector3.smul, Vector3.sub, Vector3.add, Vector3.neg,
    Vector3.cross, Vector3.zero, Vector3.mk.injEq]
  refine ⟨trivial, ⟨?_, ?_, ?_⟩, ⟨?_, ?_, ?_⟩, ⟨?_, ?_, ?_⟩, ⟨?_, ?_, ?_⟩⟩ <;> ring

/-! ### Explicit Euler stepper -/

/-- C17: for every state, state derivative, time `t` and step `dt`,
`EulerExplicitStepper::tryStepImpl` returns true, replaces the state by
`state + dt * derivative` (the derivative passed in), replaces the derivative by
the dynamics `f` evaluated (at time `t`) on the new state, and sets `dt` to
`INF`. -/
theorem C17_euler_tryStepImpl {α M : Type} [Semiring α] [AddCommMonoid M] [Module α M]
    (f : α → M → M) (state stateDerivative : M) (t dt : α) :
    (EulerExplicitStepper.tryStepImpl f state stateDerivative t dt).1 = true ∧
    (EulerExplicitStepper.tryStepImpl f state stateDerivative t dt).2.1
      = state + dt • stateDerivative ∧
    (EulerExplicitStepper.tryStepImpl f state stateDerivative t dt).2.2.1
      = f t (state + dt • stateDerivative) ∧
    (EulerExplicitStepper.tryStepImpl f state stateDerivative t dt).2.2.2 = none :=
  ⟨rfl, rfl, rfl, rfl⟩

/-! ### Removal of a system -/

/-- Renumbering of one coupling entry after the removal of system `systemIdx`. -/
theorem getElem?_eraseIdx_renumber {β : Type} (l : List β) (k i : Nat) (hne : i ≠ k) :
    (l.eraseIdx k)[if i > k then i - 1 else i]? = l[i]? := by
  by_cases h : i > k
  · rw [if_pos h, List.getElem?_eraseIdx_of_ge _ _ _ (by omega)]
    congr 1; omega
  · rw [if_neg h, List.getElem?_eraseIdx_of_lt _ _ _ (by omega)]

/-- Fields of a coupling entry after the renumbering done by `removeSystem`. -/
theorem renumber_fields (k : Nat) (force : forceCoupling_t) :
    ((fun force : forceCoupling_t =>
        let force1 := if force.systemIdx1 > k
          then { force with systemIdx1 := force.systemIdx1 - 1 } else force
        if force1.systemIdx2 > k
          then { force1 with systemIdx2 := force1.systemIdx2 - 1 } else force1) force).systemName1
      = force.systemName1 ∧
    ((fun force : forceCoupling_t =>
        let force1 := if force.systemIdx1 > k
          then { force with systemIdx1 := force.systemIdx1 - 1 } else force
        if force1.systemIdx2 > k
          then { force1 with systemIdx2 := force1.systemIdx2 - 1 } else force1) force).systemIdx1
      = (if force.systemIdx1 > k then force.systemIdx1 - 1 else force.systemIdx1) ∧
    ((fun force : forceCoupling_t =>
        let force1 := if force.systemIdx1 > k
          then { force with systemIdx1 := force.systemIdx1 - 1 } else force
        if force1.systemIdx2 > k
          then { force1 with systemIdx2 := force1.systemIdx2 - 1 } else force1) force).systemName2
      = force.systemName2 ∧
    ((fun force : forceCoupling_t =>
        let force1 := if force.systemIdx1 > k
          then { force with systemIdx1 := force.systemIdx1 - 1 } else force
        if force1.systemIdx2 > k
          then { force1 with systemIdx2 := force1.systemIdx2 - 1 } else force1) force).systemIdx2
      = (if force.systemIdx2 > k then force.systemIdx2 - 1 else force.systemIdx2) := by
  dsimp only
  by_cases h1 : force.systemIdx1 > k <;> by_cases h2 : force.systemIdx2 > k <;>
    simp [h1, h2]

/-- A successful `removeSystem` found the system at some index `k`, dropped the
coupling entries naming it, renumbered the others and erased entry `k`. -/
theorem removeSystem_success (e : EngineMultiRobot) (systemName : String)
    (hok : (removeSystem e systemName).1 = .SUCCESS) :
    ∃ k, e.systems_.findIdx? (fun sys => sys.name == systemName) = some k ∧
      (removeSystem e systemName).2.systems_ = e.systems_.eraseIdx k ∧
      (removeSystem e systemName).2.forcesCoupling_ =
        (e.forcesCoupling_.filter (fun force =>
          !(force.systemName1 == systemName || force.systemName2 == systemName))).map
          (fun force =>
            let force1 := if force.systemIdx1 > k
              then { force with systemIdx1 := force.systemIdx1 - 1 } else force
            if force1.systemIdx2 > k
              then { force1 with systemIdx2 := force1.systemIdx2 - 1 } else force1) := by
  unfold removeSystem at hok ⊢
  by_cases hrun : e.isSimulationRunning_ = true
  · simp [hrun] at hok
  · simp only [hrun, Bool.false_eq_true, if_false] at hok ⊢
    have hrun' : e.isSimulationRunning_ = false := by simpa using hrun
    cases hfind : e.systems_.findIdx? (fun sys => sys.name == systemName) with
    | none =>
      have hnone : e.systems_.find? (fun sys => sys.name == systemName) = none := by
        rw [List.find?_eq_none]
        intro x hx
        have := (List.findIdx?_eq_none_iff.mp hfind) x hx
        simpa using this
      simp [removeForcesCouplingSystem, hrun', getSystem, hnone, statusOf] at hok
    | some k =>
      have hsome : ∃ sys, e.systems_.find? (fun sys => sys.name == systemName) = some sys := by
        cases hf : e.systems_.find? (fun sys => sys.name == systemName) with
        | some sys => exact ⟨sys, rfl⟩
        | none =>
          rw [List.find?_eq_none] at hf
          have hk := List.findIdx?_of_eq_some hfind
          cases hget : e.systems_[k]? with
          | none => simp [hget] at hk
          | some sys =>
            simp only [hget] at hk
            exact absurd hk (hf sys (List.mem_iff_getElem?.mpr ⟨k, hget⟩))
      obtain ⟨sys, hsys⟩ := hsome
      refine ⟨k, rfl, ?_, ?_⟩
      · simp [removeForcesCouplingSystem, hrun', getSystem, hsys, statusOf, getSystemIdx,
          hfind, valueOf]
      · simp [removeForcesCouplingSystem, hrun', getSystem, hsys, statusOf, getSystemIdx,
          hfind, valueOf]

/-- C16: after `removeSystem(name)` succeeds on an engine whose coupling entries
all agree with the list of systems (`systems_[systemIdx].name == systemName` for
both endpoints), no remaining coupling entry names the removed system and every
remaining entry still agrees with the shortened list of systems. -/
theorem C16_removeSystem_renumbers_couplings (e : EngineMultiRobot) (systemName : String)
    (hnames : (e.systems_.map (fun sys => sys.name)).Nodup)
    (hcons : ∀ force ∈ e.forcesCoupling_, couplingConsistent e force)
    (hok : (removeSystem e systemName).1 = .SUCCESS) :
    ∀ force ∈ (removeSystem e systemName).2.forcesCoupling_,
      force.systemName1 ≠ systemName ∧ force.systemName2 ≠ systemName ∧
      couplingConsistent (removeSystem e systemName).2 force := by
  obtain ⟨k, hfind, hsystems, hforces⟩ := removeSystem_success e systemName hok
  have _ := hnames
  have hk := List.findIdx?_of_eq_some hfind
  intro force hforce
  rw [hforces] at hforce
  obtain ⟨force0, hmem, hren⟩ := List.mem_map.mp hforce
  have hr1 : force.systemName1 = force0.systemName1 := by
    rw [← hren]; exact (renumber_fields k force0).1
  have hr2 : force.systemIdx1
      = (if force0.systemIdx1 > k then force0.systemIdx1 - 1 else force0.systemIdx1) := by
    rw [← hren]; exact (renumber_fields k force0).2.1
  have hr3 : force.systemName2 = force0.systemName2 := by
    rw [← hren]; exact (renumber_fields k force0).2.2.1
  have hr4 : force.systemIdx2
      = (if force0.systemIdx2 > k then force0.systemIdx2 - 1 else force0.systemIdx2) := by
    rw [← hren]; exact (renumber_fields k force0).2.2.2
  obtain ⟨hmem0, hkeep⟩ := List.mem_filter.mp hmem
  have hn1 : force0.systemName1 ≠ systemName := by
    intro h; simp [h] at hkeep
  have hn2 : force0.systemName2 ≠ systemName := by
    intro h; simp [h] at hkeep
  obtain ⟨hc1, hc2⟩ := hcons force0 hmem0
  have hne : ∀ (i : Nat) (name : String),
      (e.systems_[i]?).map (fun sys => sys.name) = some name → name ≠ systemName → i ≠ k := by
    intro i name hi hname hik
    subst hik
    cases hget : e.systems_[i]? with
    | none => simp [hget] at hi
    | some sys =>
      simp only [hget, Option.map_some', Option.some.injEq] at hi
      simp only [hget] at hk
      have : sys.name = systemName := by simpa using hk
      exact hname (hi ▸ this)
  refine ⟨by rw [hr1]; exact hn1, by rw [hr3]; exact hn2, ?_, ?_⟩
  · show (((removeSystem e systemName).2.systems_)[force.systemIdx1]?).map _ = _
    rw [hsystems, hr2, hr1, getElem?_eraseIdx_renumber _ _ _ (hne _ _ hc1 hn1)]
    exact hc1
  · show (((removeSystem e systemName).2.systems_)[force.systemIdx2]?).map _ = _
    rw [hsystems, hr4, hr3, getElem?_eraseIdx_renumber _ _ _ (hne _ _ hc2 hn2)]
    exact hc2

/-- C16 (witness): removing system `a` from the engine holding `a` and `b`
leaves the coupling of `b` with itself, renumbered to index 0. -/
theorem C16_removeSystem_renumbers_couplings_witness :
    (twoSystemsEngine.systems_.map (fun sys => sys.name)).Nodup ∧
    (removeSystem twoSystemsEngine "a").1 = .SUCCESS ∧
    (removeSystem twoSystemsEngine "a").2.forcesCoupling_
      = [⟨"b", 0, "b", 0, "base", 1, "tip", 2, 1⟩] ∧
    (∀ force ∈ (removeSystem twoSystemsEngine "a").2.forcesCoupling_,
      force.systemName1 ≠ "a" ∧ force.systemName2 ≠ "a" ∧
      couplingConsistent (removeSystem twoSystemsEngine "a").2 force) :=
  ⟨by decide, by decide!, by decide!,
    C16_removeSystem_renumbers_couplings twoSystemsEngine "a" (by decide) (by decide!)
      (by decide!)⟩

/-! ### Invariant of the impulse registers -/

/-- Membership in a set after `emplace`. -/
theorem mem_setEmplace (x y : ℚ) (l : List ℚ) : y ∈ setEmplace x l ↔ y = x ∨ y ∈ l := by
  induction l with
  | nil => simp [setEmplace]
  | cons z zs ih =>
    unfold setEmplace
    split_ifs with h1 h2
    · simp
    · subst h2; simp
    · simp only [List.mem_cons, ih]
      constructor
      · rintro (h | h | h)
        · exact Or.inr (Or.inl h)
        · exact Or.inl h
        · exact Or.inr (Or.inr h)
      · rintro (h | h | h)
        · exact Or.inr (Or.inl h)
        · exact Or.inl h
        · exact Or.inr (Or.inr h)

/-- An element of a list modified at one index is an old element or the image
of an old element. -/
theorem mem_modifyAt {β : Type} (l : List β) (i : Nat) (f : β → β) (x : β)
    (hx : x ∈ modifyAt l i f) : x ∈ l ∨ ∃ y ∈ l, x = f y := by
  induction l generalizing i with
  | nil => simp [modifyAt] at hx
  | cons z zs ih =>
    cases i with
    | zero =>
      simp only [modifyAt, List.mem_cons] at hx
      rcases hx with h | h
      · exact Or.inr ⟨z, List.mem_cons_self _ _, h⟩
      · exact Or.inl (List.mem_cons_of_mem _ h)
    | succ n =>
      simp only [modifyAt, List.mem_cons] at hx
      rcases hx with h | h
      · exact Or.inl (h ▸ List.mem_cons_self _ _)
      · rcases ih n h with h' | ⟨y, hy, hxy⟩
        · exact Or.inl (List.mem_cons_of_mem _ h')
        · exact Or.inr ⟨y, List.mem_cons_of_mem _ hy, hxy⟩

/-- Outcome of a call of `registerForceImpulse`: either nothing changed, or the
preconditions hold and one per-system record received the impulse together with
its two break times. -/
theorem registerForceImpulse_cases (C : Constants) (e : EngineMultiRobot)
    (systemName frameName : String) (t dt : ℚ) (F : Force ℚ) :
    (registerForceImpulse C e systemName frameName t dt F).2 = e ∨
    (C.STEPPER_MIN_TIMESTEP ≤ dt ∧ 0 ≤ t ∧ frameName ≠ "universe" ∧
      ∃ systemIdx frameIdx,
        (registerForceImpulse C e systemName frameName t dt F).2.systemsDataHolder_ =
          modifyAt e.systemsDataHolder_ systemIdx
            (fun systemData => { systemData with
              forcesImpulse := systemData.forcesImpulse ++ [⟨frameName, frameIdx, t, dt, F⟩],
              forcesImpulseBreaks :=
                setEmplace (t + dt) (setEmplace t systemData.forcesImpulseBreaks),
              forcesImpulseActive := systemData.forcesImpulseActive ++ [false] })) := by
  by_cases hrun : e.isSimulationRunning_ = true
  · exact Or.inl (registerForceImpulse_running_unchanged C e hrun _ _ _ _ _)
  · by_cases h1 : dt < C.STEPPER_MIN_TIMESTEP
    · left
      simp only [registerForceImpulse, h1, if_true]
      by_cases h2 : t < 0 <;> by_cases h3 : (frameName == "universe") = true <;>
        simp [h2, h3, statusOf]
    · by_cases h2 : t < 0
      · left
        simp only [registerForceImpulse, h2, if_true]
        by_cases h3 : (frameName == "universe") = true <;> simp [h3, statusOf]
      · by_cases h3 : (frameName == "universe") = true
        · left
          simp [registerForceImpulse, h3, statusOf]
        · simp only [registerForceImpulse, hrun, h1, h2, h3, Bool.false_eq_true, if_false,
            if_true]
          have hframe : frameName ≠ "universe" := by
            intro h; exact h3 (by simp [h])
          split_ifs
          all_goals first
            | exact Or.inl rfl
            | exact Or.inr ⟨not_lt.mp h1, not_lt.mp h2, hframe, _, _, rfl⟩

/-- The impulse invariant is preserved by `registerForceImpulse`. -/
theorem impulseInvariant_register (C : Constants) (e : EngineMultiRobot)
    (systemName frameName : String) (t dt : ℚ) (F : Force ℚ) (h : impulseInvariant C e) :
    impulseInvariant C (registerForceImpulse C e systemName frameName t dt F).2 := by
  rcases registerForceImpulse_cases C e systemName frameName t dt F with
    heq | ⟨hdt, ht, hframe, systemIdx, frameIdx, heq⟩
  · rw [heq]; exact h
  · intro systemData hsd force hforce
    rw [heq] at hsd
    rcases mem_modifyAt _ _ _ _ hsd with hold | ⟨old, hold, rfl⟩
    · exact h systemData hold force hforce
    · simp only [List.mem_append, List.mem_singleton] at hforce
      simp only [mem_setEmplace]
      rcases hforce with hf | rfl
      · obtain ⟨a, b, c, d, f⟩ := h old hold force hf
        exact ⟨Or.inr (Or.inr a), Or.inr (Or.inr b), c, d, f⟩
      · exact ⟨Or.inr (Or.inl rfl), Or.inl rfl, hdt, ht, hframe⟩

/-- The impulse invariant holds once a list of per-system records has lost its
impulses, whatever else changed. -/
theorem impulseInvariant_of_empty (C : Constants) (e : EngineMultiRobot)
    (h : ∀ systemData ∈ e.systemsDataHolder_, systemData.forcesImpulse = []) :
    impulseInvariant C e := by
  intro systemData hsd force hforce
  rw [h systemData hsd] at hforce
  cases hforce

/-- The impulse invariant is preserved by `removeForcesImpulse(systemName)`. -/
theorem impulseInvariant_removeSystem (C : Constants) (e : EngineMultiRobot)
    (systemName : String) (h : impulseInvariant C e) :
    impulseInvariant C (removeForcesImpulseSystem e systemName).2 := by
  unfold removeForcesImpulseSystem
  dsimp only
  split_ifs
  all_goals first
    | exact h
    | (intro systemData hsd force hforce
       rcases mem_modifyAt _ _ _ _ hsd with hold | ⟨old, _, rfl⟩
       · exact h systemData hold force hforce
       · cases hforce)

/-- The impulse invariant is preserved by `removeForcesImpulse()`. -/
theorem impulseInvariant_removeAll (C : Constants) (e : EngineMultiRobot)
    (h : impulseInvariant C e) : impulseInvariant C (removeForcesImpulse e).2 := by
  unfold removeForcesImpulse
  split_ifs
  · exact h
  · apply impulseInvariant_of_empty
    intro systemData hsd
    obtain ⟨old, _, rfl⟩ := List.mem_map.mp hsd
    rfl

/-- The impulse invariant is preserved by `stop`. -/
theorem impulseInvariant_stop (C : Constants) (e : EngineMultiRobot)
    (h : impulseInvariant C e) : impulseInvariant C (stop e) := by
  have key : ∀ systemData ∈ (stop e).systemsDataHolder_, ∃ old ∈ e.systemsDataHolder_,
      systemData.forcesImpulse = old.forcesImpulse ∧
      systemData.forcesImpulseBreaks = old.forcesImpulseBreaks := by
    intro systemData hsd
    unfold stop at hsd
    dsimp only at hsd
    split_ifs at hsd <;>
    · obtain ⟨old, hold, rfl⟩ := List.mem_map.mp hsd
      exact ⟨old, hold, rfl, rfl⟩
  intro systemData hsd force hforce
  obtain ⟨old, hold, h1, h2⟩ := key systemData hsd
  rw [h1] at hforce
  rw [h2]
  exact h old hold force hforce

/-- The impulse invariant is preserved by `reset`. -/
theorem impulseInvariant_reset (C : Constants) (H : Helpers) (e : EngineMultiRobot)
    (resetRandomNumbers removeAllForce : Bool) (h : impulseInvariant C e) :
    impulseInvariant C (reset H e resetRandomNumbers removeAllForce) := by
  have h1 : impulseInvariant C (if e.isSimulationRunning_ then stop e else e) := by
    split_ifs
    · exact impulseInvariant_stop C e h
    · exact h
  unfold reset
  cases removeAllForce with
  | true =>
    apply impulseInvariant_of_empty
    intro systemData hsd
    cases resetRandomNumbers <;>
    · simp only [Bool.false_eq_true, if_false, if_true] at hsd
      obtain ⟨old, _, rfl⟩ := List.mem_map.mp hsd
      rfl
  | false =>
    cases resetRandomNumbers <;>
    · simp only [Bool.false_eq_true, if_false, if_true]
      exact h1

/-- C15: in every engine state reachable through `registerForceImpulse`,
`removeForcesImpulse` and `reset` from a state without impulse, each impulse
`(t, dt)` held in a system's impulse register has both `t` and `t + dt` in that
system's break-time set and satisfies `dt >= STEPPER_MIN_TIMESTEP`, `t >= 0` and a
frame name different from `universe`. -/
theorem C15_impulse_register_invariant (C : Constants) (H : Helpers) (e : EngineMultiRobot)
    (hreach : impulseReachable C H e) :
    ∀ systemData ∈ e.systemsDataHolder_, ∀ force ∈ systemData.forcesImpulse,
      force.t ∈ systemData.forcesImpulseBreaks ∧
      force.t + force.dt ∈ systemData.forcesImpulseBreaks ∧
      C.STEPPER_MIN_TIMESTEP ≤ force.dt ∧ 0 ≤ force.t ∧ force.frameName ≠ "universe" := by
  show impulseInvariant C e
  induction hreach with
  | init e hempty => exact impulseInvariant_of_empty C e hempty
  | register e systemName frameName t dt F _ ih =>
    exact impulseInvariant_register C e systemName frameName t dt F ih
  | removeSystem e systemName _ ih => exact impulseInvariant_removeSystem C e systemName ih
  | removeAll e _ ih => exact impulseInvariant_removeAll C e ih
  | reset e a b _ ih => exact impulseInvariant_reset C H e a b ih

/-- C15 (witness): the sample engine after the registration of an impulse at
`t = 0.5` lasting `0.01` on frame `tip`. -/
theorem C15_impulse_register_invariant_witness :
    (registerForceImpulse specConstants idleEngine "robot" "tip" (1 / 2) (1 / 100)
      ⟨⟨0, 0, 10⟩, ⟨0, 0, 0⟩⟩).2.systemsDataHolder_.map
        (fun systemData => (systemData.forcesImpulse.map (fun force => (force.t, force.dt)),
          systemData.forcesImpulseBreaks)) = [([(1 / 2, 1 / 100)], [1 / 2, 51 / 100])] ∧
    (∀ systemData ∈ (registerForceImpulse specConstants idleEngine "robot" "tip" (1 / 2)
        (1 / 100) ⟨⟨0, 0, 10⟩, ⟨0, 0, 0⟩⟩).2.systemsDataHolder_,
      ∀ force ∈ systemData.forcesImpulse,
        force.t ∈ systemData.forcesImpulseBreaks ∧
        force.t + force.dt ∈ systemData.forcesImpulseBreaks ∧
        specConstants.STEPPER_MIN_TIMESTEP ≤ force.dt ∧ 0 ≤ force.t ∧
        force.frameName ≠ "universe") :=
  ⟨by decide!,
    C15_impulse_register_invariant specConstants specHelpers _
      (impulseReachable.register idleEngine "robot" "tip" (1 / 2) (1 / 100)
        ⟨⟨0, 0, 10⟩, ⟨0, 0, 0⟩⟩ (impulseReachable.init idleEngine (by decide!)))⟩

/-! ### Projected Gauss-Seidel solver -/

/-- The loop of the solver, entered after `j` sweeps with `iters` iterations
left, stops at the first of the sweeps `j + 1`, ..., `j + iters` that passes the
termination test. -/
theorem ProjectedGaussSeidelLoop_first {α : Type} [LinearOrderedField α] (sqrt : α → α)
    (tolAbs tolRel : α) (m : Nat) (cs : List (ConstraintData α))
    (A : Nat → Nat → α) (b : Nat → α) (n : Nat) (x : Nat → α) (iters : Nat) :
    ∀ j : Nat,
      ProjectedGaussSeidelLoop sqrt tolAbs tolRel m cs A b n iters (pgsSweeps sqrt cs A b n x j) =
        match (List.range' j iters).find? (fun k =>
          pgsConverged tolAbs tolRel m (pgsSweeps sqrt cs A b n x (k + 1)).y
            (pgsSweeps sqrt cs A b n x k).y) with
        | some k => (true, pgsSweeps sqrt cs A b n x (k + 1))
        | none => (false, pgsSweeps sqrt cs A b n x (j + iters)) := by
  induction iters with
  | zero => intro j; simp [ProjectedGaussSeidelLoop]
  | succ iters ih =>
    intro j
    rw [ProjectedGaussSeidelLoop, List.range'_succ, List.find?_cons]
    by_cases h : pgsConverged tolAbs tolRel m (pgsSweeps sqrt cs A b n x (j + 1)).y
        (pgsSweeps sqrt cs A b n x j).y = true
    · have h1 : pgsConverged tolAbs tolRel m
          (ProjectedGaussSeidelIter sqrt cs A b n (pgsSweeps sqrt cs A b n x j)).y
          (pgsSweeps sqrt cs A b n x j).y = true := h
      simp only [h1, if_true, h]
      rfl
    · have h1 : ¬ pgsConverged tolAbs tolRel m
          (ProjectedGaussSeidelIter sqrt cs A b n (pgsSweeps sqrt cs A b n x j)).y
          (pgsSweeps sqrt cs A b n x j).y = true := h
      have h2 : pgsConverged tolAbs tolRel m (pgsSweeps sqrt cs A b n x (j + 1)).y
        (pgsSweeps sqrt cs A b n x j).y = false := by simpa using h
      simp only [h1, if_false, h2]
      have := ih (j + 1)
      rw [show j + (iters + 1) = j + 1 + iters by omega]
      exact this

/-- C18: `ProjectedGaussSeidelSolver` resets the residuals and makes at most
`maxIter_` sweeps. It returns true, with the state reached, at the first sweep
`k + 1 ≤ maxIter_` after which every entry of `|y - yPrev|` is strictly below
`tolAbs + tolRel * max|y|` (the residuals before the first sweep being zero), and
it returns false after `maxIter_` sweeps when none of them passes the test; with
`maxIter_ = 0` it returns false without any sweep. -/
theorem C18_pgs_solver_first_converged_sweep {α : Type} [LinearOrderedField α] (sqrt : α → α)
    (maxIter_ : Nat) (tolAbs tolRel : α) (m : Nat) (cs : List (ConstraintData α))
    (A : Nat → Nat → α) (b : Nat → α) (n : Nat) (x : Nat → α) :
    (ProjectedGaussSeidelSolver sqrt maxIter_ tolAbs tolRel m cs A b n x =
      match (List.range maxIter_).find? (fun k =>
        pgsConverged tolAbs tolRel m (pgsSweeps sqrt cs A b n x (k + 1)).y
          (pgsSweeps sqrt cs A b n x k).y) with
      | some k => (true, pgsSweeps sqrt cs A b n x (k + 1))
      | none => (false, pgsSweeps sqrt cs A b n x maxIter_))
    ∧ (pgsSweeps sqrt cs A b n x 0).y = (fun _ => 0)
    ∧ (∀ y yPrev : Nat → α, pgsConverged tolAbs tolRel m y yPrev = true ↔
        ∀ i < m, |y i - yPrev i| <
          tolAbs + tolRel * ((List.range m).map (fun i => |y i|)).foldl max 0)
    ∧ ProjectedGaussSeidelSolver sqrt 0 tolAbs tolRel m cs A b n x =
        (false, { x := x, y := fun _ => 0 }) := by
  refine ⟨?_, rfl, ?_, rfl⟩
  · have h := ProjectedGaussSeidelLoop_first sqrt tolAbs tolRel m cs A b n x maxIter_ 0
    rw [Nat.zero_add, ← List.range_eq_range'] at h
    exact h
  · intro y yPrev
    simp [pgsConverged]

/-- A loop of assignments to the rows `o + j`, `j` in `ks`, leaves the other rows
as they are. -/
theorem foldl_setAt_frame {α : Type} (g : (Nat → α) → Nat → α) (o : Nat) (ks : List Nat)
    (k : Nat) (hk : ∀ j ∈ ks, k ≠ o + j) :
    ∀ x0 : Nat → α, (ks.foldl (fun x j => setAt x (o + j) (g x j)) x0) k = x0 k := by
  induction ks with
  | nil => intro x0; rfl
  | cons j js ih =>
    intro x0
    rw [List.foldl_cons, ih (fun i hi => hk i (List.mem_cons_of_mem _ hi))]
    simp [setAt, hk j (List.mem_cons_self _ _)]

/-- The zeroing of a block only writes the multipliers of its first row and of
its middle rows. -/
theorem blockZero_frame {α : Type} [LinearOrderedField α] (o : Nat) (block : ConstraintBlock α)
    (st : pgsState α) (k : Nat)
    (hk0 : k ≠ o + block.fIdx.getD 0 0) (hk : ∀ j ∈ block.middle, k ≠ o + j) :
    (blockZero o block st).x k = st.x k := by
  simp only [blockZero]
  rw [foldl_setAt_frame (fun x j => x (o + j) * 0) o block.middle k hk]
  simp only [setAt, if_neg hk0]

/-- The common step of a block only writes the multipliers of its first row and
of its middle rows. -/
theorem blockUpdate_frame {α : Type} [LinearOrderedField α] (A : Nat → Nat → α)
    (b : Nat → α) (n o : Nat) (block : ConstraintBlock α) (st : pgsState α) (k : Nat)
    (hk0 : k ≠ o + block.fIdx.getD 0 0) (hk : ∀ j ∈ block.middle, k ≠ o + j) :
    (blockUpdate A b n o block st).x k = st.x k := by
  simp only [blockUpdate]
  rw [foldl_setAt_frame _ o block.middle k hk]
  simp only [setAt, if_neg hk0]

/-- The projection of a block only writes the multipliers of its first row and
of its middle rows. -/
theorem blockProject_frame {α : Type} [LinearOrderedField α] (sqrt : α → α) (o : Nat)
    (block : ConstraintBlock α) (st : pgsState α) (k : Nat)
    (hk0 : k ≠ o + block.fIdx.getD 0 0) (hk : ∀ j ∈ block.middle, k ≠ o + j) :
    (blockProject sqrt o block st).x k = st.x k := by
  unfold blockProject
  by_cases h1 : block.fSize = 1
  · simp only [h1, if_true, setAt, if_neg hk0]
  · simp only [if_neg h1]
    cases hhi : block.hi with
    | none => rfl
    | some hi =>
      simp only []
      by_cases h2 : block.fSize = 2
      · simp only [h2, if_true, setAt, if_neg hk0]
      · simp only [if_neg h2]
        split_ifs with h3
        · simp only []
          rw [foldl_setAt_frame _ o block.middle k hk]
          simp only [setAt, if_neg hk0]
        · rfl

/-- The treatment of a block only writes the multipliers of its first row and of
its middle rows. -/
theorem blockStep_frame {α : Type} [LinearOrderedField α] (sqrt : α → α) (A : Nat → Nat → α)
    (b : Nat → α) (n o : Nat) (block : ConstraintBlock α) (st : pgsState α) (k : Nat)
    (hk0 : k ≠ o + block.fIdx.getD 0 0) (hk : ∀ j ∈ block.middle, k ≠ o + j) :
    (blockStep sqrt A b n o block st).x k = st.x k := by
  unfold blockStep
  split_ifs
  · exact blockZero_frame o block st k hk0 hk
  · rw [blockProject_frame sqrt o block _ k hk0 hk, blockUpdate_frame A b n o block st k hk0 hk]

/-- The treatment of a block of a constraint built by the constructor leaves the
multipliers outside the rows of the constraint as they are. -/
theorem boundedStep_frame {α : Type} [LinearOrderedField α] (sqrt : α → α) (A : Nat → Nat → α)
    (b : Nat → α) (n i : Nat) (EPS friction torsion : α) (holderType : constraintsHolderType_t)
    (d : ConstraintData α) (hd : builtBy EPS friction torsion holderType d) (st : pgsState α)
    (k : Nat) (hk : d.isInactive = true ∨ k < d.startIdx ∨ d.startIdx + d.dim ≤ k) :
    (boundedStep sqrt A b n i d st).x k = st.x k := by
  obtain ⟨hn, hb, h1, h4⟩ := hd
  unfold boundedStep
  by_cases hskip : (d.isInactive || decide (d.nBlocks ≤ i)) = true
  · rw [if_pos hskip]
  · rw [if_neg hskip]
    simp only [Bool.or_eq_true, decide_eq_true_eq, not_or, not_le, Bool.not_eq_true] at hskip
    obtain ⟨hact, hi⟩ := hskip
    have hk1 : k < d.startIdx ∨ d.startIdx + d.dim ≤ k := by
      rcases hk with hk | hk
      · rw [hact] at hk; cases hk
      · exact hk
    cases holderType with
    | BOUNDS_JOINTS =>
      have hdim := h1 rfl
      simp only [PGSSolver.constraintData] at hn hb
      have hi0 : i = 0 := by omega
      subst hi0
      rw [hb]
      apply blockStep_frame
      · simp only [List.getD_cons_zero]; omega
      · intro j hj; simp [ConstraintBlock.middle] at hj
    | CONTACT_FRAMES =>
      have hdim := h4 (Or.inl rfl)
      simp only [PGSSolver.constraintData] at hn hb
      rw [hb]
      have hi3 : i = 0 ∨ i = 1 ∨ i = 2 := by omega
      rcases hi3 with hi3 | hi3 | hi3 <;> subst hi3 <;> apply blockStep_frame
      · simp; omega
      · intro j hj; simp [ConstraintBlock.middle] at hj
      · simp; omega
      · intro j hj; simp [ConstraintBlock.middle] at hj
      · simp; omega
      · intro j hj; simp [ConstraintBlock.middle] at hj; omega
    | COLLISION_BODIES =>
      have hdim := h4 (Or.inr rfl)
      simp only [PGSSolver.constraintData] at hn hb
      rw [hb]
      have hi3 : i = 0 ∨ i = 1 ∨ i = 2 := by omega
      rcases hi3 with hi3 | hi3 | hi3 <;> subst hi3 <;> apply blockStep_frame
      · simp; omega
      · intro j hj; simp [ConstraintBlock.middle] at hj
      · simp; omega
      · intro j hj; simp [ConstraintBlock.middle] at hj
      · simp; omega
      · intro j hj; simp [ConstraintBlock.middle] at hj; omega
    | USER =>
      simp only [PGSSolver.constraintData] at hn
      omega

/-- A property kept by every step of a loop holds after the loop. -/
theorem foldl_preserve {S D : Type} (step : D → S → S) (Q : S → Prop) :
    ∀ (cs : List D), (∀ d ∈ cs, ∀ s, Q s → Q (step d s)) → ∀ s, Q s →
      Q (cs.foldl (fun s d => step d s) s) := by
  intro cs
  induction cs with
  | nil => intro _ s hs; exact hs
  | cons d ds ih =>
    intro h s hs
    rw [List.foldl_cons]
    exact ih (fun a ha => h a (List.mem_cons_of_mem _ ha)) _ (h d (List.mem_cons_self _ _) s hs)

/-- A property `Q1` that the step of `c` establishes from `Q0`, where the steps
of the elements before `c` keep `Q0` and those of the elements after `c` keep
`Q1`, holds after a loop over a list that contains `c`. -/
theorem foldl_establish {S D : Type} (step : D → S → S) (R : D → D → Prop) (Q0 Q1 : S → Prop)
    (c : D) (hown : ∀ s, Q0 s → Q1 (step c s))
    (hbefore : ∀ d, R d c → ∀ s, Q0 s → Q0 (step d s))
    (hafter : ∀ d, R c d → ∀ s, Q1 s → Q1 (step d s)) :
    ∀ (cs : List D), c ∈ cs → cs.Pairwise R → ∀ s, Q0 s →
      Q1 (cs.foldl (fun s d => step d s) s) := by
  intro cs
  induction cs with
  | nil => intro hc; cases hc
  | cons d ds ih =>
    intro hc hp s hs
    rw [List.pairwise_cons] at hp
    rw [List.foldl_cons]
    by_cases hdc : c = d
    · subst hdc
      exact foldl_preserve step Q1 ds (fun a ha => hafter a (hp.1 a ha)) _ (hown s hs)
    · have hc1 : c ∈ ds := by
        rcases List.mem_cons.mp hc with h | h
        · exact absurd h hdc
        · exact h
      exact ih hc1 hp.2 _ (hbefore d (hp.1 c hc1) s hs)

/-- A single-row block with bounds `0` and `INF` leaves a non-negative multiplier. -/
theorem blockStep_lower_bound {α : Type} [LinearOrderedField α] (sqrt : α → α)
    (A : Nat → Nat → α) (b : Nat → α) (n o : Nat) (fIdx : List Nat) (st : pgsState α) :
    0 ≤ (blockStep sqrt A b n o
      { lo := some 0, hi := none, isZero := false, fIdx := fIdx, fSize := 1 } st).x
        (o + fIdx.getD 0 0) := by
  simp only [blockStep, blockProject, blockUpdate, clampBounds, setAt, if_true,
    Bool.false_eq_true, if_false]
  split_ifs with h
  · exact le_refl _
  · exact not_lt.mp h

/-- The torsion block leaves `|x[o+3]|` below `torsion * x[o+2]`. -/
theorem blockStep_torsion {α : Type} [LinearOrderedField α] (sqrt : α → α)
    (A : Nat → Nat → α) (b : Nat → α) (n o : Nat) (torsion : α) (isZero : Bool)
    (st : pgsState α) (ht : 0 ≤ torsion) (hx : 0 ≤ st.x (o + 2)) :
    |(blockStep sqrt A b n o
      { lo := none, hi := some torsion, isZero := isZero, fIdx := [3, 2, 0], fSize := 2 }
        st).x (o + 3)| ≤ torsion * st.x (o + 2) := by
  have hthr : 0 ≤ torsion * st.x (o + 2) := mul_nonneg ht hx
  cases isZero with
  | true =>
    simp [blockStep, blockZero, setAt, ConstraintBlock.middle]
    exact hthr
  | false =>
    simp [blockStep, blockProject, blockUpdate, clampBounds, setAt, ConstraintBlock.middle]
    split_ifs with h1 h2
    · rw [abs_neg, abs_of_nonneg hthr]
    · rw [abs_of_nonneg hthr]
    · exact abs_le.mpr ⟨not_lt.mp h1, not_lt.mp h2⟩

/-- Scaling a vector of the plane by `thr / sqrt(squaredNorm)` puts it on the
circle of radius `|thr|`. -/
theorem scaled_on_circle (e f thr : ℝ) (h : thr * thr < e * e + f * f) :
    (e * (thr / Real.sqrt (e * e + f * f))) ^ 2 + (f * (thr / Real.sqrt (e * e + f * f))) ^ 2
      = thr ^ 2 := by
  have hq : 0 < e * e + f * f := lt_of_le_of_lt (mul_self_nonneg thr) h
  have hs : Real.sqrt (e * e + f * f) ^ 2 = e * e + f * f := Real.sq_sqrt hq.le
  have hne : Real.sqrt (e * e + f * f) ≠ 0 := fun h0 => by
    rw [h0] at hs; simp at hs; linarith
  have : (e * (thr / Real.sqrt (e * e + f * f))) ^ 2 +
      (f * (thr / Real.sqrt (e * e + f * f))) ^ 2 =
      thr ^ 2 * (e * e + f * f) / Real.sqrt (e * e + f * f) ^ 2 := by
    field_simp; ring
  rw [this, hs]
  field_simp

/-- The projection of the friction block leaves `(x[o], x[o+1])` in the disc of
radius `friction * x[o+2]`. -/
theorem blockProject_friction (o : Nat) (friction : ℝ) (isZero : Bool) (st : pgsState ℝ) :
    (blockProject Real.sqrt o
      { lo := none, hi := some friction, isZero := isZero, fIdx := [0, 1, 2], fSize := 3 }
        st).x o ^ 2 +
    (blockProject Real.sqrt o
      { lo := none, hi := some friction, isZero := isZero, fIdx := [0, 1, 2], fSize := 3 }
        st).x (o + 1) ^ 2 ≤ (friction * st.x (o + 2)) ^ 2 := by
  by_cases h : friction * st.x (o + 2) * (friction * st.x (o + 2)) <
      st.x o * st.x o + st.x (o + 1) * st.x (o + 1)
  · have hc := scaled_on_circle (st.x o) (st.x (o + 1)) (friction * st.x (o + 2)) h
    simp [blockProject, ConstraintBlock.middle, setAt, h]
    exact hc.le
  · simp [blockProject, ConstraintBlock.middle, setAt, h]
    nlinarith [not_lt.mp h]

/-- The friction block leaves `(x[o], x[o+1])` in the disc of radius
`friction * x[o+2]`. -/
theorem blockStep_friction (A : Nat → Nat → ℝ) (b : Nat → ℝ) (n o : Nat) (friction : ℝ)
    (isZero : Bool) (st : pgsState ℝ) :
    (blockStep Real.sqrt A b n o
      { lo := none, hi := some friction, isZero := isZero, fIdx := [0, 1, 2], fSize := 3 }
        st).x o ^ 2 +
    (blockStep Real.sqrt A b n o
      { lo := none, hi := some friction, isZero := isZero, fIdx := [0, 1, 2], fSize := 3 }
        st).x (o + 1) ^ 2 ≤ (friction * st.x (o + 2)) ^ 2 := by
  cases isZero with
  | true =>
    simp [blockStep, blockZero, setAt, ConstraintBlock.middle]
    positivity
  | false =>
    have hframe := blockUpdate_frame A b n o
      { lo := none, hi := some friction, isZero := false, fIdx := [0, 1, 2], fSize := 3 }
      st (o + 2) (by simp) (by simp [ConstraintBlock.middle])
    have hproj := blockProject_friction o friction false (blockUpdate A b n o
      { lo := none, hi := some friction, isZero := false, fIdx := [0, 1, 2], fSize := 3 } st)
    rw [hframe] at hproj
    simpa [blockStep] using hproj

/-- The treatment of a block of a constraint `d` leaves the multipliers of the
rows of an active constraint `c` as they are, when the rows of the two are
disjoint. -/
theorem boundedStep_other {α : Type} [LinearOrderedField α] (sqrt : α → α) (A : Nat → Nat → α)
    (b : Nat → α) (n i : Nat) (EPS friction torsion : α) (c d : ConstraintData α)
    (hact : c.isInactive = false) (hd : ∃ h, builtBy EPS friction torsion h d)
    (hR : disjointRows d c ∨ disjointRows c d) (st : pgsState α) (k : Nat)
    (hk1 : c.startIdx ≤ k) (hk2 : k < c.startIdx + c.dim) :
    (boundedStep sqrt A b n i d st).x k = st.x k := by
  obtain ⟨h, hd⟩ := hd
  apply boundedStep_frame sqrt A b n i EPS friction torsion h d hd
  unfold disjointRows at hR
  rw [hact] at hR
  rcases hR with (h1 | h1 | h1 | h1) | (h1 | h1 | h1 | h1)
  · exact Or.inl h1
  · cases h1
  · exact Or.inr (Or.inr (by omega))
  · exact Or.inr (Or.inl (by omega))
  · cases h1
  · exact Or.inl h1
  · exact Or.inr (Or.inl (by omega))
  · exact Or.inr (Or.inr (by omega))

/-- One pass of a sweep over the blocks of rank `i`. -/
theorem ProjectedGaussSeidelIter_passes {α : Type} [LinearOrderedField α] (sqrt : α → α)
    (cs : List (ConstraintData α)) (A : Nat → Nat → α) (b : Nat → α) (n : Nat)
    (st : pgsState α) :
    ProjectedGaussSeidelIter sqrt cs A b n st =
      cs.foldl (fun st c => boundedStep sqrt A b n 2 c st)
        (cs.foldl (fun st c => boundedStep sqrt A b n 1 c st)
          (cs.foldl (fun st c => boundedStep sqrt A b n 0 c st)
            (cs.foldl (fun st c => unboundedStep A b n c st) st))) := rfl

/-- C19: after one sweep `ProjectedGaussSeidelIter` over constraints built by the
solver with `friction ≥ 0` and `torsion ≥ 0`, a matrix with positive diagonal and
active constraints with pairwise disjoint row ranges, the multipliers of an active
joint-bound constraint of start index `o` satisfy `x[o] ≥ 0`, and those of an
active contact or collision constraint (of dimension at least 4) satisfy
`x[o+2] ≥ 0`, `|x[o+3]| ≤ torsion * x[o+2]` and
`x[o]^2 + x[o+1]^2 ≤ (friction * x[o+2])^2`. -/
theorem C19_pgs_sweep_feasible (EPS friction torsion : ℝ) (hf : 0 ≤ friction)
    (ht : 0 ≤ torsion) (cs : List (ConstraintData ℝ)) (A : Nat → Nat → ℝ) (b : Nat → ℝ)
    (n : Nat) (st : pgsState ℝ) (hA : ∀ i < n, 0 < A i i)
    (hbuilt : ∀ d ∈ cs, ∃ h, builtBy EPS friction torsion h d)
    (hpair : cs.Pairwise disjointRows)
    (c : ConstraintData ℝ) (hc : c ∈ cs) (hact : c.isInactive = false) :
    (builtBy EPS friction torsion .BOUNDS_JOINTS c →
      0 ≤ (ProjectedGaussSeidelIter Real.sqrt cs A b n st).x c.startIdx) ∧
    (builtBy EPS friction torsion .CONTACT_FRAMES c ∨
        builtBy EPS friction torsion .COLLISION_BODIES c →
      0 ≤ (ProjectedGaussSeidelIter Real.sqrt cs A b n st).x (c.startIdx + 2) ∧
      |(ProjectedGaussSeidelIter Real.sqrt cs A b n st).x (c.startIdx + 3)| ≤
        torsion * (ProjectedGaussSeidelIter Real.sqrt cs A b n st).x (c.startIdx + 2) ∧
      (ProjectedGaussSeidelIter Real.sqrt cs A b n st).x c.startIdx ^ 2 +
        (ProjectedGaussSeidelIter Real.sqrt cs A b n st).x (c.startIdx + 1) ^ 2 ≤
        (friction * (ProjectedGaussSeidelIter Real.sqrt cs A b n st).x (c.startIdx + 2)) ^ 2) := by
  have _hf := hf
  have _hA := hA
  have hpairR : cs.Pairwise (fun d e => disjointRows d e ∧
      (∃ h, builtBy EPS friction torsion h d) ∧ (∃ h, builtBy EPS friction torsion h e)) :=
    hpair.imp_of_mem (fun ha hb hab => ⟨hab, hbuilt _ ha, hbuilt _ hb⟩)
  have hoth : ∀ (i : Nat) (d : ConstraintData ℝ),
      (disjointRows d c ∨ disjointRows c d) → (∃ h, builtBy EPS friction torsion h d) →
      ∀ (s : pgsState ℝ) (k : Nat), c.startIdx ≤ k → k < c.startIdx + c.dim →
        (boundedStep Real.sqrt A b n i d s).x k = s.x k :=
    fun i d hR hd s k hk1 hk2 =>
      boundedStep_other Real.sqrt A b n i EPS friction torsion c d hact hd hR s k hk1 hk2
  have pass : ∀ (i : Nat) (Q0 Q1 : pgsState ℝ → Prop),
      (∀ s, Q0 s → Q1 (boundedStep Real.sqrt A b n i c s)) →
      (∀ d, (disjointRows d c ∨ disjointRows c d) →
        (∃ h, builtBy EPS friction torsion h d) → ∀ s, Q0 s →
          Q0 (boundedStep Real.sqrt A b n i d s)) →
      (∀ d, (disjointRows d c ∨ disjointRows c d) →
        (∃ h, builtBy EPS friction torsion h d) → ∀ s, Q1 s →
          Q1 (boundedStep Real.sqrt A b n i d s)) →
      ∀ s, Q0 s → Q1 (cs.foldl (fun st c => boundedStep Real.sqrt A b n i c st) s) := by
    intro i Q0 Q1 hown hQ0 hQ1 s hs
    refine foldl_establish (boundedStep Real.sqrt A b n i) _ Q0 Q1 c hown ?_ ?_ cs hc hpairR s hs
    · intro d hR s hs
      exact hQ0 d (Or.inl hR.1) hR.2.1 s hs
    · intro d hR s hs
      exact hQ1 d (Or.inr hR.1) hR.2.2 s hs
  rw [ProjectedGaussSeidelIter_passes]
  constructor
  · rintro ⟨hn, hb, h1, -⟩
    have hdim := h1 rfl
    simp only [PGSSolver.constraintData] at hn hb
    have keep : ∀ i d, (disjointRows d c ∨ disjointRows c d) →
        (∃ h, builtBy EPS friction torsion h d) → ∀ s : pgsState ℝ, 0 ≤ s.x c.startIdx →
          0 ≤ (boundedStep Real.sqrt A b n i d s).x c.startIdx := by
      intro i d hR hd s hs
      rw [hoth i d hR hd s _ (le_refl _) (by omega)]
      exact hs
    apply pass 2 (fun s => 0 ≤ s.x c.startIdx) (fun s => 0 ≤ s.x c.startIdx)
    · intro s hs
      simpa [boundedStep, hact, hn] using hs
    · exact keep 2
    · exact keep 2
    apply pass 1 (fun s => 0 ≤ s.x c.startIdx) (fun s => 0 ≤ s.x c.startIdx)
    · intro s hs
      simpa [boundedStep, hact, hn] using hs
    · exact keep 1
    · exact keep 1
    apply pass 0 (fun _ => True) (fun s => 0 ≤ s.x c.startIdx)
    · intro s _
      have h0 := blockStep_lower_bound Real.sqrt A b n c.startIdx [0, 0, 0] s
      simpa [boundedStep, hact, hn, hb] using h0
    · intro _ _ _ _ _; trivial
    · exact keep 0
    · trivial
  · intro hcontact
    have hshape : c.nBlocks = 3 ∧ c.blocks =
        [{ lo := some 0, hi := none, isZero := false, fIdx := [2, 0, 0], fSize := 1 },
         { lo := none, hi := some torsion, isZero := decide (torsion < EPS),
           fIdx := [3, 2, 0], fSize := 2 },
         { lo := none, hi := some friction, isZero := decide (friction < EPS),
           fIdx := [0, 1, 2], fSize := 3 }] ∧ 4 ≤ c.dim := by
      rcases hcontact with ⟨hn, hb, -, h4⟩ | ⟨hn, hb, -, h4⟩
      · exact ⟨hn, hb, h4 (Or.inl rfl)⟩
      · exact ⟨hn, hb, h4 (Or.inr rfl)⟩
    obtain ⟨hn, hb, hdim⟩ := hshape
    have hx : ∀ i d, (disjointRows d c ∨ disjointRows c d) →
        (∃ h, builtBy EPS friction torsion h d) → ∀ s : pgsState ℝ,
          (boundedStep Real.sqrt A b n i d s).x c.startIdx = s.x c.startIdx ∧
          (boundedStep Real.sqrt A b n i d s).x (c.startIdx + 1) = s.x (c.startIdx + 1) ∧
          (boundedStep Real.sqrt A b n i d s).x (c.startIdx + 2) = s.x (c.startIdx + 2) ∧
          (boundedStep Real.sqrt A b n i d s).x (c.startIdx + 3) = s.x (c.startIdx + 3) :=
      fun i d hR hd s => ⟨hoth i d hR hd s _ (le_refl _) (by omega),
        hoth i d hR hd s _ (by omega) (by omega), hoth i d hR hd s _ (by omega) (by omega),
        hoth i d hR hd s _ (by omega) (by omega)⟩
    have keepN : ∀ i d, (disjointRows d c ∨ disjointRows c d) →
        (∃ h, builtBy EPS friction torsion h d) → ∀ s : pgsState ℝ,
          0 ≤ s.x (c.startIdx + 2) → 0 ≤ (boundedStep Real.sqrt A b n i d s).x (c.startIdx + 2) := by
      intro i d hR hd s hs
      rw [(hx i d hR hd s).2.2.1]
      exact hs
    have keepT : ∀ i d, (disjointRows d c ∨ disjointRows c d) →
        (∃ h, builtBy EPS friction torsion h d) → ∀ s : pgsState ℝ,
          (0 ≤ s.x (c.startIdx + 2) ∧ |s.x (c.startIdx + 3)| ≤ torsion * s.x (c.startIdx + 2)) →
          (0 ≤ (boundedStep Real.sqrt A b n i d s).x (c.startIdx + 2) ∧
            |(boundedStep Real.sqrt A b n i d s).x (c.startIdx + 3)| ≤
              torsion * (boundedStep Real.sqrt A b n i d s).x (c.startIdx + 2)) := by
      intro i d hR hd s hs
      rw [(hx i d hR hd s).2.2.1, (hx i d hR hd s).2.2.2]
      exact hs
    have keepF : ∀ i d, (disjointRows d c ∨ disjointRows c d) →
        (∃ h, builtBy EPS friction torsion h d) → ∀ s : pgsState ℝ,
          (0 ≤ s.x (c.startIdx + 2) ∧ |s.x (c.startIdx + 3)| ≤ torsion * s.x (c.startIdx + 2) ∧
            s.x c.startIdx ^ 2 + s.x (c.startIdx + 1) ^ 2 ≤
              (friction * s.x (c.startIdx + 2)) ^ 2) →
          (0 ≤ (boundedStep Real.sqrt A b n i d s).x (c.startIdx + 2) ∧
            |(boundedStep Real.sqrt A b n i d s).x (c.startIdx + 3)| ≤
              torsion * (boundedStep Real.sqrt A b n i d s).x (c.startIdx + 2) ∧
            (boundedStep Real.sqrt A b n i d s).x c.startIdx ^ 2 +
              (boundedStep Real.sqrt A b n i d s).x (c.startIdx + 1) ^ 2 ≤
              (friction * (boundedStep Real.sqrt A b n i d s).x (c.startIdx + 2)) ^ 2) := by
      intro i d hR hd s hs
      rw [(hx i d hR hd s).1, (hx i d hR hd s).2.1, (hx i d hR hd s).2.2.1,
        (hx i d hR hd s).2.2.2]
      exact hs
    apply pass 2 (fun s => 0 ≤ s.x (c.startIdx + 2) ∧
        |s.x (c.startIdx + 3)| ≤ torsion * s.x (c.startIdx + 2))
      (fun s => 0 ≤ s.x (c.startIdx + 2) ∧
        |s.x (c.startIdx + 3)| ≤ torsion * s.x (c.startIdx + 2) ∧
        s.x c.startIdx ^ 2 + s.x (c.startIdx + 1) ^ 2 ≤ (friction * s.x (c.startIdx + 2)) ^ 2)
    · intro s hs
      have hstep : boundedStep Real.sqrt A b n 2 c s = blockStep Real.sqrt A b n c.startIdx
          { lo := none, hi := some friction, isZero := decide (friction < EPS),
            fIdx := [0, 1, 2], fSize := 3 } s := by
        simp [boundedStep, hact, hn, hb]
      have h2 := blockStep_frame Real.sqrt A b n c.startIdx
        { lo := none, hi := some friction, isZero := decide (friction < EPS),
          fIdx := [0, 1, 2], fSize := 3 } s (c.startIdx + 2) (by simp)
          (by simp [ConstraintBlock.middle])
      have h3 := blockStep_frame Real.sqrt A b n c.startIdx
        { lo := none, hi := some friction, isZero := decide (friction < EPS),
          fIdx := [0, 1, 2], fSize := 3 } s (c.startIdx + 3) (by simp)
          (by simp [ConstraintBlock.middle])
      have hF := blockStep_friction A b n c.startIdx friction (decide (friction < EPS)) s
      simp only [hstep, h2, h3]
      exact ⟨hs.1, hs.2, hF⟩
    · exact keepT 2
    · exact keepF 2
    apply pass 1 (fun s => 0 ≤ s.x (c.startIdx + 2))
      (fun s => 0 ≤ s.x (c.startIdx + 2) ∧
        |s.x (c.startIdx + 3)| ≤ torsion * s.x (c.startIdx + 2))
    · intro s hs
      have hstep : boundedStep Real.sqrt A b n 1 c s = blockStep Real.sqrt A b n c.startIdx
          { lo := none, hi := some torsion, isZero := decide (torsion < EPS),
            fIdx := [3, 2, 0], fSize := 2 } s := by
        simp [boundedStep, hact, hn, hb]
      have h2 := blockStep_frame Real.sqrt A b n c.startIdx
        { lo := none, hi := some torsion, isZero := decide (torsion < EPS),
          fIdx := [3, 2, 0], fSize := 2 } s (c.startIdx + 2) (by simp)
          (by simp [ConstraintBlock.middle])
      have hT := blockStep_torsion Real.sqrt A b n c.startIdx torsion
        (decide (torsion < EPS)) s ht hs
      simp only [hstep, h2]
      exact ⟨hs, hT⟩
    · exact keepN 1
    · exact keepT 1
    apply pass 0 (fun _ => True) (fun s => 0 ≤ s.x (c.startIdx + 2))
    · intro s _
      have h0 := blockStep_lower_bound Real.sqrt A b n c.startIdx [2, 0, 0] s
      simpa [boundedStep, hact, hn, hb] using h0
    · intro _ _ _ _ _; trivial
    · exact keepN 0
    · trivial

/-- Witness of C19: a joint-bound constraint and a contact constraint, identity
matrix, right-hand side `-1` everywhere, zero initial multipliers. -/
theorem C19_pgs_sweep_feasible_witness :
    0 ≤ (ProjectedGaussSeidelIter Real.sqrt (samplePgsConstraints ℝ) (identityMatrix ℝ)
        (fun _ => -1) 5 { x := fun _ => 0, y := fun _ => 0 }).x (1 + 2) ∧
      |(ProjectedGaussSeidelIter Real.sqrt (samplePgsConstraints ℝ) (identityMatrix ℝ)
        (fun _ => -1) 5 { x := fun _ => 0, y := fun _ => 0 }).x (1 + 3)| ≤
        1 * (ProjectedGaussSeidelIter Real.sqrt (samplePgsConstraints ℝ) (identityMatrix ℝ)
          (fun _ => -1) 5 { x := fun _ => 0, y := fun _ => 0 }).x (1 + 2) ∧
      (ProjectedGaussSeidelIter Real.sqrt (samplePgsConstraints ℝ) (identityMatrix ℝ)
        (fun _ => -1) 5 { x := fun _ => 0, y := fun _ => 0 }).x 1 ^ 2 +
        (ProjectedGaussSeidelIter Real.sqrt (samplePgsConstraints ℝ) (identityMatrix ℝ)
          (fun _ => -1) 5 { x := fun _ => 0, y := fun _ => 0 }).x (1 + 1) ^ 2 ≤
        (1 * (ProjectedGaussSeidelIter Real.sqrt (samplePgsConstraints ℝ) (identityMatrix ℝ)
          (fun _ => -1) 5 { x := fun _ => 0, y := fun _ => 0 }).x (1 + 2)) ^ 2 :=
  (C19_pgs_sweep_feasible (1 / 1000) 1 1 zero_le_one zero_le_one (samplePgsConstraints ℝ)
    (identityMatrix ℝ) (fun _ => -1) 5 { x := fun _ => 0, y := fun _ => 0 }
    (fun i _ => by simp [identityMatrix])
    (fun d hd => by
      simp only [samplePgsConstraints, List.mem_cons, List.mem_singleton, List.mem_nil_iff,
        or_false] at hd
      rcases hd with rfl | rfl
      · exact ⟨.BOUNDS_JOINTS, rfl, rfl, fun _ => le_refl _, fun h => by simp at h⟩
      · exact ⟨.CONTACT_FRAMES, rfl, rfl, fun h => by simp at h, fun _ => le_refl _⟩)
    (by simp [samplePgsConstraints, disjointRows, PGSSolver.constraintData])
    { PGSSolver.constraintData (1 / 1000) 1 1 .CONTACT_FRAMES 4 with startIdx := 1 }
    (by simp [samplePgsConstraints]) rfl).2
      (Or.inl ⟨rfl, rfl, fun h => by simp at h, fun _ => le_refl _⟩)

/-! ### Block update of a sweep -/

/-- A loop of assignments of values that do not depend on the vector leaves, at
every row visited, the value assigned to it. -/
theorem foldl_setAt_value {α : Type} (v : Nat → α) (o : Nat) (ks : List Nat) (j0 : Nat)
    (hj0 : j0 ∈ ks) :
    ∀ x0 : Nat → α, (ks.foldl (fun x j => setAt x (o + j) (v j)) x0) (o + j0) = v j0 := by
  induction ks with
  | nil => cases hj0
  | cons j js ih =>
    intro x0
    rw [List.foldl_cons]
    by_cases hmem : j0 ∈ js
    · exact ih hmem _
    · have hj : j0 = j := by
        rcases List.mem_cons.mp hj0 with h | h
        · exact h
        · exact absurd h hmem
      subst hj
      rw [foldl_setAt_frame (fun _ j => v j) o js (o + j0)
        (fun i hi heq => hmem (by rw [Nat.add_left_cancel heq]; exact hi))]
      simp [setAt]

/-- A loop of increments of distinct rows adds its increment to every row
visited. -/
theorem foldl_setAt_add {α : Type} [Add α] (w : Nat → α) (o : Nat) (ks : List Nat)
    (hnodup : ks.Nodup) (j0 : Nat) (hj0 : j0 ∈ ks) :
    ∀ x0 : Nat → α,
      (ks.foldl (fun x j => setAt x (o + j) (x (o + j) + w j)) x0) (o + j0) =
        x0 (o + j0) + w j0 := by
  induction ks with
  | nil => cases hj0
  | cons j js ih =>
    intro x0
    rw [List.nodup_cons] at hnodup
    rw [List.foldl_cons]
    by_cases hmem : j0 ∈ js
    · rw [ih hnodup.2 hmem]
      have hne : o + j0 ≠ o + j := fun heq =>
        hnodup.1 (by rw [← Nat.add_left_cancel heq]; exact hmem)
      simp [setAt, hne]
    · have hj : j0 = j := by
        rcases List.mem_cons.mp hj0 with h | h
        · exact h
        · exact absurd h hmem
      subst hj
      rw [foldl_setAt_frame (fun x j => x (o + j) + w j) o js (o + j0)
        (fun i hi heq => hmem (by rw [Nat.add_left_cancel heq]; exact hi))]
      simp [setAt]

/-- The running maximum of the residual loop is the largest of the initial value
and of the diagonal coefficients visited. -/
theorem foldl_Amax {α : Type} [LinearOrderedField α] (A : Nat → Nat → α) (o : Nat)
    (ks : List Nat) :
    ∀ m0 : α,
      m0 ≤ ks.foldl (fun A_max j => if A (o + j) (o + j) > A_max then A (o + j) (o + j)
        else A_max) m0 ∧
      (∀ j ∈ ks, A (o + j) (o + j) ≤ ks.foldl (fun A_max j =>
        if A (o + j) (o + j) > A_max then A (o + j) (o + j) else A_max) m0) ∧
      (ks.foldl (fun A_max j => if A (o + j) (o + j) > A_max then A (o + j) (o + j)
        else A_max) m0 = m0 ∨
       ∃ j ∈ ks, ks.foldl (fun A_max j => if A (o + j) (o + j) > A_max then A (o + j) (o + j)
        else A_max) m0 = A (o + j) (o + j)) := by
  induction ks with
  | nil => intro m0; exact ⟨le_refl _, fun j hj => absurd hj (List.not_mem_nil j), Or.inl rfl⟩
  | cons j js ih =>
    intro m0
    rw [List.foldl_cons]
    obtain ⟨h1, h2, h3⟩ := ih (if A (o + j) (o + j) > m0 then A (o + j) (o + j) else m0)
    have hm0 : m0 ≤ (if A (o + j) (o + j) > m0 then A (o + j) (o + j) else m0) := by
      split_ifs with h
      · exact le_of_lt h
      · exact le_refl _
    have hj : A (o + j) (o + j) ≤ (if A (o + j) (o + j) > m0 then A (o + j) (o + j) else m0) := by
      split_ifs with h
      · exact le_refl _
      · exact not_lt.mp h
    refine ⟨le_trans hm0 h1, ?_, ?_⟩
    · intro i hi
      rcases List.mem_cons.mp hi with h | h
      · subst h; exact le_trans hj h1
      · exact h2 i h
    · rcases h3 with h3 | ⟨i, hi, h3⟩
      · by_cases h : A (o + j) (o + j) > m0
        · right
          refine ⟨j, List.mem_cons_self _ _, ?_⟩
          rw [h3, if_pos h]
        · left
          rw [h3, if_neg h]
      · exact Or.inr ⟨i, List.mem_cons_of_mem _ hi, h3⟩

/-- The rows that the common step of a block writes are the rows listed in the
block, but the last one when the block lists several rows. -/
theorem updated_rows_eq {α : Type} (block : ConstraintBlock α) (h1 : 1 ≤ block.fSize)
    (hlen : block.fSize ≤ block.fIdx.length) :
    block.fIdx.getD 0 0 :: block.middle = block.fIdx.take (max 1 (block.fSize - 1)) := by
  obtain ⟨lo, hi, isZero, fIdx, fSize⟩ := block
  simp only [ConstraintBlock.middle] at *
  cases fIdx with
  | nil => simp at hlen; omega
  | cons a rest =>
    cases fSize with
    | zero => omega
    | succ m =>
      cases m with
      | zero => simp
      | succ m => simp

/-- In a list without repetition among its first `m + 1` entries, the entry of
index `m` is not among the first `m`. -/
theorem getD_not_mem_take (l : List Nat) (m : Nat) (hm : m < l.length)
    (hnodup : (l.take (m + 1)).Nodup) : l.getD m 0 ∉ l.take m := by
  rw [List.take_succ, List.getElem?_eq_getElem hm] at hnodup
  rw [List.getD_eq_getElem _ _ hm]
  intro hmem
  have := (List.nodup_append.mp hnodup).2.2
  exact this hmem (by simp) 

/-- C20 (as the code has it): for a block that is not flagged `isZero`, listing
`fSize ≥ 1` distinct rows, the treatment of the block is the common step followed
by the projection, and the common step computes the residual
`y_k = b_k - A_k . x`, and adds `y_k / A_max` to the multiplier, for the rows `k`
listed in the block other than the last one when the block lists several rows
(the only row when it lists one), with `A_max` the largest diagonal coefficient
over those rows; every other row, the last listed one included, keeps its
residual and its multiplier. -/
theorem C20_block_update_all_but_last_row {α : Type} [LinearOrderedField α] (sqrt : α → α)
    (A : Nat → Nat → α) (b : Nat → α) (n o : Nat) (block : ConstraintBlock α)
    (st : pgsState α) (hsize : 1 ≤ block.fSize) (hlen : block.fSize ≤ block.fIdx.length)
    (hnodup : (block.fIdx.take block.fSize).Nodup) (hz : block.isZero = false) :
    blockStep sqrt A b n o block st =
      blockProject sqrt o block (blockUpdate A b n o block st) ∧
    (∀ j ∈ block.fIdx.take (max 1 (block.fSize - 1)),
      A (o + j) (o + j) ≤ blockAmax A o block) ∧
    (∃ j ∈ block.fIdx.take (max 1 (block.fSize - 1)),
      blockAmax A o block = A (o + j) (o + j)) ∧
    (∀ j ∈ block.fIdx.take (max 1 (block.fSize - 1)),
      (blockUpdate A b n o block st).y (o + j) = b (o + j) - colDot A n (o + j) st.x ∧
      (blockUpdate A b n o block st).x (o + j) =
        st.x (o + j) + (b (o + j) - colDot A n (o + j) st.x) / blockAmax A o block) ∧
    (∀ k, (∀ j ∈ block.fIdx.take (max 1 (block.fSize - 1)), k ≠ o + j) →
      (blockUpdate A b n o block st).x k = st.x k ∧
      (blockUpdate A b n o block st).y k = st.y k) ∧
    (2 ≤ block.fSize →
      block.fIdx.getD (block.fSize - 1) 0 ∉ block.fIdx.take (max 1 (block.fSize - 1))) := by
  have hrows := updated_rows_eq block hsize hlen
  have hnd : (block.fIdx.getD 0 0 :: block.middle).Nodup := by
    rw [hrows]
    exact hnodup.sublist (List.take_sublist_take_left _ (by omega))
  rw [← hrows]
  rw [List.nodup_cons] at hnd
  obtain ⟨hi0, hmid⟩ := hnd
  have hne : ∀ j ∈ block.middle, o + block.fIdx.getD 0 0 ≠ o + j := fun j hj heq =>
    hi0 (by rw [Nat.add_left_cancel heq]; exact hj)
  have hy : ∀ j ∈ block.fIdx.getD 0 0 :: block.middle,
      (blockUpdate A b n o block st).y (o + j) = b (o + j) - colDot A n (o + j) st.x := by
    intro j hj
    simp only [blockUpdate]
    rcases List.mem_cons.mp hj with h | h
    · subst h
      rw [foldl_setAt_frame (fun _ j => b (o + j) - colDot A n (o + j) st.x) o block.middle _ hne]
      simp only [setAt, if_true]
    · exact foldl_setAt_value (fun j => b (o + j) - colDot A n (o + j) st.x) o block.middle j h _
  obtain ⟨hA1, hA2, hA3⟩ := foldl_Amax A o block.middle
    (A (o + block.fIdx.getD 0 0) (o + block.fIdx.getD 0 0))
  refine ⟨by simp only [blockStep, hz, Bool.false_eq_true, if_false], ?_, ?_, ?_, ?_, ?_⟩
  · intro j hj
    rcases List.mem_cons.mp hj with h | h
    · subst h; exact hA1
    · exact hA2 j h
  · rcases hA3 with h | ⟨j, hj, h⟩
    · exact ⟨_, List.mem_cons_self _ _, h⟩
    · exact ⟨j, List.mem_cons_of_mem _ hj, h⟩
  · intro j hj
    refine ⟨hy j hj, ?_⟩
    rw [← hy j hj]
    rcases List.mem_cons.mp hj with h | h
    · subst h
      simp only [blockUpdate]
      rw [foldl_setAt_frame _ o block.middle _ hne]
      simp only [setAt, if_true]
    · have hjne : o + j ≠ o + block.fIdx.getD 0 0 := fun heq => hne j h heq.symm
      simp only [blockUpdate]
      rw [foldl_setAt_add (fun j => (block.middle.foldl
        (fun y j => setAt y (o + j) (b (o + j) - colDot A n (o + j) st.x))
        (setAt st.y (o + block.fIdx.getD 0 0) (b (o + block.fIdx.getD 0 0) -
          colDot A n (o + block.fIdx.getD 0 0) st.x))) (o + j) / blockAmax A o block)
        o block.middle hmid j h]
      simp only [setAt, if_neg hjne]
  · intro k hk
    have hk0 : k ≠ o + block.fIdx.getD 0 0 := hk _ (List.mem_cons_self _ _)
    have hkm : ∀ j ∈ block.middle, k ≠ o + j := fun j hj => hk j (List.mem_cons_of_mem _ hj)
    refine ⟨blockUpdate_frame A b n o block st k hk0 hkm, ?_⟩
    simp only [blockUpdate]
    rw [foldl_setAt_frame (fun _ j => b (o + j) - colDot A n (o + j) st.x) o block.middle k hkm]
    simp only [setAt, if_neg hk0]
  · intro h2
    rw [hrows, max_eq_right (by omega)]
    apply getD_not_mem_take _ _ (by omega)
    rw [Nat.sub_add_cancel hsize]
    exact hnodup

/-- Witness of C20: the torsion block of a contact constraint lists the rows 3
and 2, and its common step leaves the multiplier of row 2 as it is. -/
theorem C20_block_update_all_but_last_row_witness :
    (blockUpdate sampleDiagonal sampleRhs 4 0 sampleTorsionBlock
      { x := fun _ => 0, y := fun _ => 0 }).x 2 = 0 :=
  ((C20_block_update_all_but_last_row (fun q => q) sampleDiagonal sampleRhs 4 0
    sampleTorsionBlock { x := fun _ => 0, y := fun _ => 0 } (by decide) (by decide)
    (by decide) rfl).2.2.2.2.1 2 (by decide)).1

/-- C20 (counterexample to the claim as stated): for the torsion block of a
contact constraint, which lists the rows 3 and 2, with diagonal `(1, 1, 10, 1)`
and right-hand side `(0, 0, 10, 1/2)`, the common step takes `A_max = A_33 = 1`
although `A_22 = 10`, leaves the residual of row 2 at 0 although
`b_2 - A_2 . x = 10`, and yields `x_3 = 1/2`, where the rule over all the rows
listed yields `x_3 = 1/20`; a whole sweep ends with `x_3 = 1/2` as well. -/
theorem C20_last_listed_row_left_out :
    blockAmax sampleDiagonal 0 sampleTorsionBlock = 1 ∧ sampleDiagonal 2 2 = 10 ∧
    (blockUpdate sampleDiagonal sampleRhs 4 0 sampleTorsionBlock
      { x := fun _ => 0, y := fun _ => 0 }).y 2 = 0 ∧
    sampleRhs 2 - colDot sampleDiagonal 4 2 (fun _ => 0) = 10 ∧
    (blockUpdate sampleDiagonal sampleRhs 4 0 sampleTorsionBlock
      { x := fun _ => 0, y := fun _ => 0 }).x 3 = 1 / 2 ∧
    (blockUpdateAllRows sampleDiagonal sampleRhs 4 0 sampleTorsionBlock
      { x := fun _ => 0, y := fun _ => 0 }).x 3 = 1 / 20 ∧
    (ProjectedGaussSeidelIter (fun q => q) sampleContactOnly sampleDiagonal sampleRhs 4
      { x := fun _ => 0, y := fun _ => 0 }).x 3 = 1 / 2 := by
  decide!

/-! ### Log files in HDF5 format -/

/-- C11 (failing input): a log with one integer variable `iter` and one float
variable `energy` is written without error, and read back with the field names
`Global.Time`, `Global.Time`, `energy`: the group of the integer variable is
created under the name `fieldnames[0]`, not `fieldnames[1]`. The timestamps and
the rows of integer and float data are read back as they were. -/
theorem C11_integer_fieldnames_shifted :
    sampleLog.fieldnames = ["Global.Time", "iter", "energy"] ∧
    (writeLogHdf5 0 sampleLog).map
      (fun r => (r.1, (readLogHdf5 "Global.Time" r.2).1,
        (readLogHdf5 "Global.Time" r.2).2.fieldnames)) =
      some (hresult_t.SUCCESS, hresult_t.SUCCESS, ["Global.Time", "Global.Time", "energy"]) ∧
    (writeLogHdf5 0 sampleLog).map
      (fun r => ((readLogHdf5 "Global.Time" r.2).2.timestamps,
        (readLogHdf5 "Global.Time" r.2).2.intData,
        (readLogHdf5 "Global.Time" r.2).2.floatData)) =
      some (sampleLog.timestamps, sampleLog.intData, sampleLog.floatData) := by
  decide!

/-- Creating the datasets of a list of constants, when it succeeds, appends one
dataset per constant, in order. -/
theorem foldlM_createStringDataSet (kvs : List (String × List UInt8)) :
    ∀ acc res : List H5StringDataSet,
      kvs.foldlM (fun constants kv =>
        createStringDataSet constants kv.1 (max kv.2.length 1) kv.2) acc = some res →
      res = acc ++ kvs.map (fun kv =>
        { name := kv.1, size := max kv.2.length 1,
          data := (kv.2 ++ [0]).take (max kv.2.length 1) }) := by
  induction kvs with
  | nil =>
    intro acc res h
    simp only [List.foldlM_nil, pure, Option.some.injEq] at h
    simp [h]
  | cons kv kvs ih =>
    intro acc res h
    rw [List.foldlM_cons] at h
    simp only [bind, Option.bind_eq_some] at h
    obtain ⟨acc1, h1, h2⟩ := h
    unfold createStringDataSet at h1
    split_ifs at h1
    simp only [Option.some.injEq] at h1
    rw [ih acc1 res h2, ← h1]
    simp

/-- Bytes read back from the dataset written for the value `v`. -/
theorem stored_bytes (v : List UInt8) :
    (((v ++ [0]).take (max v.length 1)) ++ List.replicate (max v.length 1) 0).take
      (max v.length 1) = if v = [] then [0] else v := by
  cases v with
  | nil => simp
  | cons a v =>
    have h : max (a :: v).length 1 = (a :: v).length := by simp
    rw [h, if_neg (List.cons_ne_nil _ _), List.take_append_of_le_length (by simp),
      List.take_append_of_le_length (by simp)]
    simp

/-- A loop of `emplace_back` builds the list of the values appended. -/
theorem foldl_append_singleton {α β : Type} (f : α → β) (l : List α) :
    ∀ acc : List β, l.foldl (fun acc c => acc ++ [f c]) acc = acc ++ l.map f := by
  induction l with
  | nil => intro acc; simp
  | cons a l ih => intro acc; rw [List.foldl_cons, ih]; simp

/-- Reading the variables leaves the constants already read as they are. -/
theorem foldl_readField_constants (fields : List (String × H5Value)) :
    ∀ logData : logData_t, (fields.foldl readField logData).constants = logData.constants := by
  induction fields with
  | nil => intro logData; rfl
  | cons v fields ih =>
    intro logData
    rw [List.foldl_cons, ih]
    unfold readField
    simp only []
    split_ifs <;> rfl

/-- C12 (as the code has it): when `writeLogHdf5` succeeds, the constants read
back by `readLogHdf5` from the file written are, up to their order, the
constants of the log with the same names, a value that is not empty being read
back byte for byte, NUL bytes included, and an empty value being read back as
one NUL byte. -/
theorem C12_constants_round_trip (GLOBAL_TIME : String) (time : Int) (logData : logData_t)
    (r : hresult_t × H5File) (h : writeLogHdf5 time logData = some r) :
    ((readLogHdf5 GLOBAL_TIME r.2).2.constants).Perm
      (logData.constants.map (fun kv => (kv.1, if kv.2 = [] then [0] else kv.2))) ∧
    ∀ kv ∈ logData.constants,
      (kv.1, if kv.2 = [] then [0] else kv.2) ∈ (readLogHdf5 GLOBAL_TIME r.2).2.constants := by
  unfold writeLogHdf5 at h
  simp only [bind, Option.bind_eq_some, pure, Option.some.injEq] at h
  obtain ⟨cs, hcs, f1, -, f2, -, hr⟩ := h
  have hcs1 := foldlM_createStringDataSet _ _ _ hcs
  rw [List.nil_append] at hcs1
  have hperm : ((readLogHdf5 GLOBAL_TIME r.2).2.constants).Perm
      (logData.constants.map (fun kv => (kv.1, if kv.2 = [] then [0] else kv.2))) := by
    have hread : (readLogHdf5 GLOBAL_TIME r.2).2.constants =
        (iterateElems r.2.constantsGroup).map
          (fun c => (c.name, (c.data ++ List.replicate c.size 0).take c.size)) := by
      simp only [readLogHdf5, foldl_readField_constants]
      exact foldl_append_singleton _ _ []
    rw [hread, ← hr]
    simp only [iterateElems]
    refine ((List.perm_insertionSort _ _).map _).trans ?_
    rw [hcs1, List.map_map]
    apply List.Perm.of_eq
    apply List.map_congr_left
    intro kv _
    simp only [Function.comp, stored_bytes]
  refine ⟨hperm, fun kv hkv => ?_⟩
  exact hperm.symm.subset (List.mem_map.mpr ⟨kv, hkv, rfl⟩)

/-- Witness of C12: the sample log is written without error and its constants are
read back as the theorem says. -/
theorem C12_constants_round_trip_witness :
    ∃ r, writeLogHdf5 0 sampleLog = some r ∧
      ((readLogHdf5 "Global.Time" r.2).2.constants).Perm
        (sampleLog.constants.map (fun kv => (kv.1, if kv.2 = [] then [0] else kv.2))) := by
  have hs : (writeLogHdf5 0 sampleLog).isSome = true := by decide!
  obtain ⟨r, hr⟩ := Option.isSome_iff_exists.mp hs
  exact ⟨r, hr, (C12_constants_round_trip "Global.Time" 0 sampleLog r hr).1⟩

/-- C12 (counterexample to the claim as stated): the sample log has a constant
`empty` whose value is the empty string; the file is written without error and
the constant is read back with a value of one NUL byte. -/
theorem C12_empty_constant_read_as_nul :
    (("empty", []) : String × List UInt8) ∈ sampleLog.constants ∧
    (writeLogHdf5 0 sampleLog).map
      (fun r => (readLogHdf5 "Global.Time" r.2).2.constants) =
      some [("blob", [1, 0, 2, 0]), ("empty", [0]), ("name", [106, 105])] := by
  decide!

/-! ### Time advance of step -/

/-- The part of an iteration of `step` before the integration leaves the Kahan
compensation as it is. -/
theorem stepPrepare_tError {W : Type} (C : Constants) (env : stepEnvironment W)
    (st : stepState W) :
    (stepPrepare C env st).1.sim.stepperState_.tError = st.sim.stepperState_.tError := by
  unfold stepPrepare
  simp only []
  split_ifs <;> rfl

/-- A call of `tryStep` and the bookkeeping that follows leave the Kahan
compensation as it is. -/
theorem stepTry_tError {W : Type} (env : stepEnvironment W) (st : stepState W) (dt : ℚ) :
    (stepTry env st dt).2.2.sim.stepperState_.tError = st.sim.stepperState_.tError := by
  unfold stepTry
  simp only []
  split_ifs <;> rfl

/-- The beginning of an iteration of the discrete-time loop leaves the Kahan
compensation as it is. -/
theorem discretePrelude_tError {W : Type} (env : stepEnvironment W) (st : stepState W) :
    (discretePrelude env st).sim.stepperState_.tError = st.sim.stepperState_.tError := by
  unfold discretePrelude
  simp only []
  split_ifs <;> rfl

/-- An iteration of the discrete-time loop leaves the Kahan compensation as it
is. -/
theorem discreteIteration_tError {W : Type} (C : Constants) (env : stepEnvironment W)
    (tNext : ℚ) (st : stepState W) :
    (discreteIteration C env tNext st).2.sim.stepperState_.tError =
      st.sim.stepperState_.tError := by
  unfold discreteIteration
  simp only []
  split_ifs
  · exact discretePrelude_tError env st
  · exact discretePrelude_tError env st
  · exact discretePrelude_tError env st
  · rw [stepTry_tError]
    exact discretePrelude_tError env st

/-- The discrete-time loop leaves the Kahan compensation as it is. -/
theorem discreteLoop_tError {W : Type} (C : Constants) (env : stepEnvironment W) (tNext : ℚ)
    (fuel : Nat) :
    ∀ st st' : stepState W, discreteLoop C env tNext fuel st = some st' →
      st'.sim.stepperState_.tError = st.sim.stepperState_.tError := by
  induction fuel with
  | zero =>
    intro st st' h
    unfold discreteLoop at h
    split_ifs at h
    simp only [Option.some.injEq] at h
    rw [← h]
  | succ fuel ih =>
    intro st st' h
    unfold discreteLoop at h
    simp only [] at h
    split_ifs at h
    · rw [ih _ _ h, discreteIteration_tError]
    · simp only [Option.some.injEq] at h
      rw [← h, discreteIteration_tError]
    · simp only [Option.some.injEq] at h
      rw [← h]

/-- The continuous-time loop leaves the Kahan compensation as it is. -/
theorem continuousLoop_tError {W : Type} (env : stepEnvironment W) (fuel : Nat) :
    ∀ st st' : stepState W, continuousLoop env fuel st = some st' →
      st'.sim.stepperState_.tError = st.sim.stepperState_.tError := by
  induction fuel with
  | zero =>
    intro st st' h
    unfold continuousLoop at h
    cases h
  | succ fuel ih =>
    intro st st' h
    unfold continuousLoop at h
    simp only [] at h
    split_ifs at h
    · simp only [Option.some.injEq] at h
      rw [← h]
      rfl
    · simp only [Option.some.injEq] at h
      rw [← h, stepTry_tError]
      rfl
    · simp only [Option.some.injEq] at h
      rw [← h, stepTry_tError]
      rfl
    · rw [ih _ _ h, stepTry_tError]
      rfl

/-- The integration proper of an iteration of `step` leaves the Kahan
compensation as it is. -/
theorem stepIntegrate_tError {W : Type} (C : Constants) (env : stepEnvironment W) (fuel : Nat)
    (tEnd : ℚ) (tForceImpulseNext : Option ℚ) (st st' : stepState W)
    (h : stepIntegrate C env fuel tEnd tForceImpulseNext st = some st') :
    st'.sim.stepperState_.tError = st.sim.stepperState_.tError := by
  unfold stepIntegrate at h
  simp only [] at h
  cases hp : st.sim.engine.stepperUpdatePeriod_ with
  | none =>
    rw [hp] at h
    simp only [] at h
    rw [continuousLoop_tError env fuel _ _ h]
    rfl
  | some period =>
    rw [hp] at h
    simp only [] at h
    exact discreteLoop_tError C env _ fuel _ _ h

/-- The end of an iteration of `step` leaves the Kahan compensation as it is. -/
theorem stepFinish_tError {W : Type} (C : Constants) (env : stepEnvironment W)
    (st : stepState W) :
    (stepFinish C env st).sim.stepperState_.tError = st.sim.stepperState_.tError := by
  unfold stepFinish
  simp only []
  split_ifs <;> rfl

/-- The loop of `step` leaves the Kahan compensation as it is. -/
theorem stepLoop_tError {W : Type} (C : Constants) (env : stepEnvironment W) (fuel : Nat)
    (tEnd : ℚ) (n : Nat) :
    ∀ st st' : stepState W, stepLoop C env fuel tEnd n st = some st' →
      st'.sim.stepperState_.tError = st.sim.stepperState_.tError := by
  induction n with
  | zero =>
    intro st st' h
    unfold stepLoop at h
    split_ifs at h
    simp only [Option.some.injEq] at h
    rw [← h]
  | succ n ih =>
    intro st st' h
    unfold stepLoop at h
    split_ifs at h
    · simp only [Option.bind_eq_some] at h
      obtain ⟨st1, h1, h2⟩ := h
      unfold stepIteration at h1
      simp only [Option.map_eq_some'] at h1
      obtain ⟨st0, h0, h01⟩ := h1
      rw [ih _ _ h2, ← h01, stepFinish_tError,
        stepIntegrate_tError C env fuel tEnd _ _ _ h0, stepPrepare_tError]
    · simp only [Option.some.injEq] at h
      rw [← h]

/-- Time and Kahan compensation after a call of `step` that returns `SUCCESS`,
for a step size that is not replaced by the default one. -/
theorem step_success_time {W : Type} (C : Constants) (env : stepEnvironment W) (fuel : Nat)
    (s s' : simulationState W) (stepSize : ℚ) (hsize : ¬ stepSize < C.EPS)
    (h : step C env fuel s stepSize = some (.SUCCESS, s')) :
    s'.stepperState_.t = s.stepperState_.t + (stepSize - s.stepperState_.tError) ∧
    s'.stepperState_.tError =
      ((s.stepperState_.t + (stepSize - s.stepperState_.tError)) - s.stepperState_.t) -
        (stepSize - s.stepperState_.tError) := by
  unfold step at h
  simp only [if_neg hsize] at h
  split_ifs at h with h1 h2 h3 h4
  · simp at h
  · simp at h
  · simp at h
  · simp at h
  · simp only [Option.map_eq_some'] at h
    obtain ⟨st, hloop, hst⟩ := h
    have hErr := stepLoop_tError C env fuel _ fuel _ _ hloop
    split_ifs at hst with hrc
    · simp only [Prod.mk.injEq] at hst
      rw [← hst.2]
      exact ⟨rfl, hErr⟩
    · simp only [Prod.mk.injEq] at hst
      exact absurd hst.1 hrc

/-- Successive calls of `step` with the same size `h`, from a state without
compensation: time and compensation after `n` calls. -/
theorem stepsOfSize_time {W : Type} (C : Constants) (env : stepEnvironment W) (fuel : Nat)
    (h : ℚ) (hsize : ¬ h < C.EPS) (n : Nat) :
    ∀ s s' : simulationState W, s.stepperState_.tError = 0 →
      stepsOfSize C env fuel h n s = some s' →
      s'.stepperState_.t = s.stepperState_.t + n * h ∧ s'.stepperState_.tError = 0 := by
  induction n with
  | zero =>
    intro s s' herr hs
    simp only [stepsOfSize, Option.some.injEq] at hs
    rw [← hs]
    simp [herr]
  | succ n ih =>
    intro s s' herr hs
    unfold stepsOfSize at hs
    cases hstep : step C env fuel s h with
    | none => rw [hstep] at hs; simp at hs
    | some r =>
      obtain ⟨rc, s1⟩ := r
      rw [hstep] at hs
      cases rc with
      | SUCCESS =>
        simp only [] at hs
        obtain ⟨ht, he⟩ := step_success_time C env fuel s s1 h hsize hstep
        have he0 : s1.stepperState_.tError = 0 := by rw [he]; ring
        obtain ⟨ht', he'⟩ := ih s1 s' he0 hs
        refine ⟨?_, he'⟩
        rw [ht', ht, herr]
        push_cast
        ring
      | _ => simp at hs

/-- C13: whenever `step(stepSize)` with
`stepSize ≥ SIMULATION_MIN_TIMESTEP` returns `SUCCESS` (the constants being such
that `EPS ≤ SIMULATION_MIN_TIMESTEP`), the time of the stepper is
`tEnd = t_old + (stepSize - tError_old)`, whatever the stepper and the loops did
in between, and the compensation stored is
`(tEnd - t_old) - (stepSize - tError_old)`, which is 0 in exact arithmetic.
Hence `n` successive successful steps of size `h`, from a state at time 0 without
compensation (as the reset of the stepper state by `start` leaves it), end at
time `n * h`, and the time never decreases along such steps. -/
theorem C13_step_kahan_time_advance {W : Type} (C : Constants) (env : stepEnvironment W)
    (fuel : Nat) (stepSize : ℚ) (hEPS : C.EPS ≤ C.SIMULATION_MIN_TIMESTEP)
    (hmin : 0 ≤ C.SIMULATION_MIN_TIMESTEP) (hsize : C.SIMULATION_MIN_TIMESTEP ≤ stepSize) :
    (∀ s s' : simulationState W, step C env fuel s stepSize = some (.SUCCESS, s') →
      s'.stepperState_.t = s.stepperState_.t + (stepSize - s.stepperState_.tError) ∧
      s'.stepperState_.tError =
        ((s.stepperState_.t + (stepSize - s.stepperState_.tError)) - s.stepperState_.t) -
          (stepSize - s.stepperState_.tError) ∧
      s'.stepperState_.tError = 0) ∧
    (∀ (n : Nat) (s s' : simulationState W), s.stepperState_.t = 0 →
      s.stepperState_.tError = 0 → stepsOfSize C env fuel stepSize n s = some s' →
      s'.stepperState_.t = n * stepSize) ∧
    (∀ (j k : Nat) (s sj sk : simulationState W), s.stepperState_.tError = 0 → j ≤ k →
      stepsOfSize C env fuel stepSize j s = some sj →
      stepsOfSize C env fuel stepSize k s = some sk →
      sj.stepperState_.t ≤ sk.stepperState_.t) := by
  have hnot : ¬ stepSize < C.EPS := not_lt.mpr (le_trans hEPS hsize)
  have hpos : 0 ≤ stepSize := le_trans hmin hsize
  refine ⟨?_, ?_, ?_⟩
  · intro s s' h
    obtain ⟨ht, he⟩ := step_success_time C env fuel s s' stepSize hnot h
    exact ⟨ht, he, by rw [he]; ring⟩
  · intro n s s' ht he h
    rw [(stepsOfSize_time C env fuel stepSize hnot n s s' he h).1, ht, zero_add]
  · intro j k s sj sk he hjk hj hk
    rw [(stepsOfSize_time C env fuel stepSize hnot j s sj he hj).1,
      (stepsOfSize_time C env fuel stepSize hnot k s sk he hk).1]
    have : (j : ℚ) ≤ k := by exact_mod_cast hjk
    nlinarith

/-- Witness of C13: three steps of 1 ms of the sample simulation succeed and end
at 3 ms. -/
theorem C13_step_kahan_time_advance_witness :
    ∃ s', stepsOfSize specConstants (sampleEnvironment 1) 20 (1 / 1000) 3 sampleSimulation =
        some s' ∧ s'.stepperState_.t = (3 : Nat) * (1 / 1000) := by
  have hs : (stepsOfSize specConstants (sampleEnvironment 1) 20 (1 / 1000) 3
      sampleSimulation).isSome = true := by decide!
  obtain ⟨s', hs'⟩ := Option.isSome_iff_exists.mp hs
  exact ⟨s', hs', (C13_step_kahan_time_advance specConstants (sampleEnvironment 1) 20 (1 / 1000)
    (by decide!) (by decide!) (by decide!)).2.1 3 sampleSimulation s' rfl rfl hs'⟩

/-! ### Termination of simulate by a callback -/

/-- After `stop`, no simulation is running. -/
theorem stop_not_running (e : EngineMultiRobot) : (stop e).isSimulationRunning_ = false := by
  unfold stop
  simp only []
  split_ifs with h
  · simpa using h
  · rfl

/-- The loop of `simulate`, at an iteration where one of its `break` is taken,
ends at once with `SUCCESS` and without any further call of `step`. -/
theorem simulateLoop_break {W : Type} (C : Constants) (env : stepEnvironment W) (fuel : Nat)
    (tEnd : ℚ) (n : Nat) (s : simulationState W) (numSteps : Nat)
    (h : simulateBreak C env tEnd s = true) :
    simulateLoop C env fuel tEnd n s numSteps = some (.SUCCESS, s, numSteps) := by
  cases n with
  | zero => simp only [simulateLoop, h, if_true]
  | succ n => simp only [simulateLoop, h, if_true]

/-- The loop of `simulate` that gets to its iteration of rank `k` goes on from
there as a loop entered in the state reached, `k` calls of `step` having been
made. -/
theorem simulateLoop_iterations {W : Type} (C : Constants) (env : stepEnvironment W)
    (fuel : Nat) (tEnd : ℚ) (k : Nat) :
    ∀ (s sk : simulationState W) (n numSteps : Nat),
      simulateIterations C env fuel tEnd k s = some sk →
      simulateLoop C env fuel tEnd (n + k) s numSteps =
        simulateLoop C env fuel tEnd n sk (numSteps + k) := by
  induction k with
  | zero =>
    intro s sk n numSteps h
    simp only [simulateIterations, Option.some.injEq] at h
    rw [h]
    rfl
  | succ k ih =>
    intro s sk n numSteps h
    unfold simulateIterations at h
    rw [show n + (k + 1) = (n + k) + 1 by omega, simulateLoop]
    split_ifs at h with hb
    rw [if_neg hb]
    simp only [] at h ⊢
    cases hstep : step C env fuel s (match s.engine.stepperUpdatePeriod_ with
        | some stepperUpdatePeriod_ => min stepperUpdatePeriod_ (tEnd - s.stepperState_.t)
        | none => min (s.engine.engineOptions_.getD default).stepper.dtMax
            (tEnd - s.stepperState_.t)) with
    | none => rw [hstep] at h; simp at h
    | some r =>
      obtain ⟨rc, s1⟩ := r
      rw [hstep] at h
      cases rc with
      | SUCCESS =>
        simp only [] at h ⊢
        rw [if_pos trivial, ih s1 sk n (numSteps + 1) h]
        rw [show numSteps + 1 + k = numSteps + (k + 1) by omega]
      | _ => simp at h

/-- State in which `simulate` enters its loop when its checks pass and `start`
succeeds. -/
theorem simulateStart_success {W : Type} (C : Constants) (H : Helpers)
    (env : stepEnvironment W) (s : simulationState W) (tEnd : ℚ) (inp : startInputs)
    (hsys : s.engine.systems_.isEmpty = false) (htEnd : 5 / 1000 ≤ tEnd)
    (hstart : (start C H (reset H s.engine true false) inp).1 = .SUCCESS)
    (hlog : tEnd ≤ env.getMaximumLogTime (env.startWorld s.world)) :
    simulateStart C H env s tEnd inp =
      (.SUCCESS, { engine := (start C H (reset H s.engine true false) inp).2,
                   stepperState_ := env.stepperReset C.SIMULATION_MIN_TIMESTEP,
                   forcesImpulseBreakNextIt :=
                     (start C H (reset H s.engine true false) inp).2.systems_.map (fun _ => 0),
                   world := env.startWorld s.world }) := by
  unfold simulateStart
  simp only [hsys, Bool.false_eq_true, if_false, if_neg (not_lt.mpr htEnd), if_true, hstart,
    if_neg (not_lt.mpr hlog)]

/-- C14: let `simulate(tEnd)` be called with a system registered,
`tEnd ≥ 5e-3` not exceeding the maximum log time, and let `start` succeed. If the
loop of `simulate` gets to its iteration of rank `k` (after `k` calls of `step`),
and at this iteration `tEnd - t ≥ SIMULATION_MIN_TIMESTEP` and the callback of
some system returns false, then `simulate` makes no further call of `step` (it
made `k` of them), returns `SUCCESS`, leaves the state of this iteration but for
the effect of `stop`, and `isSimulationRunning_` is false when it returns. -/
theorem C14_callback_stops_simulation {W : Type} (C : Constants) (H : Helpers)
    (env : stepEnvironment W) (fuel : Nat) (s : simulationState W) (tEnd : ℚ)
    (inp : startInputs) (k : Nat) (sk : simulationState W)
    (hsys : s.engine.systems_.isEmpty = false) (htEnd : 5 / 1000 ≤ tEnd)
    (hstart : (start C H (reset H s.engine true false) inp).1 = .SUCCESS)
    (hlog : tEnd ≤ env.getMaximumLogTime (env.startWorld s.world))
    (hk : k ≤ fuel)
    (hiter : simulateIterations C env fuel tEnd k
      { engine := (start C H (reset H s.engine true false) inp).2,
        stepperState_ := env.stepperReset C.SIMULATION_MIN_TIMESTEP,
        forcesImpulseBreakNextIt :=
          (start C H (reset H s.engine true false) inp).2.systems_.map (fun _ => 0),
        world := env.startWorld s.world } = some sk)
    (htime : C.SIMULATION_MIN_TIMESTEP ≤ tEnd - sk.stepperState_.t)
    (hcallback : isCallbackFalse env sk = true) :
    simulate C H env fuel s tEnd inp =
      some (.SUCCESS, { sk with engine := stop sk.engine, world := env.stopWorld sk.world }, k) ∧
    (stop sk.engine).isSimulationRunning_ = false := by
  have _htime := htime
  refine ⟨?_, stop_not_running _⟩
  unfold simulate
  simp only [simulateStart_success C H env s tEnd inp hsys htEnd hstart hlog, if_true]
  obtain ⟨n, hn⟩ : ∃ n, fuel = n + k := ⟨fuel - k, by omega⟩
  have hbreak : simulateBreak C env tEnd sk = true := by
    simp only [simulateBreak, hcallback, Bool.or_true, Bool.true_or]
  have hloop := simulateLoop_iterations C env fuel tEnd k _ sk n 0 hiter
  rw [← hn] at hloop
  rw [hloop, simulateLoop_break C env fuel tEnd n sk _ hbreak]
  simp

/-- Witness of C14: the sample engine simulated for 10 ms with callbacks that
return false from 2 ms on; the loop makes two steps of 1 ms and stops. -/
theorem C14_callback_stops_simulation_witness :
    ∃ sk : simulationState Unit,
      simulate specConstants specHelpers (sampleEnvironment (2 / 1000)) 20 idleSimulation
        (1 / 100) smallForceStart =
      some (.SUCCESS, { sk with engine := stop sk.engine }, 2) ∧
      sk.stepperState_.t = 2 / 1000 ∧ (stop sk.engine).isSimulationRunning_ = false := by
  have hany : (simulateIterations specConstants (sampleEnvironment (2 / 1000)) 20 (1 / 100) 2
      { engine := (start specConstants specHelpers
          (reset specHelpers idleSimulation.engine true false) smallForceStart).2,
        stepperState_ :=
          (sampleEnvironment (2 / 1000)).stepperReset specConstants.SIMULATION_MIN_TIMESTEP,
        forcesImpulseBreakNextIt := (start specConstants specHelpers
          (reset specHelpers idleSimulation.engine true false) smallForceStart).2.systems_.map
            (fun _ => 0),
        world := () }).any (fun sk =>
          decide (specConstants.SIMULATION_MIN_TIMESTEP ≤ 1 / 100 - sk.stepperState_.t) &&
          isCallbackFalse (sampleEnvironment (2 / 1000)) sk &&
          decide (sk.stepperState_.t = 2 / 1000)) = true := by decide!
  cases hit : simulateIterations specConstants (sampleEnvironment (2 / 1000)) 20 (1 / 100) 2
      { engine := (start specConstants specHelpers
          (reset specHelpers idleSimulation.engine true false) smallForceStart).2,
        stepperState_ :=
          (sampleEnvironment (2 / 1000)).stepperReset specConstants.SIMULATION_MIN_TIMESTEP,
        forcesImpulseBreakNextIt := (start specConstants specHelpers
          (reset specHelpers idleSimulation.engine true false) smallForceStart).2.systems_.map
            (fun _ => 0),
        world := () } with
  | none => rw [hit] at hany; simp at hany
  | some sk =>
    rw [hit] at hany
    simp only [Option.any_some, Bool.and_eq_true, decide_eq_true_eq] at hany
    obtain ⟨⟨htime, hcallback⟩, ht⟩ := hany
    have h := C14_callback_stops_simulation specConstants specHelpers
      (sampleEnvironment (2 / 1000)) 20 idleSimulation (1 / 100) smallForceStart 2 sk
      (by decide!) (by decide!) (by decide!) (by decide!) (by decide!) hit htime hcallback
    exact ⟨sk, h.1, ht, h.2⟩

/-! ### Activation window of the impulse forces -/

/-- Flag of the impulse of rank `i` after the update of the active set in an
iteration of `step`. -/
theorem updateActiveSet_getElem (C : Constants) (t : ℚ) :
    ∀ (forces : List forceImpulse_t) (actives : List Bool) (i : Nat)
      (force : forceImpulse_t) (active : Bool),
      forces[i]? = some force → actives[i]? = some active →
      (updateActiveSet C t forces actives).1[i]? =
        some (if t ≥ force.t + force.dt - C.STEPPER_MIN_TIMESTEP then false
              else if t > force.t - C.STEPPER_MIN_TIMESTEP then true else active) := by
  intro forces
  induction forces with
  | nil => intro actives i force active hf; simp at hf
  | cons f forces ih =>
    intro actives i force active hf ha
    cases actives with
    | nil => simp at ha
    | cons a actives =>
      cases i with
      | zero =>
        simp only [List.getElem?_cons_zero, Option.some.injEq] at hf ha
        subst hf; subst ha
        simp only [updateActiveSet, List.getElem?_cons_zero, decide_eq_true_eq]
      | succ i =>
        simp only [List.getElem?_cons_succ] at hf ha
        simp only [updateActiveSet, List.getElem?_cons_succ]
        exact ih actives i force active hf ha

/-- Flag of the impulse of rank `i` after the loops of `start` on the active
set. -/
theorem activateAtStart_getElem (C : Constants) :
    ∀ (forces : List forceImpulse_t) (actives : List Bool) (i : Nat)
      (force : forceImpulse_t) (active : Bool),
      forces[i]? = some force → actives[i]? = some active →
      (activateAtStart C forces actives)[i]? =
        some (decide (force.t < C.STEPPER_MIN_TIMESTEP)) := by
  intro forces
  induction forces with
  | nil => intro actives i force active hf; simp at hf
  | cons f forces ih =>
    intro actives i force active hf ha
    cases actives with
    | nil => simp at ha
    | cons a actives =>
      cases i with
      | zero =>
        simp only [List.getElem?_cons_zero, Option.some.injEq] at hf
        subst hf
        simp only [activateAtStart, List.getElem?_cons_zero]
      | succ i =>
        simp only [List.getElem?_cons_succ] at hf ha
        simp only [activateAtStart, List.getElem?_cons_succ]
        exact ih actives i force active hf ha

/-- Data of the system of rank `j` after the first loop of an iteration of
`step`. -/
theorem updateImpulses_getElem (C : Constants) (t : ℚ) :
    ∀ (holder : List systemDataHolder_t) (its : List Nat) (tNext : Option ℚ) (j : Nat)
      (systemData : systemDataHolder_t) (it : Nat),
      holder[j]? = some systemData → its[j]? = some it →
      (updateImpulses C t holder its tNext).1[j]? =
        some { systemData with forcesImpulseActive :=
          (updateActiveSet C t systemData.forcesImpulse systemData.forcesImpulseActive).1 } := by
  intro holder
  induction holder with
  | nil => intro its tNext j systemData it hh; simp at hh
  | cons sd holder ih =>
    intro its tNext j systemData it hh hi
    cases its with
    | nil => simp at hi
    | cons it0 its =>
      cases j with
      | zero =>
        simp only [List.getElem?_cons_zero, Option.some.injEq] at hh
        subst hh
        simp only [updateImpulses, List.getElem?_cons_zero]
      | succ j =>
        simp only [List.getElem?_cons_succ] at hh hi
        simp only [updateImpulses, List.getElem?_cons_succ]
        exact ih its _ j systemData it hh hi

/-- The part of an iteration of `step` before the integration leaves in the
engine the per-system data of its first loop. -/
theorem stepPrepare_holder {W : Type} (C : Constants) (env : stepEnvironment W)
    (st : stepState W) :
    (stepPrepare C env st).1.sim.engine.systemsDataHolder_ =
      (updateImpulses C st.sim.stepperState_.t st.sim.engine.systemsDataHolder_
        st.sim.forcesImpulseBreakNextIt none).1 := by
  unfold stepPrepare
  simp only []
  split_ifs <;> rfl

/-- C21 (as the code has it): at the beginning of an iteration of `step` at time
`t`, the flag of an impulse `(t_f, dt_f)` becomes false if
`t ≥ t_f + dt_f - STEPPER_MIN_TIMESTEP`, else true if
`t > t_f - STEPPER_MIN_TIMESTEP`, else keeps its value; hence an impulse that was
inactive is active afterwards if and only if
`t_f - STEPPER_MIN_TIMESTEP < t < t_f + dt_f - STEPPER_MIN_TIMESTEP`, and every
impulse with `t ≥ t_f + dt_f - STEPPER_MIN_TIMESTEP` is inactive afterwards; this
is the flag found in the engine after the first part of the iteration. The flag
set by `start` is true if and only if `t_f < STEPPER_MIN_TIMESTEP`: this is the
same rule at `t = 0` when `STEPPER_MIN_TIMESTEP < t_f + dt_f`, `start` making no
test of deactivation. -/
theorem C21_impulse_activation_window {W : Type} (C : Constants) (env : stepEnvironment W)
    (st : stepState W) (j i it : Nat) (systemData : systemDataHolder_t)
    (force : forceImpulse_t) (active : Bool)
    (hsys : st.sim.engine.systemsDataHolder_[j]? = some systemData)
    (hit : st.sim.forcesImpulseBreakNextIt[j]? = some it)
    (hf : systemData.forcesImpulse[i]? = some force)
    (ha : systemData.forcesImpulseActive[i]? = some active) :
    (updateActiveSet C st.sim.stepperState_.t systemData.forcesImpulse
        systemData.forcesImpulseActive).1[i]? =
      some (if st.sim.stepperState_.t ≥ force.t + force.dt - C.STEPPER_MIN_TIMESTEP then false
            else if st.sim.stepperState_.t > force.t - C.STEPPER_MIN_TIMESTEP then true
            else active) ∧
    (active = false →
      ((updateActiveSet C st.sim.stepperState_.t systemData.forcesImpulse
          systemData.forcesImpulseActive).1[i]? = some true ↔
        force.t - C.STEPPER_MIN_TIMESTEP < st.sim.stepperState_.t ∧
        st.sim.stepperState_.t < force.t + force.dt - C.STEPPER_MIN_TIMESTEP)) ∧
    (st.sim.stepperState_.t ≥ force.t + force.dt - C.STEPPER_MIN_TIMESTEP →
      (updateActiveSet C st.sim.stepperState_.t systemData.forcesImpulse
        systemData.forcesImpulseActive).1[i]? = some false) ∧
    ((stepPrepare C env st).1.sim.engine.systemsDataHolder_[j]?.map
        (fun systemData1 => systemData1.forcesImpulseActive) =
      some (updateActiveSet C st.sim.stepperState_.t systemData.forcesImpulse
        systemData.forcesImpulseActive).1) ∧
    (activateAtStart C systemData.forcesImpulse systemData.forcesImpulseActive)[i]? =
      some (decide (force.t < C.STEPPER_MIN_TIMESTEP)) ∧
    (C.STEPPER_MIN_TIMESTEP < force.t + force.dt →
      ((activateAtStart C systemData.forcesImpulse systemData.forcesImpulseActive)[i]? =
          some true ↔
        force.t - C.STEPPER_MIN_TIMESTEP < 0 ∧
        0 < force.t + force.dt - C.STEPPER_MIN_TIMESTEP)) := by
  have hstep := updateActiveSet_getElem C st.sim.stepperState_.t systemData.forcesImpulse
    systemData.forcesImpulseActive i force active hf ha
  have hstart := activateAtStart_getElem C systemData.forcesImpulse
    systemData.forcesImpulseActive i force active hf ha
  refine ⟨hstep, ?_, ?_, ?_, hstart, ?_⟩
  · intro hact
    rw [hstep, hact]
    simp only [Option.some.injEq]
    constructor
    · intro h
      split_ifs at h with h1 h2
      exact ⟨h2, not_le.mp h1⟩
    · rintro ⟨h1, h2⟩
      rw [if_neg (not_le.mpr h2), if_pos h1]
  · intro h
    rw [hstep, if_pos h]
  · rw [stepPrepare_holder, updateImpulses_getElem C _ _ _ _ j systemData it hsys hit]
    rfl
  · intro hlong
    rw [hstart]
    simp only [Option.some.injEq, decide_eq_true_eq]
    constructor
    · intro h
      exact ⟨by linarith, by linarith⟩
    · rintro ⟨h, -⟩
      linarith

/-- C21 (counterexample to the claim as stated): the impulse starting at time 0
and lasting exactly `STEPPER_MIN_TIMESTEP` is accepted by `registerForceImpulse`;
`start` sets its flag to true, whereas the rule of `step` at `t = 0` gives false,
since `0 ≥ t_f + dt_f - STEPPER_MIN_TIMESTEP`. -/
theorem C21_start_activates_shortest_impulse :
    ((registerForceImpulse specConstants idleEngine "robot" "tip" shortestImpulse.t
        shortestImpulse.dt shortestImpulse.F).2.systemsDataHolder_.map
      (fun systemData => systemData.forcesImpulse)) = [[shortestImpulse]] ∧
    specConstants.STEPPER_MIN_TIMESTEP ≤ shortestImpulse.dt ∧
    (0 : ℚ) ≥ shortestImpulse.t + shortestImpulse.dt - specConstants.STEPPER_MIN_TIMESTEP ∧
    activateAtStart specConstants [shortestImpulse] [false] = [true] ∧
    (updateActiveSet specConstants 0 [shortestImpulse] [false]).1 = [false] := by
  decide!

/-- Witness of C21: in the sample simulation at time 0, an impulse registered at
1 ms stays inactive after the update of the active set. -/
theorem C21_impulse_activation_window_witness :
    (updateActiveSet specConstants 0
      [{ shortestImpulse with t := 1 / 1000, dt := 1 / 1000 }] [false]).1[0]? =
      some (if (0 : ℚ) ≥ 1 / 1000 + 1 / 1000 - specConstants.STEPPER_MIN_TIMESTEP then false
            else if (0 : ℚ) > 1 / 1000 - specConstants.STEPPER_MIN_TIMESTEP then true
            else false) :=
  (C21_impulse_activation_window specConstants (sampleEnvironment 1) sampleStepState 0 0 0
    { systemDataHolder_t.empty with
        forcesImpulse := [{ shortestImpulse with t := 1 / 1000, dt := 1 / 1000 }],
        forcesImpulseBreaks := [1 / 1000, 2 / 1000],
        forcesImpulseActive := [false] }
    { shortestImpulse with t := 1 / 1000, dt := 1 / 1000 } false rfl rfl rfl rfl).1

/-! ### Hysteresis of the contact and joint-bound constraints -/

/-- C22: with a contact model other than the spring-damper one,
`computeContactDynamicsAtFrame` leaves the constraint of the frame enabled when
the depth is negative, disabled when the depth exceeds `transitionEps` (which
`setOptions` requires to be non-negative), and with the flag it had when
`0 ≤ depth ≤ transitionEps`; hence a constraint that was enabled and is disabled
after the call has a depth above `transitionEps`. -/
theorem C22_contact_constraint_hysteresis {α : Type} [LinearOrderedField α]
    (sqrt tanh : α → α) (EPS : α) (contactOptions_ : contactOptions_t α)
    (contactModel_ : contactModel_t) (convert : Force α → Force α)
    (posFrame vContactInWorld : Vector3 α) (ground : α × Vector3 α)
    (constraint : FixedFrameConstraint α) (fextLocal : Force α)
    (hmodel : contactModel_ ≠ .SPRING_DAMPER) (heps : 0 ≤ contactOptions_.transitionEps) :
    (contactDepth sqrt posFrame ground < 0 →
      (computeContactDynamicsAtFrame sqrt tanh EPS contactOptions_ contactModel_ convert
        posFrame vContactInWorld ground constraint fextLocal).1.isEnabled = true) ∧
    (contactDepth sqrt posFrame ground > contactOptions_.transitionEps →
      (computeContactDynamicsAtFrame sqrt tanh EPS contactOptions_ contactModel_ convert
        posFrame vContactInWorld ground constraint fextLocal).1.isEnabled = false) ∧
    (0 ≤ contactDepth sqrt posFrame ground →
      contactDepth sqrt posFrame ground ≤ contactOptions_.transitionEps →
      (computeContactDynamicsAtFrame sqrt tanh EPS contactOptions_ contactModel_ convert
        posFrame vContactInWorld ground constraint fextLocal).1.isEnabled =
        constraint.isEnabled) ∧
    (constraint.isEnabled = true →
      (computeContactDynamicsAtFrame sqrt tanh EPS contactOptions_ contactModel_ convert
        posFrame vContactInWorld ground constraint fextLocal).1.isEnabled = false →
      contactDepth sqrt posFrame ground > contactOptions_.transitionEps) := by
  have key : (computeContactDynamicsAtFrame sqrt tanh EPS contactOptions_ contactModel_ convert
      posFrame vContactInWorld ground constraint fextLocal).1.isEnabled =
      (if contactDepth sqrt posFrame ground < 0 then true
       else if contactDepth sqrt posFrame ground > contactOptions_.transitionEps then false
       else constraint.isEnabled) := by
    unfold computeContactDynamicsAtFrame
    simp only [if_neg hmodel]
    split_ifs <;> simp_all
  rw [key]
  refine ⟨fun h => by rw [if_pos h], fun h => ?_, fun h1 h2 => ?_, fun h1 h2 => ?_⟩
  · rw [if_neg (not_lt.mpr (le_trans heps (le_of_lt h))), if_pos h]
  · rw [if_neg (not_lt.mpr h1), if_neg (not_lt.mpr h2)]
  · split_ifs at h2 with h3 h4
    · exact h4
    · rw [h1] at h2; cases h2

/-- Witness of C22: flat ground at height 0, frame half a millimetre above it,
`transitionEps` of one millimetre: the enabled constraint stays enabled. -/
theorem C22_contact_constraint_hysteresis_witness :
    (computeContactDynamicsAtFrame (fun x => x) (fun x => x) specConstants.EPS
      sampleOptions.contacts .CONSTRAINT (fun f => f) ⟨0, 0, 1 / 2000⟩ ⟨0, 0, 0⟩
      (0, ⟨0, 0, 1⟩) enabledFrameConstraint ⟨⟨0, 0, 0⟩, ⟨0, 0, 0⟩⟩).1.isEnabled =
      enabledFrameConstraint.isEnabled :=
  (C22_contact_constraint_hysteresis (fun x => x) (fun x => x) specConstants.EPS
    sampleOptions.contacts .CONSTRAINT (fun f => f) ⟨0, 0, 1 / 2000⟩ ⟨0, 0, 0⟩
    (0, ⟨0, 0, 1⟩) enabledFrameConstraint ⟨⟨0, 0, 0⟩, ⟨0, 0, 0⟩⟩ (by decide) (by decide!)).2.2.1
    (by decide!) (by decide!)

/-- C23 (as the code has it): for a bounded revolute or prismatic joint and a
contact model other than the spring-damper one, the position-limit update
enables the constraint, with reference configuration `clamp(q, q_min, q_max)`,
when `q < q_min` or `q > q_max`; it disables it when `q` lies in the open interval
`(q_min + eps, q_max - eps)`, `eps` being the non-negative `transitionEps`; and it
leaves the constraint as it is when `q` lies in `[q_min, q_max]` outside this open
interval, its endpoints `q_min + eps` and `q_max - eps` included. -/
theorem C23_joint_bound_constraint_update {α : Type} [LinearOrderedField α]
    (joint : JointModel) (Ia qJoint qJointMin qJointMax vJoint stiffness damping eps : α)
    (contactModel : contactModel_t) (constraint : JointConstraint α) (uJoint : α)
    (hjoint : joint = .revolute ∨ joint = .revoluteUnaligned ∨ joint = .prismatic ∨
      joint = .prismaticUnaligned)
    (hmodel : contactModel ≠ .SPRING_DAMPER) (heps : 0 ≤ eps) :
    (qJoint < qJointMin ∨ qJointMax < qJoint →
      (computePositionLimitsForcesAlgo joint Ia qJoint qJointMin qJointMax vJoint stiffness
        damping eps contactModel constraint uJoint).1.isEnabled = true ∧
      (computePositionLimitsForcesAlgo joint Ia qJoint qJointMin qJointMax vJoint stiffness
        damping eps contactModel constraint uJoint).1.referenceConfiguration =
        clamp qJoint qJointMin qJointMax) ∧
    (qJointMin + eps < qJoint → qJoint < qJointMax - eps →
      (computePositionLimitsForcesAlgo joint Ia qJoint qJointMin qJointMax vJoint stiffness
        damping eps contactModel constraint uJoint).1.isEnabled = false) ∧
    (qJointMin ≤ qJoint → qJoint ≤ qJointMax →
      qJoint ≤ qJointMin + eps ∨ qJointMax - eps ≤ qJoint →
      (computePositionLimitsForcesAlgo joint Ia qJoint qJointMin qJointMax vJoint stiffness
        damping eps contactModel constraint uJoint).1 = constraint) := by
  have key : computePositionLimitsForcesAlgo joint Ia qJoint qJointMin qJointMax vJoint
      stiffness damping eps contactModel constraint uJoint =
      (if qJointMax < qJoint ∨ qJoint < qJointMin then
        ({ isEnabled := true, referenceConfiguration := clamp qJoint qJointMin qJointMax,
           rotationDir := decide (qJointMax < qJoint) }, uJoint)
      else if qJointMin + eps < qJoint ∧ qJoint < qJointMax - eps then
        ({ constraint with isEnabled := false }, uJoint)
      else (constraint, uJoint)) := by
    rcases hjoint with h | h | h | h <;> subst h <;>
      simp only [computePositionLimitsForcesAlgo, if_neg hmodel]
  rw [key]
  refine ⟨fun h => ?_, fun h1 h2 => ?_, fun h1 h2 h3 => ?_⟩
  · rw [if_pos h.symm]
    exact ⟨rfl, rfl⟩
  · have hin : ¬ (qJointMax < qJoint ∨ qJoint < qJointMin) := by
      rintro (h | h) <;> linarith
    rw [if_neg hin, if_pos ⟨h1, h2⟩]
  · have hin : ¬ (qJointMax < qJoint ∨ qJoint < qJointMin) := by
      rintro (h | h) <;> linarith
    have hout : ¬ (qJointMin + eps < qJoint ∧ qJoint < qJointMax - eps) := by
      rintro ⟨h4, h5⟩
      rcases h3 with h | h <;> linarith
    rw [if_neg hin, if_neg hout]

/-- Witness of C23: a revolute joint with bounds 0 and 1 and `transitionEps` of
1/10, at `q = 1/2`: the constraint is disabled. -/
theorem C23_joint_bound_constraint_update_witness :
    (computePositionLimitsForcesAlgo JointModel.revolute (1 : ℚ) (1 / 2) 0 1 0 1000 10 (1 / 10)
      .CONSTRAINT enabledJointConstraint 0).1.isEnabled = false :=
  (C23_joint_bound_constraint_update JointModel.revolute (1 : ℚ) (1 / 2) 0 1 0 1000 10 (1 / 10)
    .CONSTRAINT enabledJointConstraint 0 (Or.inl rfl) (by decide) (by decide!)).2.1
    (by decide!) (by decide!)

/-- C23 (counterexample to the claim as stated): a revolute joint with bounds 0
and 1 and `transitionEps` of 1/10, at `q = q_min + eps = 1/10`, which lies in the
closed interval `[q_min + eps, q_max - eps]`: the enabled constraint is not
disabled. -/
theorem C23_endpoint_not_disabled :
    (0 : ℚ) + 1 / 10 ≤ 1 / 10 ∧ (1 / 10 : ℚ) ≤ 1 - 1 / 10 ∧
    (computePositionLimitsForcesAlgo JointModel.revolute (1 : ℚ) (1 / 10) 0 1 0 1000 10 (1 / 10)
      .CONSTRAINT enabledJointConstraint 0).1.isEnabled = true := by
  decide!

/-! ### Parallel registers of the impulse forces -/

/-- C24 (failing input): on the idle sample engine, an impulse is registered and
then removed with either overload of `removeForcesImpulse`: the register of the
impulses is empty, whereas the register of the active flags still has one entry
and the set of breakpoints still holds the two times of the impulse removed. A
`reset` with `removeAllForce` clears the three of them. -/
theorem C24_removeForcesImpulse_leaves_flags_and_breaks :
    ((removeForcesImpulse (registerForceImpulse specConstants idleEngine "robot" "tip" 0
        (1 / 1000) ⟨⟨0, 0, 1⟩, ⟨0, 0, 0⟩⟩).2).2.systemsDataHolder_.map
      (fun systemData => (systemData.forcesImpulse.length,
        systemData.forcesImpulseActive.length, systemData.forcesImpulseBreaks))) =
      [(0, 1, [0, 1 / 1000])] ∧
    ((removeForcesImpulseSystem (registerForceImpulse specConstants idleEngine "robot" "tip" 0
        (1 / 1000) ⟨⟨0, 0, 1⟩, ⟨0, 0, 0⟩⟩).2 "robot").2.systemsDataHolder_.map
      (fun systemData => (systemData.forcesImpulse.length,
        systemData.forcesImpulseActive.length, systemData.forcesImpulseBreaks))) =
      [(0, 1, [0, 1 / 1000])] ∧
    ((reset specHelpers (registerForceImpulse specConstants idleEngine "robot" "tip" 0
        (1 / 1000) ⟨⟨0, 0, 1⟩, ⟨0, 0, 0⟩⟩).2 false true).systemsDataHolder_.map
      (fun systemData => (systemData.forcesImpulse.length,
        systemData.forcesImpulseActive.length, systemData.forcesImpulseBreaks))) =
      [(0, 0, [])] := by
  decide!

/-! ### Failed reset of the constraints in start -/

/-- C25 (failing input): with two systems, when `resetConstraints` fails for the
first system and succeeds for the second one, `start` returns `SUCCESS` and the
simulation is running; when it fails for the second system only, `start` returns
the error and no simulation is running. -/
theorem C25_start_forgets_failed_reset :
    (start specConstants specHelpers twoSystemsEngine firstResetFailsStart).1 = .SUCCESS ∧
    (start specConstants specHelpers twoSystemsEngine
      firstResetFailsStart).2.isSimulationRunning_ = true ∧
    (firstResetFailsStart.probe 0).resetConstraints = .ERROR_GENERIC ∧
    (start specConstants specHelpers twoSystemsEngine lastResetFailsStart).1 =
      .ERROR_GENERIC ∧
    (start specConstants specHelpers twoSystemsEngine
      lastResetFailsStart).2.isSimulationRunning_ = false := by
  decide!

/-! ### Failed set-up of a controller -/

/-- C26 (failing input): a controller that has never been set up is initialised
with a set-up robot; when `computeCommand` returns an error, or when the command
or the internal dynamics has the wrong size, `initialize` returns the error and
the controller is initialised afterwards. When the call throws, or when the
robot is expired, the controller is not initialised. -/
theorem C26_initialize_failure_leaves_initialized :
    controllerInitialize freshController (some sampleRobot)
      { throws := false, returnCode := .ERROR_GENERIC, commandSizeOk := true,
        uCustomSizeOk := true } =
      (.ERROR_GENERIC, { isInitialized := true, robot_ := some 1 }) ∧
    controllerInitialize freshController (some sampleRobot)
      { throws := false, returnCode := .SUCCESS, commandSizeOk := false,
        uCustomSizeOk := true } =
      (.ERROR_BAD_INPUT, { isInitialized := true, robot_ := some 1 }) ∧
    controllerInitialize freshController (some sampleRobot)
      { throws := false, returnCode := .SUCCESS, commandSizeOk := true,
        uCustomSizeOk := false } =
      (.ERROR_BAD_INPUT, { isInitialized := true, robot_ := some 1 }) ∧
    (controllerInitialize freshController (some sampleRobot)
      { throws := true, returnCode := .SUCCESS, commandSizeOk := true,
        uCustomSizeOk := true }).2.isInitialized = false ∧
    (controllerInitialize freshController none bypassProbe).2.isInitialized = false := by
  decide

/-! ### Joint type from a joint index -/

/-- C27 (failing input): on a model of three joints, `getJointTypeFromIdx` reads
`model.joints` outside its range for the indices 3 (`njoints`) and 4, as well as
for the index `2^32 + 3`, which the conversion to `int32_t` turns into 3; it
returns `ERROR_GENERIC` from the index 5 (`njoints + 2`) on only. -/
theorem C27_getJointTypeFromIdx_reads_out_of_range :
    sampleModel.njoints = 3 ∧ sampleModel.joints.length = 3 ∧
    getJointTypeFromIdx sampleModel 2 = some (.SUCCESS, some .LINEAR) ∧
    getJointTypeFromIdx sampleModel 3 = none ∧
    getJointTypeFromIdx sampleModel 4 = none ∧
    getJointTypeFromIdx sampleModel (2 ^ 32 + 3) = none ∧
    getJointTypeFromIdx sampleModel 5 = some (.ERROR_GENERIC, none) := by
  decide

/-! ### Exchange of two joints -/

/-- C30 (failing input): on the chain `universe`, `a`, `b`, where the subtree of
every joint starts with the joint and its support ends with it, after
`switchJoints(model, 1, 2)` the subtree of every joint still starts with the
joint, but the supports of the joints 1 and 2 end with 2 and 1: the indices are
exchanged in the supports, and the supports of the two joints are not. -/
theorem C30_switchJoints_supports_not_exchanged :
    ((List.range 3).all (fun i =>
      (sampleModel.subtrees.getD i []).head? == some i &&
      (sampleModel.supports.getD i []).getLast? == some i)) = true ∧
    (switchJoints sampleModel 1 2).subtrees = [[0, 2, 1], [1], [2, 1]] ∧
    (switchJoints sampleModel 1 2).supports = [[0], [0, 2], [0, 2, 1]] ∧
    ((switchJoints sampleModel 1 2).supports.getD 1 []).getLast? = some 2 ∧
    ((switchJoints sampleModel 1 2).supports.getD 2 []).getLast? = some 1 := by
  decide

/-- Entry of rank `i` of a joint-indexed list after the exchange of the entries
of two joints. -/
theorem switchEntries_getElem {β : Type} (l : List β) (first second i : Nat)
    (hfirst : first < l.length) (hsecond : second < l.length) :
    (switchEntries l first second)[i]? = l[switchIndex first second i]? := by
  unfold switchEntries switchIndex
  rw [List.getElem?_eq_getElem hfirst, List.getElem?_eq_getElem hsecond]
  simp only [List.getElem?_set, List.length_set]
  by_cases h2 : second = i
  · subst h2
    simp only [if_true, if_pos hsecond]
    by_cases h1 : first = second
    · simp only [h1, if_true]
      rw [List.getElem?_eq_getElem hsecond]
    · simp only [h1, if_false]
      rw [List.getElem?_eq_getElem hfirst]
  · simp only [h2, if_false]
    by_cases h1 : first = i
    · subst h1
      simp only [if_true, if_pos hfirst]
      rw [List.getElem?_eq_getElem hsecond]
    · simp only [h1, if_false]

/-- The exchange of two indices is its own inverse. -/
theorem switchIndex_switchIndex (first second i : Nat) :
    switchIndex first second (switchIndex first second i) = i := by
  unfold switchIndex
  split_ifs <;> omega

/-- The exchange of two indices below `n` keeps the indices below `n`. -/
theorem switchIndex_lt (first second i n : Nat) (hfirst : first < n) (hsecond : second < n)
    (hi : i < n) : switchIndex first second i < n := by
  unfold switchIndex
  split_ifs <;> assumption

/-- C29: `switchJoints` called with `firstJointIdx < secondJointIdx`, both
indices of joints of a model with as many parents as names, only relabels the
joints: the name of the joint of index `i` and the name of its parent after the
call are those of the joint of index `i` exchanged before the call, so that the
pairs (name, name of the parent) found in the model are the same, and the parent
joint of every frame keeps its name, as does the frame. -/
theorem C29_switchJoints_relabels_joints (model : Model) (first second : Nat)
    (hlt : first < second) (hsecond : second < model.names.length)
    (hlen : model.parents.length = model.names.length) :
    (∀ i, jointParentNames (switchJoints model first second) i =
      jointParentNames model (switchIndex first second i)) ∧
    (∀ pair, (∃ i, jointParentNames (switchJoints model first second) i = some pair) ↔
      (∃ j, jointParentNames model j = some pair)) ∧
    (∀ k : Nat, frameParentName (switchJoints model first second) k =
      frameParentName model k) ∧
    (∀ k : Nat, ((switchJoints model first second).frames[k]?).map Frame.name =
      (model.frames[k]?).map Frame.name) := by
  have hfirst : first < model.names.length := lt_trans hlt hsecond
  have hnames : ∀ i, (switchJoints model first second).names[i]? =
      model.names[switchIndex first second i]? := by
    intro i
    simp only [switchJoints, if_pos hlt]
    exact switchEntries_getElem model.names first second i hfirst hsecond
  have hparents : ∀ i, (switchJoints model first second).parents[i]? =
      (model.parents[switchIndex first second i]?).map (switchIndex first second) := by
    intro i
    simp only [switchJoints, if_pos hlt]
    rw [switchEntries_getElem _ first second i (by rw [List.length_map, hlen]; exact hfirst)
      (by rw [List.length_map, hlen]; exact hsecond), List.getElem?_map]
  have hframes : ∀ k : Nat, (switchJoints model first second).frames[k]? =
      (model.frames[k]?).map (fun frame =>
        { frame with parent := switchIndex first second frame.parent }) := by
    intro k
    simp only [switchJoints, if_pos hlt, List.getElem?_map]
  have hpairs : ∀ i, jointParentNames (switchJoints model first second) i =
      jointParentNames model (switchIndex first second i) := by
    intro i
    unfold jointParentNames
    rw [hnames, hparents]
    cases model.names[switchIndex first second i]? with
    | none => rfl
    | some name =>
      cases model.parents[switchIndex first second i]? with
      | none => rfl
      | some parent =>
        simp only [Option.map_some']
        rw [hnames, switchIndex_switchIndex]
  refine ⟨hpairs, fun pair => ⟨?_, ?_⟩, fun k => ?_, fun k => ?_⟩
  · rintro ⟨i, hi⟩
    exact ⟨switchIndex first second i, by rw [← hpairs]; exact hi⟩
  · rintro ⟨j, hj⟩
    exact ⟨switchIndex first second j, by rw [hpairs, switchIndex_switchIndex]; exact hj⟩
  · unfold frameParentName
    rw [hframes]
    cases model.frames[k]? with
    | none => rfl
    | some frame =>
      simp only [Option.map_some']
      rw [hnames, switchIndex_switchIndex]
  · rw [hframes]
    cases model.frames[k]? <;> rfl

/-- Witness of C29: on the chain `universe`, `a`, `b`, after the exchange of the
joints 1 and 2 the joint of index 1 and its parent have the names that the joint
of index 2 and its parent had. -/
theorem C29_switchJoints_relabels_joints_witness :
    jointParentNames (switchJoints sampleModel 1 2) 1 = jointParentNames sampleModel 2 ∧
    jointParentNames sampleModel 2 = some ("b", "a") :=
  ⟨(C29_switchJoints_relabels_joints sampleModel 1 2 (by decide) (by decide) (by decide)).1 1,
    by decide⟩

/-! ### Interpolation of a sequence of configurations -/

/-- A list accepted by `isSorted` is sorted. -/
theorem isSorted_pairwise : ∀ l : List ℚ, isSorted l = true → l.Pairwise (· ≤ ·) := by
  intro l
  induction l with
  | nil => intro _; exact List.Pairwise.nil
  | cons a l ih =>
    intro h
    cases l with
    | nil => exact List.pairwise_singleton _ _
    | cons b rest =>
      simp only [isSorted, Bool.and_eq_true, Bool.not_eq_true', decide_eq_false_iff_not,
        not_lt] at h
      have hp := ih h.2
      refine List.Pairwise.cons ?_ hp
      intro x hx
      rcases List.mem_cons.mp hx with hx | hx
      · rw [hx]; exact h.1
      · exact le_trans h.1 (List.rel_of_pairwise_cons hp hx)

/-- In a sorted list, entries are ordered as their ranks. -/
theorem sorted_getD_le (l : List ℚ) (h : l.Pairwise (· ≤ ·)) (i j : Nat) (hij : i ≤ j)
    (hj : j < l.length) : l.getD i 0 ≤ l.getD j 0 := by
  rw [List.getD_eq_getElem _ _ hj, List.getD_eq_getElem _ _ (lt_of_le_of_lt hij hj)]
  rcases Nat.lt_or_eq_of_le hij with hlt | heq
  · exact List.pairwise_iff_getElem.mp h i j (lt_of_le_of_lt hij hj) hj hlt
  · subst heq; exact le_refl _

/-- The inner loop of `interpolate`, given at least as many iterations as there
are input times left, stops at an index where its condition is false, having
passed only input times below `t`. -/
theorem interpolateAdvance_spec (timesIn : List ℚ) (t : ℚ) (fuel : Nat) :
    ∀ idx : Int, -1 ≤ idx → idx ≤ (timesIn.length : Int) - 1 →
      (timesIn.length : Int) - 1 - idx ≤ fuel →
      idx ≤ interpolateAdvance timesIn t fuel idx ∧
      interpolateAdvance timesIn t fuel idx ≤ (timesIn.length : Int) - 1 ∧
      (∀ j : Nat, idx < (j : Int) → (j : Int) ≤ interpolateAdvance timesIn t fuel idx →
        timesIn.getD j 0 < t) ∧
      ¬ (interpolateAdvance timesIn t fuel idx < (timesIn.length : Int) - 1 ∧
        timesIn.getD (interpolateAdvance timesIn t fuel idx + 1).toNat 0 < t) := by
  induction fuel with
  | zero =>
    intro idx h1 h2 h3
    simp only [interpolateAdvance]
    refine ⟨le_refl _, h2, fun j hj1 hj2 => by omega, fun h => by omega⟩
  | succ fuel ih =>
    intro idx h1 h2 h3
    unfold interpolateAdvance
    split_ifs with hc
    · obtain ⟨i1, i2, i3, i4⟩ := ih (idx + 1) (by omega) (by omega) (by push_cast at h3; omega)
      refine ⟨by omega, i2, fun j hj1 hj2 => ?_, i4⟩
      by_cases hj : (idx + 1 : Int) < j
      · exact i3 j hj hj2
      · have : j = (idx + 1).toNat := by omega
        rw [this]
        exact hc.2
    · exact ⟨le_refl _, h2, fun j hj1 hj2 => by omega, hc⟩

/-- The row written for the time `t` is the one the specification describes,
once the inner loop has stopped. -/
theorem interpolateRow_spec {Q : Type} [Inhabited Q] (pinocchioInterpolate : Q → Q → ℚ → Q)
    (timesIn : List ℚ) (positionsIn : List Q) (t : ℚ) (r : Int)
    (hne : 0 < timesIn.length) (hsorted : timesIn.Pairwise (· ≤ ·))
    (h1 : -1 ≤ r) (h2 : r ≤ (timesIn.length : Int) - 1)
    (hbelow : ∀ j : Nat, (j : Int) ≤ r → timesIn.getD j 0 < t)
    (hexit : ¬ (r < (timesIn.length : Int) - 1 ∧ timesIn.getD (r + 1).toNat 0 < t)) :
    isInterpolatedRow pinocchioInterpolate timesIn positionsIn t
      (interpolateRow pinocchioInterpolate timesIn positionsIn t r) := by
  refine ⟨fun hfirst => ?_, fun hlast => ?_, fun hfirst hlast => ?_⟩
  · have hr : r < 0 := by
      by_contra hr
      have := hbelow 0 (by push_cast; omega)
      linarith
    unfold interpolateRow
    rw [if_neg (by omega), if_pos hr]
  · have hr : r = (timesIn.length : Int) - 1 := by
      by_contra hr
      have hlt : r < (timesIn.length : Int) - 1 := by omega
      have hge : t ≤ timesIn.getD (r + 1).toNat 0 := not_lt.mp (fun h => hexit ⟨hlt, h⟩)
      have := sorted_getD_le timesIn hsorted (r + 1).toNat (timesIn.length - 1) (by omega)
        (by omega)
      linarith
    unfold interpolateRow
    rw [if_neg (by omega), if_neg (by omega)]
  · have hr0 : 0 ≤ r := by
      by_contra hr
      have hr1 : r = -1 := by omega
      apply hexit
      rw [hr1]
      exact ⟨by omega, by simpa using hfirst⟩
    have hr1 : r < (timesIn.length : Int) - 1 := by
      by_contra hr
      have hr2 : ((timesIn.length - 1 : Nat) : Int) ≤ r := by omega
      have := hbelow (timesIn.length - 1) hr2
      linarith
    have ha : timesIn.getD r.toNat 0 < t := hbelow r.toNat (by omega)
    have hb : t ≤ timesIn.getD (r + 1).toNat 0 := not_lt.mp (fun h => hexit ⟨hr1, h⟩)
    have hk : (r + 1).toNat = r.toNat + 1 := by omega
    have hden : 0 < timesIn.getD (r.toNat + 1) 0 - timesIn.getD r.toNat 0 := by
      rw [← hk]; linarith
    refine ⟨r.toNat, by omega, ha, by rw [← hk]; exact hb, hden, ?_, ?_, ?_⟩
    · exact div_pos (by linarith) hden
    · rw [div_le_one hden, ← hk]
      linarith
    · unfold interpolateRow
      rw [if_pos ⟨hr0, hr1⟩]
      simp only [hk]

/-- Every row written by the loop of `interpolate` is the one the specification
describes, and there is one row per output time. -/
theorem interpolateLoop_spec {Q : Type} [Inhabited Q] (pinocchioInterpolate : Q → Q → ℚ → Q)
    (timesIn : List ℚ) (positionsIn : List Q) (hne : 0 < timesIn.length)
    (hsorted : timesIn.Pairwise (· ≤ ·)) :
    ∀ (timesOut : List ℚ) (idx : Int), timesOut.Pairwise (· ≤ ·) → -1 ≤ idx →
      idx ≤ (timesIn.length : Int) - 1 →
      (∀ j : Nat, (j : Int) ≤ idx → ∀ t ∈ timesOut, timesIn.getD j 0 < t) →
      (interpolateLoop pinocchioInterpolate timesIn positionsIn timesOut idx).length =
        timesOut.length ∧
      ∀ (i : Nat) (t : ℚ), timesOut[i]? = some t →
        ∃ row, (interpolateLoop pinocchioInterpolate timesIn positionsIn timesOut idx)[i]? =
            some row ∧
          isInterpolatedRow pinocchioInterpolate timesIn positionsIn t row := by
  intro timesOut
  induction timesOut with
  | nil =>
    intro idx _ _ _ _
    exact ⟨rfl, fun i t h => by simp at h⟩
  | cons t0 rest ih =>
    intro idx hout h1 h2 hbelow
    rw [List.pairwise_cons] at hout
    obtain ⟨a1, a2, a3, a4⟩ := interpolateAdvance_spec timesIn t0 timesIn.length idx h1 h2
      (by omega)
    have hbelow0 : ∀ j : Nat,
        (j : Int) ≤ interpolateAdvance timesIn t0 timesIn.length idx →
        timesIn.getD j 0 < t0 := by
      intro j hj
      by_cases hji : (j : Int) ≤ idx
      · exact hbelow j hji t0 (List.mem_cons_self _ _)
      · exact a3 j (by omega) hj
    obtain ⟨ihlen, ihrow⟩ := ih (interpolateAdvance timesIn t0 timesIn.length idx) hout.2
      (by omega) a2 (fun j hj t ht => lt_of_lt_of_le (hbelow0 j hj) (hout.1 t ht))
    refine ⟨by simp only [interpolateLoop, List.length_cons, ihlen], fun i t hi => ?_⟩
    cases i with
    | zero =>
      simp only [List.getElem?_cons_zero, Option.some.injEq] at hi
      subst hi
      exact ⟨_, by simp only [interpolateLoop, List.getElem?_cons_zero],
        interpolateRow_spec pinocchioInterpolate timesIn positionsIn t0 _ hne hsorted
          (by omega) a2 hbelow0 a4⟩
    | succ i =>
      simp only [List.getElem?_cons_succ] at hi
      simp only [interpolateLoop, List.getElem?_cons_succ]
      exact ihrow i t hi

/-- C28: for a non-empty sorted `timesIn` (repeated times allowed), a sorted
`timesOut` and consistent dimensions, `interpolate` returns `SUCCESS` with one
row per output time, and the row for the time `t` is the first input row when
`t ≤ timesIn[0]`, the last input row when `t > timesIn[last]`, and otherwise the
interpolation of the library between two consecutive input rows `k` and `k + 1`
with `timesIn[k] < t ≤ timesIn[k + 1]`, for the ratio
`(t - timesIn[k]) / (timesIn[k + 1] - timesIn[k])`, whose denominator is positive
and which lies in `(0, 1]`. -/
theorem C28_interpolate_rows {Q : Type} [Inhabited Q] (pinocchioInterpolate : Q → Q → ℚ → Q)
    (nq : Nat) (timesIn : List ℚ) (positionsIn : List Q) (cols : Nat) (timesOut : List ℚ)
    (positionsOut : List Q) (hne : 0 < timesIn.length) (hsortedIn : isSorted timesIn = true)
    (hsortedOut : isSorted timesOut = true) (hrows : timesIn.length = positionsIn.length)
    (hcols : nq = cols) :
    (interpolate pinocchioInterpolate nq timesIn positionsIn cols timesOut positionsOut).1 =
      .SUCCESS ∧
    (interpolate pinocchioInterpolate nq timesIn positionsIn cols timesOut
      positionsOut).2.length = timesOut.length ∧
    ∀ (i : Nat) (t : ℚ), timesOut[i]? = some t →
      ∃ row, (interpolate pinocchioInterpolate nq timesIn positionsIn cols timesOut
          positionsOut).2[i]? = some row ∧
        isInterpolatedRow pinocchioInterpolate timesIn positionsIn t row := by
  have hres : interpolate pinocchioInterpolate nq timesIn positionsIn cols timesOut
      positionsOut =
      (.SUCCESS, interpolateLoop pinocchioInterpolate timesIn positionsIn timesOut (-1)) := by
    unfold interpolate
    rw [if_neg (by omega)]
    simp only [hsortedIn, hsortedOut, Bool.not_true, Bool.or_self, Bool.false_eq_true, if_false]
    rw [if_neg (by rintro (h | h) <;> contradiction)]
  rw [hres]
  obtain ⟨hlen, hrow⟩ := interpolateLoop_spec pinocchioInterpolate timesIn positionsIn hne
    (isSorted_pairwise timesIn hsortedIn) timesOut (-1) (isSorted_pairwise timesOut hsortedOut)
    (le_refl _) (by omega) (fun j hj => by omega)
  exact ⟨rfl, hlen, hrow⟩

/-- Witness of C28: input times 0, 1, 1, 3 with scalar rows, output times
-1, 1/2, 1, 2, 4, and the linear interpolation as kernel. -/
theorem C28_interpolate_rows_witness :
    (interpolate (fun (a b : ℚ) ratio => a + ratio * (b - a)) 1 [0, 1, 1, 3] [10, 20, 30, 40] 1
      [-1, 1 / 2, 1, 2, 4] []).1 = .SUCCESS ∧
    (interpolate (fun (a b : ℚ) ratio => a + ratio * (b - a)) 1 [0, 1, 1, 3] [10, 20, 30, 40] 1
      [-1, 1 / 2, 1, 2, 4] []).2 = [10, 15, 20, 35, 40] :=
  ⟨(C28_interpolate_rows (fun (a b : ℚ) ratio => a + ratio * (b - a)) 1 [0, 1, 1, 3]
      [10, 20, 30, 40] 1 [-1, 1 / 2, 1, 2, 4] [] (by decide) (by decide!) (by decide!)
      (by decide) (by decide)).1, by decide!⟩

end jiminy
